import Mathlib

/-!
# Minimap of the map window (`src/openrct2-ui/windows/Map.cpp`)

A shallow embedding of the coordinate transforms, the two tile classifiers, the
incremental rasterizer and the land-rights and park-entrance tools of `MapWindow`, followed
by the properties established about them.

Conventions of the embedding.

* `M` always stands for the constant `MAXIMUM_MAP_SIZE_TECHNICAL`.  Its declaration lives in a
  header that is not among the sources, so every definition takes it as a parameter; the value
  in the repository at this revision is `1001`.
* `int32_t` values are modelled by `Int`, `uint16_t`/`uint8_t` values by `Nat` with the
  conversions written out (`% 65536`, `% 256`).  For the coordinates and bitmap offsets no
  wrap-around is written: for `M = 1001` the largest magnitude reached is `4 * M * M`.
* C++ `/` on `int32_t` truncates toward zero and is `Int.tdiv`.
-/

namespace OpenRCT2

/-! ## Constants -/

/-- Modelled from the spec: `COORDS_XY_STEP` is declared in a header outside the sources; it is
the tile size in world units, the `32` that `TransformToMapCoords` divides by. -/
def COORDS_XY_STEP : Int := 32

/-- Modelled from the spec: `MAXIMUM_MAP_SIZE_BIG` is declared next to
`MAXIMUM_MAP_SIZE_TECHNICAL` in a header outside the sources; it is the world extent in
world units, the technical tile count times the 32-unit tile size. -/
def MAXIMUM_MAP_SIZE_BIG (M : Int) : Int := COORDS_XY_STEP * M

/-- Modelled from the spec: `MAXIMUM_TILE_START_XY`, the world coordinate at which the last
tile starts (declared in the same missing header). -/
def MAXIMUM_TILE_START_XY (M : Int) : Int := MAXIMUM_MAP_SIZE_BIG M - COORDS_XY_STEP

/-- Edge length of the minimap bitmap: `MAP_WINDOW_MAP_SIZE = MAXIMUM_MAP_SIZE_TECHNICAL * 2`. -/
def MAP_WINDOW_MAP_SIZE (M : Int) : Int := M * 2

/-- Modelled from the spec: the palette enumeration is declared outside the sources;
`PALETTE_INDEX_n` is the palette index `n`.  Palette index 0. -/
def PALETTE_INDEX_0 : Nat := 0
/-- Modelled from the spec: palette index 10, the void / unowned background. -/
def PALETTE_INDEX_10 : Nat := 10
/-- Modelled from the spec: palette index 13, dark grey. -/
def PALETTE_INDEX_13 : Nat := 13
/-- Modelled from the spec: palette index 14, lighter grey. -/
def PALETTE_INDEX_14 : Nat := 14
/-- Modelled from the spec: palette index 17. -/
def PALETTE_INDEX_17 : Nat := 17
/-- Modelled from the spec: palette index 20. -/
def PALETTE_INDEX_20 : Nat := 20
/-- Modelled from the spec: palette index 21, the ghost colour. -/
def PALETTE_INDEX_21 : Nat := 21
/-- Modelled from the spec: palette index 42. -/
def PALETTE_INDEX_42 : Nat := 42
/-- Modelled from the spec: palette index 55. -/
def PALETTE_INDEX_55 : Nat := 55
/-- Modelled from the spec: palette index 61. -/
def PALETTE_INDEX_61 : Nat := 61
/-- Modelled from the spec: palette index 99. -/
def PALETTE_INDEX_99 : Nat := 99
/-- Modelled from the spec: palette index 102. -/
def PALETTE_INDEX_102 : Nat := 102
/-- Modelled from the spec: palette index 136. -/
def PALETTE_INDEX_136 : Nat := 136
/-- Modelled from the spec: palette index 161. -/
def PALETTE_INDEX_161 : Nat := 161
/-- Modelled from the spec: palette index 183. -/
def PALETTE_INDEX_183 : Nat := 183
/-- Modelled from the spec: palette index 186. -/
def PALETTE_INDEX_186 : Nat := 186
/-- Modelled from the spec: palette index 194, the water colour of rides mode. -/
def PALETTE_INDEX_194 : Nat := 194
/-- Modelled from the spec: palette index 195, the water colour of people mode. -/
def PALETTE_INDEX_195 : Nat := 195
/-- Modelled from the spec: palette index 209. -/
def PALETTE_INDEX_209 : Nat := 209

/-! ## Colour packing (`Map.cpp` lines 41-52) -/

/-- `MapColour2(colourA, colourB) = (colourA << 8) | colourB`; both arguments are `uint8_t`,
the result is `uint16_t`. -/
def MapColour2 (colourA colourB : Nat) : Nat :=
  (((colourA % 256) <<< 8) ||| (colourB % 256)) % 65536

/-- `MapColour(colour) = MapColour2(colour, colour)`. -/
def MapColour (colour : Nat) : Nat := MapColour2 colour colour

/-- `MapColourUnowned(colour) = MapColour2((colour & 0xFF00) >> 8, PALETTE_INDEX_10)`. -/
def MapColourUnowned (colour : Nat) : Nat :=
  MapColour2 (((colour % 65536) &&& 0xFF00) >>> 8) PALETTE_INDEX_10

/-! ## Coordinates -/

/-- World coordinates (`CoordsXY`). -/
structure CoordsXY where
  x : Int
  y : Int
deriving DecidableEq, Repr

/-- Screen coordinates (`ScreenCoordsXY`). -/
structure ScreenCoordsXY where
  x : Int
  y : Int
deriving DecidableEq, Repr

/-- Tile coordinates (`TileCoordsXY`). -/
structure TileCoordsXY where
  x : Int
  y : Int
deriving DecidableEq, Repr

/-- Minimap pixel coordinates: `using MapCoordsXY = TileCoordsXY`. -/
abbrev MapCoordsXY := TileCoordsXY

/-- Modelled from the spec: `TileCoordsXY::ToCoordsXY` (declared outside the sources) scales a
tile coordinate by the 32-unit tile size. -/
def TileCoordsXY.ToCoordsXY (t : TileCoordsXY) : CoordsXY :=
  { x := t.x * COORDS_XY_STEP, y := t.y * COORDS_XY_STEP }

/-- `MapWindow::ScreenToMap` (lines 1342-1361); `rot` is `GetCurrentRotation()`. -/
def ScreenToMap (M : Int) (rot : Nat) (screenCoords : ScreenCoordsXY) : CoordsXY :=
  let sx : Int := ((screenCoords.x + 8) - M).tdiv 2
  let sy : Int := (screenCoords.y + 8).tdiv 2
  let location := (TileCoordsXY.mk (sy - sx) (sx + sy)).ToCoordsXY
  match rot with
  | 0 => location
  | 1 => { x := MAXIMUM_MAP_SIZE_BIG M - 1 - location.y, y := location.x }
  | 2 => { x := MAXIMUM_MAP_SIZE_BIG M - 1 - location.x, y := MAXIMUM_MAP_SIZE_BIG M - 1 - location.y }
  | 3 => { x := location.y, y := MAXIMUM_MAP_SIZE_BIG M - 1 - location.x }
  | _ => { x := 0, y := 0 }

/-- The `switch` of `MapWindow::TransformToMapCoords` (lines 1367-1383): the world coordinates
after the swap / mirror of the current rotation. -/
def TransformToMapCoords.rotated (M : Int) (rot : Nat) (c : CoordsXY) : Int × Int :=
  match rot with
  | 3 => (MAXIMUM_MAP_SIZE_BIG M - 1 - c.y, c.x)
  | 2 => (MAXIMUM_MAP_SIZE_BIG M - 1 - c.x, MAXIMUM_MAP_SIZE_BIG M - 1 - c.y)
  | 1 => (c.y, MAXIMUM_MAP_SIZE_BIG M - 1 - c.x)
  | _ => (c.x, c.y)

/-- `MapWindow::TransformToMapCoords` (lines 1363-1388); `rot` is `GetCurrentRotation()`. -/
def TransformToMapCoords (M : Int) (rot : Nat) (c : CoordsXY) : MapCoordsXY :=
  let x : Int := (TransformToMapCoords.rotated M rot c).1.tdiv 32
  let y : Int := (TransformToMapCoords.rotated M rot c).2.tdiv 32
  { x := -x + y + M - 8, y := x + y - 8 }

/-- The round trip of the two transforms: a world coordinate is projected to the minimap and
the pixel is handed back to `ScreenToMap` as a screen coordinate, under one rotation. -/
def roundTrip (M : Int) (rot : Nat) (c : CoordsXY) : CoordsXY :=
  ScreenToMap M rot { x := (TransformToMapCoords M rot c).x, y := (TransformToMapCoords M rot c).y }

/-- Two world coordinates lie in the same 32-unit tile. -/
def SameTile (a b : CoordsXY) : Prop :=
  a.x / 32 = b.x / 32 ∧ a.y / 32 = b.y / 32

instance (a b : CoordsXY) : Decidable (SameTile a b) := by
  unfold SameTile; infer_instance

/-- Sum of the two tile coordinates after the swap / mirror of rotation `rot`. -/
def rotatedTileSum (M : Int) (rot : Nat) (c : CoordsXY) : Int :=
  (TransformToMapCoords.rotated M rot c).1.tdiv 32 + (TransformToMapCoords.rotated M rot c).2.tdiv 32

/-! ## Tile elements -/

/-- Modelled from the spec: numeric value of `TileElementType::Surface` (the enumeration is
declared outside the sources; its order is that of the `ElementType...Colour` tables). -/
def TileElementType.Surface : Nat := 0
/-- Modelled from the spec: numeric value of `TileElementType::Path` (the enumeration is
declared outside the sources; its order is that of the `ElementType...Colour` tables). -/
def TileElementType.Path : Nat := 1
/-- Modelled from the spec: numeric value of `TileElementType::Track` (the enumeration is
declared outside the sources; its order is that of the `ElementType...Colour` tables). -/
def TileElementType.Track : Nat := 2
/-- Modelled from the spec: numeric value of `TileElementType::SmallScenery` (the enumeration is
declared outside the sources; its order is that of the `ElementType...Colour` tables). -/
def TileElementType.SmallScenery : Nat := 3
/-- Modelled from the spec: numeric value of `TileElementType::Entrance` (the enumeration is
declared outside the sources; its order is that of the `ElementType...Colour` tables). -/
def TileElementType.Entrance : Nat := 4
/-- Modelled from the spec: numeric value of `TileElementType::Wall` (the enumeration is
declared outside the sources; its order is that of the `ElementType...Colour` tables). -/
def TileElementType.Wall : Nat := 5
/-- Modelled from the spec: numeric value of `TileElementType::LargeScenery` (the enumeration is
declared outside the sources; its order is that of the `ElementType...Colour` tables). -/
def TileElementType.LargeScenery : Nat := 6
/-- Modelled from the spec: numeric value of `TileElementType::Banner` (the enumeration is
declared outside the sources; its order is that of the `ElementType...Colour` tables). -/
def TileElementType.Banner : Nat := 7

/-- Modelled from the spec: `ENTRANCE_TYPE_PARK_ENTRANCE` (declared outside the sources), the
third entrance type after ride entrance and ride exit. -/
def ENTRANCE_TYPE_PARK_ENTRANCE : Nat := 2

/-- Modelled from the spec: the colour key of a ride type descriptor (`RideColourKey`, declared
outside the sources), in the order of the comments of `RideKeyColours`. -/
inductive RideColourKey where
  | Ride | Food | Drink | Souvenir | Kiosk | FirstAid | CashMachine | Toilets
deriving DecidableEq, Repr

/-- What the classifiers and the tools read of one `TileElement`.  The accessors of the
element views (`AsSurface()`, `AsEntrance()`, `AsTrack()`) are flattened into one record.

* `GetType` is `EnumValue(GetType())`;
* `owned` is the test `GetOwnership() & OWNERSHIP_OWNED` of a surface element;
* `GetSurfaceStyleObject` is `none` for a null style object and otherwise carries
  `MapColours[0]` and `MapColours[1]`;
* `GetBaseZ` and `GetSlope` are read by the park-entrance tool only. -/
structure TileElement where
  GetType : Nat
  IsGhost : Bool
  IsLastForTile : Bool
  GetWaterHeight : Int
  owned : Bool
  GetSurfaceStyleObject : Option (Nat × Nat)
  GetEntranceType : Nat
  GetRideIndex : Nat
  GetBaseZ : Int := 0
  GetSlope : Nat := 0
deriving DecidableEq, Repr

/-- The world state the map window reads.

* `GetCurrentRotation` is the shared world rotation;
* `MapIsEdge` is the map-edge test of the world module;
* `tileElements c` is the element memory starting at the first element of the tile at `c`
  (`[]` when there is no element); elements are stored consecutively and a tile's chain ends at
  the first element flagged last-for-tile;
* `GetRide i` is `none` when `GetRide(i)` is null and otherwise the `ColourKey` of the ride's
  type descriptor. -/
structure World where
  GetCurrentRotation : Nat
  MapIsEdge : CoordsXY → Bool
  tileElements : CoordsXY → List TileElement
  GetRide : Nat → Option RideColourKey

/-- Modelled from the spec: `MapGetSurfaceElementAt` is defined in the world module, outside the
sources.  It locates the tile's surface element: the first element of surface type in the
tile's chain, returned together with the element memory that follows it, or `none` (null)
when the chain has none. -/
def MapGetSurfaceElementAt : List TileElement → Option (TileElement × List TileElement)
  | [] => none
  | e :: rest =>
    if e.GetType = TileElementType.Surface then some (e, rest)
    else if e.IsLastForTile then none
    else MapGetSurfaceElementAt rest

/-- `RideKeyColours` (lines 1402-1411). -/
def RideKeyColours : RideColourKey → Nat
  | .Ride => MapColour PALETTE_INDEX_61
  | .Food => MapColour PALETTE_INDEX_42
  | .Drink => MapColour PALETTE_INDEX_20
  | .Souvenir => MapColour PALETTE_INDEX_209
  | .Kiosk => MapColour PALETTE_INDEX_136
  | .FirstAid => MapColour PALETTE_INDEX_102
  | .CashMachine => MapColour PALETTE_INDEX_55
  | .Toilets => MapColour PALETTE_INDEX_161

/-- `WaterColour = MapColour(PALETTE_INDEX_195)` (line 1419). -/
def WaterColour : Nat := MapColour PALETTE_INDEX_195

/-- `ElementTypeMaskColour` (lines 1421-1430). -/
def ElementTypeMaskColour : List Nat :=
  [0xFFFF, 0x0000, 0x00FF, 0xFF00, 0x0000, 0xFFFF, 0x0000, 0xFFFF]

/-- `ElementTypeAddColour` (lines 1432-1441). -/
def ElementTypeAddColour : List Nat :=
  [MapColour PALETTE_INDEX_0,
   MapColour PALETTE_INDEX_17,
   MapColour2 PALETTE_INDEX_183 PALETTE_INDEX_0,
   MapColour2 PALETTE_INDEX_0 PALETTE_INDEX_99,
   MapColour PALETTE_INDEX_186,
   MapColour PALETTE_INDEX_0,
   MapColour PALETTE_INDEX_99,
   MapColour PALETTE_INDEX_0]

/-! ## People mode (`GetPixelColourPeep`, lines 1061-1098) -/

/-- The clipping of lines 1088-1092: an element type at or beyond the table size is treated as
`TileElementType::Surface`. -/
def GetPixelColourPeep.clipType (tileElementType : Nat) : Nat :=
  if tileElementType ≥ ElementTypeAddColour.length then TileElementType.Surface
  else tileElementType

/-- Lines 1088-1094: the effect of one non-ghost element on the running colour,
`colour &= ElementTypeMaskColour[t]; colour |= ElementTypeAddColour[t]`. -/
def GetPixelColourPeep.apply (colour : Nat) (tileElement : TileElement) : Nat :=
  (colour &&& ElementTypeMaskColour.getD (GetPixelColourPeep.clipType tileElement.GetType) 0)
    ||| ElementTypeAddColour.getD (GetPixelColourPeep.clipType tileElement.GetType) 0

/-- The loop `while (!(tileElement++)->IsLastForTile())` of lines 1080-1095.  `cur` is the
element the pointer is at when the condition is tested, the list is the memory behind it.
`none`: the pointer was advanced past the end of the element memory. -/
def GetPixelColourPeep.walk (colour : Nat) (cur : TileElement) :
    List TileElement → Option Nat
  | [] => if cur.IsLastForTile then some colour else none
  | next :: rest =>
    if cur.IsLastForTile then some colour
    else if next.IsGhost then some (MapColour PALETTE_INDEX_21)
    else GetPixelColourPeep.walk (GetPixelColourPeep.apply colour next) next rest

/-- Lines 1067-1076: the colour of the surface element before the chain is walked. -/
def GetPixelColourPeep.surfaceColour (surfaceElement : TileElement) : Nat :=
  let colour := MapColour PALETTE_INDEX_0
  let colour := match surfaceElement.GetSurfaceStyleObject with
    | some surfaceObject => MapColour2 surfaceObject.1 surfaceObject.2
    | none => colour
  let colour := if surfaceElement.GetWaterHeight > 0 then WaterColour else colour
  if !surfaceElement.owned then MapColourUnowned colour else colour

/-- `MapWindow::GetPixelColourPeep`. -/
def GetPixelColourPeep (w : World) (c : CoordsXY) : Option Nat :=
  match MapGetSurfaceElementAt (w.tileElements c) with
  | none => some 0
  | some (surfaceElement, rest) =>
    GetPixelColourPeep.walk (GetPixelColourPeep.surfaceColour surfaceElement) surfaceElement rest

/-! ## Rides mode (`GetPixelColourRide`, lines 1100-1162) -/

/-- The ride lookup shared by the `Entrance` and `Track` cases (lines 1134-1139, 1144-1149). -/
def GetPixelColourRide.rideColour (w : World) (rideIndex : Nat) (colourA : Nat) : Nat :=
  match w.GetRide rideIndex with
  | some colourKey => RideKeyColours colourKey
  | none => colourA

/-- The `switch (tileElement->GetType())` of lines 1118-1155 on the pair
`(colourA, colourB)`. -/
def GetPixelColourRide.step (w : World) (tileElement : TileElement) (colourA colourB : Nat) :
    Nat × Nat :=
  if tileElement.GetType = TileElementType.Surface then
    let colourB := if tileElement.GetWaterHeight > 0 then MapColour PALETTE_INDEX_194 else colourB
    let colourB := if !tileElement.owned then MapColourUnowned colourB else colourB
    (colourA, colourB)
  else if tileElement.GetType = TileElementType.Path then
    (MapColour PALETTE_INDEX_14, colourB)
  else if tileElement.GetType = TileElementType.Entrance then
    if tileElement.GetEntranceType = ENTRANCE_TYPE_PARK_ENTRANCE then (colourA, colourB)
    else (GetPixelColourRide.rideColour w tileElement.GetRideIndex colourA, colourB)
  else if tileElement.GetType = TileElementType.Track then
    (GetPixelColourRide.rideColour w tileElement.GetRideIndex colourA, colourB)
  else (colourA, colourB)

/-- The `do ... while (!(tileElement++)->IsLastForTile())` loop of lines 1107-1156; the list
is the element memory from the pointer on.  `none`: the pointer left the element memory. -/
def GetPixelColourRide.walk (w : World) (colourA colourB : Nat) :
    List TileElement → Option (Nat × Nat)
  | [] => none
  | tileElement :: rest =>
    if tileElement.IsGhost then some (MapColour PALETTE_INDEX_21, colourB)
    else if tileElement.IsLastForTile then
      some (GetPixelColourRide.step w tileElement colourA colourB)
    else
      GetPixelColourRide.walk w (GetPixelColourRide.step w tileElement colourA colourB).1
        (GetPixelColourRide.step w tileElement colourA colourB).2 rest

/-- Lines 1158-1161: `colourA` if it is set, else `colourB`. -/
def GetPixelColourRide.result (colours : Nat × Nat) : Nat :=
  if colours.1 ≠ 0 then colours.1 else colours.2

/-- `MapWindow::GetPixelColourRide`. -/
def GetPixelColourRide (w : World) (c : CoordsXY) : Option Nat :=
  match MapGetSurfaceElementAt (w.tileElements c) with
  | none => some (GetPixelColourRide.result (0, MapColour PALETTE_INDEX_13))
  | some (surfaceElement, rest) =>
    (GetPixelColourRide.walk w 0 (MapColour PALETTE_INDEX_13) (surfaceElement :: rest)).map
      GetPixelColourRide.result

/-! ## The map window: bitmap, scan cursor and update tick -/

/-- Tab index of the people page (`PAGE_PEEPS`). -/
def PAGE_PEEPS : Nat := 0
/-- Tab index of the rides page (`PAGE_RIDES`). -/
def PAGE_RIDES : Nat := 1

/-- The fields of `MapWindow` (and of its `WindowBase`) that the rasterizer reads or writes.
The scroll position, which `CentreMapOnViewPoint` moves, is not part of the model. -/
structure MapWindow where
  _rotation : Nat
  _currentLine : Nat
  _mapImageData : List Nat
  selected_tab : Nat
  list_information_type : Nat
deriving DecidableEq, Repr

/-- `MapWindow::InitMap` (lines 923-927): fill the bitmap with `PALETTE_INDEX_10` and reset
the scan cursor. -/
def MapWindow.InitMap (s : MapWindow) : MapWindow :=
  { s with
    _mapImageData := List.replicate s._mapImageData.length PALETTE_INDEX_10,
    _currentLine := 0 }

/-- `MapWindow::ResetMap` (lines 916-920): `InitMap` followed by `CentreMapOnViewPoint`, which
only moves the scroll position. -/
def MapWindow.ResetMap (s : MapWindow) : MapWindow := s.InitMap

/-- The window as `WindowMapOpen` leaves it: the constructor sizes the bitmap to
`MAP_WINDOW_MAP_SIZE * MAP_WINDOW_MAP_SIZE` bytes, `OnOpen` (lines 147-168) stores the current
rotation and calls `InitMap`, and `WindowMapOpen` selects tab 0. -/
def MapWindow.OnOpen (M : Nat) (w : World) : MapWindow :=
  MapWindow.InitMap
    { _rotation := w.GetCurrentRotation,
      _currentLine := 0,
      _mapImageData := List.replicate ((M * 2) * (M * 2)) 0,
      selected_tab := 0,
      list_information_type := 0 }

/-- A store of a `uint8_t` through the `destination` pointer, at offset `index` from
`_mapImageData.data()`.  `none`: the offset is outside the buffer. -/
def MapWindow.storeByte (data : List Nat) (index : Int) (value : Nat) : Option (List Nat) :=
  if 0 ≤ index ∧ index < (data.length : Int) then some (data.set index.toNat (value % 256))
  else none

/-- The `switch (GetCurrentRotation())` of `SetMapPixels` (lines 1004-1030): the start
coordinate `(x, y)` and the step `(dx, dy)` of the scan line `currentLine`. -/
def MapWindow.SetMapPixels.start (M : Nat) (rot : Nat) (currentLine : Nat) :
    (Int × Int) × (Int × Int) :=
  match rot with
  | 0 => (((currentLine : Int) * COORDS_XY_STEP, 0), (0, COORDS_XY_STEP))
  | 1 => ((MAXIMUM_TILE_START_XY M, (currentLine : Int) * COORDS_XY_STEP), (-COORDS_XY_STEP, 0))
  | 2 => ((MAXIMUM_MAP_SIZE_BIG M - (((currentLine : Int) + 1) * COORDS_XY_STEP),
            MAXIMUM_TILE_START_XY M), (0, -COORDS_XY_STEP))
  | 3 => ((0, MAXIMUM_MAP_SIZE_BIG M - (((currentLine : Int) + 1) * COORDS_XY_STEP)),
            (COORDS_XY_STEP, 0))
  | _ => ((0, 0), (0, 0))

/-- The `switch (selected_tab)` of lines 1036-1045. -/
def MapWindow.SetMapPixels.colour (w : World) (selected_tab : Nat) (c : CoordsXY) :
    Option Nat :=
  if selected_tab = PAGE_PEEPS then GetPixelColourPeep w c
  else if selected_tab = PAGE_RIDES then GetPixelColourRide w c
  else some 0

/-- The body of the `for` loop of lines 1032-1055 for one tile: unless the tile is a map edge,
classify it and store the two bytes at `destination[0]` and `destination[1]`, where
`destination = data + py * MAP_WINDOW_MAP_SIZE + px`. -/
def MapWindow.SetMapPixels.pixel (M : Nat) (w : World) (selected_tab : Nat)
    (x y px py : Int) (data : List Nat) : Option (List Nat) :=
  if w.MapIsEdge { x := x, y := y } then some data
  else
    (MapWindow.SetMapPixels.colour w selected_tab { x := x, y := y }).bind fun colour =>
      (MapWindow.storeByte data (py * MAP_WINDOW_MAP_SIZE M + px)
          ((colour >>> 8) &&& 0xFF)).bind fun data1 =>
        MapWindow.storeByte data1 (py * MAP_WINDOW_MAP_SIZE M + px + 1) colour

/-- The `for` loop of lines 1032-1055 with `n` iterations left; `(x, y)` is the world
coordinate and `(px, py)` the `destinationPosition` of the next iteration. -/
def MapWindow.SetMapPixels.loop (M : Nat) (w : World) (selected_tab : Nat) (dx dy : Int) :
    Nat → Int → Int → Int → Int → List Nat → Option (List Nat)
  | 0, _, _, _, _, data => some data
  | n + 1, x, y, px, py, data =>
    (MapWindow.SetMapPixels.pixel M w selected_tab x y px py data).bind fun data1 =>
      MapWindow.SetMapPixels.loop M w selected_tab dx dy n (x + dx) (y + dy) (px + 1) (py + 1)
        data1

/-- `MapWindow::SetMapPixels` (lines 997-1059): rasterize the scan line `_currentLine` and
advance the cursor.  `none`: a classifier or a store left its memory. -/
def MapWindow.SetMapPixels (M : Nat) (w : World) (s : MapWindow) : Option MapWindow :=
  let pos : Int := ((s._currentLine : Int) * (MAP_WINDOW_MAP_SIZE M - 1)) + (M : Int) - 1
  let px : Int := pos.tmod (MAP_WINDOW_MAP_SIZE M)
  let py : Int := pos.tdiv (MAP_WINDOW_MAP_SIZE M)
  let start := MapWindow.SetMapPixels.start M w.GetCurrentRotation s._currentLine
  (MapWindow.SetMapPixels.loop M w s.selected_tab start.2.1 start.2.2 M
      start.1.1 start.1.2 px py s._mapImageData).map fun data =>
    { s with
      _mapImageData := data,
      _currentLine := if s._currentLine + 1 ≥ M then 0 else s._currentLine + 1 }

/-- `n` successive calls of `SetMapPixels`. -/
def MapWindow.SetMapPixels.times (M : Nat) (w : World) : Nat → MapWindow → Option MapWindow
  | 0, s => some s
  | n + 1, s => (MapWindow.SetMapPixels M w s).bind (MapWindow.SetMapPixels.times M w n)

/-- Lines 326-331 of `OnUpdate`: on a rotation change store the new rotation and call
`InitMap` (and `CentreMapOnViewPoint`). -/
def MapWindow.OnUpdate.checkRotation (w : World) (s : MapWindow) : MapWindow :=
  if w.GetCurrentRotation ≠ s._rotation then
    MapWindow.InitMap { s with _rotation := w.GetCurrentRotation }
  else s

/-- Lines 338-354 of `OnUpdate`: the tab animation counter (`uint16_t`). -/
def MapWindow.OnUpdate.animate (s : MapWindow) : MapWindow :=
  let counter := (s.list_information_type + 1) % 65536
  { s with
    list_information_type :=
      if s.selected_tab = PAGE_PEEPS then (if counter ≥ 32 then 0 else counter)
      else if s.selected_tab = PAGE_RIDES then (if counter ≥ 64 then 0 else counter)
      else counter }

/-- `MapWindow::OnUpdate` (lines 324-355): the rotation check, then sixteen `SetMapPixels`
calls, then the tab animation. -/
def MapWindow.OnUpdate (M : Nat) (w : World) (s : MapWindow) : Option MapWindow :=
  (MapWindow.SetMapPixels.times M w 16 (MapWindow.OnUpdate.checkRotation w s)).map
    MapWindow.OnUpdate.animate

/-- `k` successive calls of `OnUpdate` in an unchanging world. -/
def MapWindow.OnUpdate.times (M : Nat) (w : World) : Nat → MapWindow → Option MapWindow
  | 0, s => some s
  | k + 1, s => (MapWindow.OnUpdate M w s).bind (MapWindow.OnUpdate.times M w k)

/-- The scan lines rasterized by `n` successive `SetMapPixels` calls: the value of
`_currentLine` on entry to each call, in call order. -/
def MapWindow.SetMapPixels.lines (M : Nat) (w : World) : Nat → MapWindow → List Nat
  | 0, _ => []
  | n + 1, s =>
    s._currentLine :: match MapWindow.SetMapPixels M w s with
      | some s1 => MapWindow.SetMapPixels.lines M w n s1
      | none => []

/-- The scan lines rasterized by `k` successive `OnUpdate` calls, in call order. -/
def MapWindow.OnUpdate.lines (M : Nat) (w : World) : Nat → MapWindow → List Nat
  | 0, _ => []
  | k + 1, s =>
    MapWindow.SetMapPixels.lines M w 16 (MapWindow.OnUpdate.checkRotation w s)
      ++ match MapWindow.OnUpdate M w s with
        | some s1 => MapWindow.OnUpdate.lines M w k s1
        | none => []

/-- Every tile that is not a map edge can be classified in both modes without leaving the
element memory (its chain is terminated by a last-for-tile element). -/
def World.Classifiable (w : World) : Prop :=
  ∀ c : CoordsXY, w.MapIsEdge c = false →
    (GetPixelColourPeep w c).isSome = true ∧ (GetPixelColourRide w c).isSome = true

/-- The window state is well-sized for `M`: the scan cursor is below `M` and the bitmap holds
`MAP_WINDOW_MAP_SIZE * MAP_WINDOW_MAP_SIZE` bytes, as the constructor allocates. -/
def MapWindow.WellSized (M : Nat) (s : MapWindow) : Prop :=
  s._currentLine < M ∧ s._mapImageData.length = (M * 2) * (M * 2)

/-- The element memory contains a last-for-tile element, so the chain it starts is
terminated. -/
def Terminated (mem : List TileElement) : Prop :=
  ∃ e ∈ mem, e.IsLastForTile = true

/-! ## Vocabulary of the classifier properties -/

/-- `ChainAfter cur chain`: `chain` is exactly the run of elements that follow `cur` in memory
up to and including the tile's last-for-tile element (empty when `cur` itself is flagged). -/
def ChainAfter (cur : TileElement) : List TileElement → Prop
  | [] => cur.IsLastForTile = true
  | next :: rest => cur.IsLastForTile = false ∧ ChainAfter next rest

instance ChainAfter.decidable (cur : TileElement) (chain : List TileElement) :
    Decidable (ChainAfter cur chain) := by
  induction chain generalizing cur with
  | nil => unfold ChainAfter; infer_instance
  | cons next rest ih => unfold ChainAfter; exact instDecidableAnd

/-- The ghost colour `MapColour(PALETTE_INDEX_21)`. -/
def ghostColour : Nat := MapColour PALETTE_INDEX_21

/-- The people-mode surface colour in the words of the description: the two map colours of
the surface style object if there is one and `0x0000` otherwise, the water colour `0xC3C3` in
their place if the water height is positive, and then, for a surface that is not owned, the
low byte replaced by `PALETTE_INDEX_10` with the high byte kept. -/
def peepSurfaceColourSpec (surfaceElement : TileElement) : Nat :=
  let base : Nat := match surfaceElement.GetSurfaceStyleObject with
    | some mapColours => MapColour2 mapColours.1 mapColours.2
    | none => 0x0000
  let watered : Nat := if surfaceElement.GetWaterHeight > 0 then 0xC3C3 else base
  if surfaceElement.owned then watered else (watered / 256 % 256) * 256 + PALETTE_INDEX_10

/-- The highlight an element sets in rides mode, in the words of the description: a path sets
`0x0E0E`, an entrance that is not a park entrance and a track element set the key colour of
their ride if the ride exists, everything else sets nothing. -/
def rideHighlightSpec (w : World) (e : TileElement) : Option Nat :=
  if e.GetType = TileElementType.Path then some 0x0E0E
  else if e.GetType = TileElementType.Entrance then
    if e.GetEntranceType = ENTRANCE_TYPE_PARK_ENTRANCE then none
    else (w.GetRide e.GetRideIndex).map RideKeyColours
  else if e.GetType = TileElementType.Track then (w.GetRide e.GetRideIndex).map RideKeyColours
  else none

/-- The highlight set by the last highlighting element of a chain, if any. -/
def lastHighlightSpec (w : World) (chain : List TileElement) : Option Nat :=
  (chain.filterMap (rideHighlightSpec w)).getLast?

/-- The rides-mode background in the words of the description: `0x0D0D`, replaced by `0xC2C2`
if the surface has positive water height, and then with its low byte replaced by
`PALETTE_INDEX_10` if the surface is not owned. -/
def rideBackgroundSpec (surfaceElement : TileElement) : Nat :=
  let watered : Nat := if surfaceElement.GetWaterHeight > 0 then 0xC2C2 else 0x0D0D
  if surfaceElement.owned then watered else (watered / 256 % 256) * 256 + PALETTE_INDEX_10

/-- The effect of one element on the running people-mode colour in the words of the
description: `c ↦ (c & ElementTypeMaskColour[t]) | ElementTypeAddColour[t]`, where `t` is the
element's type index if it is below 8 and the surface index 0 otherwise. -/
def peepElementSpec (colour : Nat) (e : TileElement) : Nat :=
  (colour &&& ElementTypeMaskColour.getD (if e.GetType < 8 then e.GetType else 0) 0)
    ||| ElementTypeAddColour.getD (if e.GetType < 8 then e.GetType else 0) 0

/-! ## Sample tiles -/

/-- A surface element with map colours 72 and 73 and the given flags and water height. -/
def sampleSurface (ghost last owned : Bool) (water : Int) : TileElement :=
  { GetType := TileElementType.Surface, IsGhost := ghost, IsLastForTile := last,
    GetWaterHeight := water, owned := owned, GetSurfaceStyleObject := some (72, 73),
    GetEntranceType := 0, GetRideIndex := 0 }

/-- An element of the given type and flags that belongs to ride 0; as an entrance it is a ride
entrance (entrance type 0). -/
def sampleElement (type : Nat) (ghost last : Bool) : TileElement :=
  { GetType := type, IsGhost := ghost, IsLastForTile := last,
    GetWaterHeight := 0, owned := false, GetSurfaceStyleObject := none,
    GetEntranceType := 0, GetRideIndex := 0 }

/-- A world in which every coordinate shows the same element memory, nothing is a map edge and
ride 0 is the only ride, a ride with colour key `Food`. -/
def sampleWorld (rot : Nat) (mem : List TileElement) : World :=
  { GetCurrentRotation := rot, MapIsEdge := fun _ => false, tileElements := fun _ => mem,
    GetRide := fun i => if i = 0 then some RideColourKey.Food else none }

/-! ## The steps of one scan line -/

/-- The `destinationPosition` of step `i` of the scan line `currentLine`: the start
`(pos % MAP_WINDOW_MAP_SIZE, pos / MAP_WINDOW_MAP_SIZE)` of lines 1001-1002 after the `i`
increments of lines 1052-1053. -/
def MapWindow.SetMapPixels.destinationPosition (M : Nat) (currentLine i : Nat) :
    ScreenCoordsXY :=
  let pos : Int := ((currentLine : Int) * (MAP_WINDOW_MAP_SIZE M - 1)) + (M : Int) - 1
  { x := pos.tmod (MAP_WINDOW_MAP_SIZE M) + (i : Int),
    y := pos.tdiv (MAP_WINDOW_MAP_SIZE M) + (i : Int) }

/-- The offset of the `destination` pointer from `_mapImageData.data()` at step `i`
(lines 1003 and 1054): `destinationPosition.y * MAP_WINDOW_MAP_SIZE + destinationPosition.x`. -/
def MapWindow.SetMapPixels.destination (M : Nat) (currentLine i : Nat) : Int :=
  (MapWindow.SetMapPixels.destinationPosition M currentLine i).y * MAP_WINDOW_MAP_SIZE M
    + (MapWindow.SetMapPixels.destinationPosition M currentLine i).x

/-- The world coordinate `(x, y)` of step `i` of the scan line `currentLine`: the start of the
rotation's `switch` case after `i` additions of `(dx, dy)` (lines 1049-1050). -/
def MapWindow.SetMapPixels.position (M : Nat) (rot : Nat) (currentLine i : Nat) : CoordsXY :=
  { x := (MapWindow.SetMapPixels.start M rot currentLine).1.1
      + (i : Int) * (MapWindow.SetMapPixels.start M rot currentLine).2.1,
    y := (MapWindow.SetMapPixels.start M rot currentLine).1.2
      + (i : Int) * (MapWindow.SetMapPixels.start M rot currentLine).2.2 }

/-- The loop bodies of the steps `i, i + 1, ..., i + n - 1` of the scan line `currentLine`,
each run at its own world coordinate and destination position. -/
def MapWindow.SetMapPixels.steps (M : Nat) (w : World) (selected_tab : Nat)
    (currentLine : Nat) : Nat → Nat → List Nat → Option (List Nat)
  | _, 0, data => some data
  | i, n + 1, data =>
    (MapWindow.SetMapPixels.pixel M w selected_tab
        (MapWindow.SetMapPixels.position M w.GetCurrentRotation currentLine i).x
        (MapWindow.SetMapPixels.position M w.GetCurrentRotation currentLine i).y
        (MapWindow.SetMapPixels.destinationPosition M currentLine i).x
        (MapWindow.SetMapPixels.destinationPosition M currentLine i).y data).bind
      (MapWindow.SetMapPixels.steps M w selected_tab currentLine (i + 1) n)

/-! ## Tab selection -/

/-- Widget index of the people tab (fifth enumerator of `WindowMapWidgetIdx`). -/
def WIDX_PEOPLE_TAB : Nat := 4
/-- Widget index of the rides tab (sixth enumerator of `WindowMapWidgetIdx`). -/
def WIDX_RIDES_TAB : Nat := 5

/-- The `default` case of `MapWindow::OnMouseUp` (lines 276-285): a click on one of the two
tabs selects it and restarts the tab animation, unless it is selected already. -/
def MapWindow.OnMouseUp.selectTab (widgetIndex : Nat) (s : MapWindow) : MapWindow :=
  if widgetIndex ≥ WIDX_PEOPLE_TAB ∧ widgetIndex ≤ WIDX_RIDES_TAB then
    if widgetIndex - WIDX_PEOPLE_TAB = s.selected_tab then s
    else { s with selected_tab := widgetIndex - WIDX_PEOPLE_TAB, list_information_type := 0 }
  else s

/-! ## Sweeps with changing display mode -/

/-- Successive `SetMapPixels` calls.  Each call comes with the world it runs in and with the
widget clicked just before it (`OnMouseUp`): a click on a tab changes the display mode, any
other widget index leaves it. -/
def MapWindow.SetMapPixels.run (M : Nat) : List (World × Nat) → MapWindow → Option MapWindow
  | [], s => some s
  | (w, widgetIndex) :: calls, s =>
    (MapWindow.SetMapPixels M w (MapWindow.OnMouseUp.selectTab widgetIndex s)).bind
      (MapWindow.SetMapPixels.run M calls)

/-- The scan lines rasterized by the calls of `MapWindow.SetMapPixels.run`: the value of
`_currentLine` on entry to each call, in call order. -/
def MapWindow.SetMapPixels.runLines (M : Nat) : List (World × Nat) → MapWindow → List Nat
  | [], _ => []
  | (w, widgetIndex) :: calls, s =>
    s._currentLine ::
      match MapWindow.SetMapPixels M w (MapWindow.OnMouseUp.selectTab widgetIndex s) with
      | some s1 => MapWindow.SetMapPixels.runLines M calls s1
      | none => []

/-! ## Interactive tools: map selection and park-entrance ghost -/

/-- The `&` of an `int32_t` with a non-negative constant: bitwise and on the 32-bit two's
complement pattern of `x`. -/
def int32And (x : Int) (mask : Nat) : Int :=
  (((x % 4294967296).toNat &&& mask : Nat) : Int)

/-- World coordinates with height (`CoordsXYZ`). -/
structure CoordsXYZ where
  x : Int
  y : Int
  z : Int
deriving DecidableEq, Repr

/-- World coordinates with height and direction (`CoordsXYZD`). -/
structure CoordsXYZD where
  x : Int
  y : Int
  z : Int
  direction : Nat
deriving DecidableEq, Repr

/-- Modelled from the spec: `LOCATION_NULL` (declared outside the sources), the `x` value of an
undefined position, `0x8000` as a 16-bit signed number. -/
def LOCATION_NULL : Int := -32768

/-- Modelled from the spec: `INVALID_DIRECTION` (declared outside the sources), `0xFF`. -/
def INVALID_DIRECTION : Nat := 255

/-- Modelled from the spec: `CoordsXYZD::IsNull` (declared outside the sources) tests the `x`
component against `LOCATION_NULL`. -/
def CoordsXYZD.IsNull (c : CoordsXYZD) : Bool := decide (c.x = LOCATION_NULL)

/-- Modelled from the spec: `CoordsXYZD::SetNull` (declared outside the sources) makes the
position undefined. -/
def CoordsXYZD.SetNull (_c : CoordsXYZD) : CoordsXYZD :=
  { x := LOCATION_NULL, y := 0, z := 0, direction := INVALID_DIRECTION }

/-- Modelled from the spec: slope bits of the four raised corners
(`TILE_ELEMENT_SLOPE_ALL_CORNERS_UP`, declared outside the sources). -/
def TILE_ELEMENT_SLOPE_ALL_CORNERS_UP : Nat := 0x0F

/-- Modelled from the spec: slope bit of a double-height slope
(`TILE_ELEMENT_SLOPE_DOUBLE_HEIGHT`, declared outside the sources). -/
def TILE_ELEMENT_SLOPE_DOUBLE_HEIGHT : Nat := 0x10

/-- Modelled from the spec: `CoordsDirectionDelta` (declared outside the sources), the world
offset of one tile step in each of the four directions. -/
def CoordsDirectionDelta : List CoordsXY :=
  [{ x := -32, y := 0 }, { x := 0, y := 32 }, { x := 32, y := 0 }, { x := 0, y := -32 }]

/-- Modelled from the spec: `MAP_SELECT_TYPE_FULL` (declared outside the sources), the
selection type of a full tile rectangle. -/
def MAP_SELECT_TYPE_FULL : Nat := 4

/-- The three bits of `gMapSelectFlags` that the map window sets and clears
(`MAP_SELECT_FLAG_ENABLE`, `..._ENABLE_CONSTRUCT`, `..._ENABLE_ARROW`). -/
structure MapSelectFlags where
  ENABLE : Bool
  ENABLE_CONSTRUCT : Bool
  ENABLE_ARROW : Bool
deriving DecidableEq, Repr

/-- The globals written by the tools of the map window: the shared map selection and the
park-entrance ghost. -/
structure Globals where
  gMapSelectFlags : MapSelectFlags
  gMapSelectType : Nat
  gMapSelectPositionA : CoordsXY
  gMapSelectPositionB : CoordsXY
  gMapSelectionTiles : List CoordsXY
  gMapSelectArrowPosition : CoordsXYZ
  gMapSelectArrowDirection : Nat
  gParkEntranceGhostExists : Bool
  gParkEntranceGhostPosition : CoordsXYZD
deriving DecidableEq, Repr

/-- `MapWindow::SetLandRightsToolUpdate` (lines 428-451).  `mapCoords` is the answer of
`ScreenGetMapXY` for the cursor position, `_landRightsToolSize` the brush size member
(`uint16_t`). -/
def MapWindow.SetLandRightsToolUpdate (_landRightsToolSize : Nat) (mapCoords : Option CoordsXY)
    (g : Globals) : Globals :=
  let g := { g with gMapSelectFlags := { g.gMapSelectFlags with ENABLE := false } }
  match mapCoords with
  | none => g
  | some mapCoords =>
    let landRightsToolSize : Int :=
      if (_landRightsToolSize % 65536 : Nat) = 0 then 1
      else ((_landRightsToolSize % 65536 : Nat) : Int)
    let size : Int := (landRightsToolSize * 32) - 32
    let radius : Int := (landRightsToolSize * 16) - 16
    let x : Int := int32And (mapCoords.x - radius) 0xFFE0
    let y : Int := int32And (mapCoords.y - radius) 0xFFE0
    { g with
      gMapSelectFlags := { g.gMapSelectFlags with ENABLE := true },
      gMapSelectType := MAP_SELECT_TYPE_FULL,
      gMapSelectPositionA := { x := x, y := y },
      gMapSelectPositionB := { x := x + size, y := y + size } }

/-- `MapWindow::PlaceParkEntranceGetMapPosition` (lines 453-483).  `mapCoords` is the answer
of `ViewportInteractionGetTileStartAtCursor`, `gWindowSceneryRotation` the scenery rotation
global (`uint8_t`). -/
def MapWindow.PlaceParkEntranceGetMapPosition (w : World) (gWindowSceneryRotation : Nat)
    (mapCoords : CoordsXY) : CoordsXYZD :=
  let parkEntranceMapPosition : CoordsXYZD :=
    { x := mapCoords.x, y := mapCoords.y, z := 0, direction := INVALID_DIRECTION }
  if parkEntranceMapPosition.IsNull then parkEntranceMapPosition
  else
    match MapGetSurfaceElementAt (w.tileElements mapCoords) with
    | none => parkEntranceMapPosition.SetNull
    | some (surfaceElement, _) =>
      let z : Int :=
        if surfaceElement.GetWaterHeight = 0 then
          if (surfaceElement.GetSlope &&& TILE_ELEMENT_SLOPE_ALL_CORNERS_UP) ≠ 0 then
            if (surfaceElement.GetSlope &&& TILE_ELEMENT_SLOPE_DOUBLE_HEIGHT) ≠ 0 then
              surfaceElement.GetBaseZ + 16 + 16
            else surfaceElement.GetBaseZ + 16
          else surfaceElement.GetBaseZ
        else surfaceElement.GetWaterHeight
      { parkEntranceMapPosition with
        z := z,
        direction :=
          (int32And ((gWindowSceneryRotation : Int) - (w.GetCurrentRotation : Int)) 3).toNat
            % 256 }

/-- The answer of the game-action executor as far as the map window looks at it:
`GameActions::Status::Ok` or any other status. -/
inductive GameActions.Status where
  | Ok
  | NotOk
deriving DecidableEq, Repr

/-- The calls `PlaceParkEntranceToolUpdate` makes to its collaborators, in call order:
`ParkEntranceRemoveGhost()` and the execution of a ghost-flagged `ParkEntrancePlaceAction`. -/
inductive ToolCall where
  | ParkEntranceRemoveGhost
  | ExecuteGhostPlacement (position : CoordsXYZD)
deriving DecidableEq, Repr

/-- Modelled from the spec: `ParkEntranceRemoveGhost` is defined outside the sources (only its
declaration is in `Entrance.h`); it removes an existing ghost and clears
`gParkEntranceGhostExists`. -/
def ParkEntranceRemoveGhost (g : Globals) : Globals :=
  { g with gParkEntranceGhostExists := false }

/-- `MapWindow::PlaceParkEntranceToolUpdate` (lines 485-528).  `Execute` is the answer of
`GameActions::Execute` to a ghost placement at a position; the result carries the globals
after the call and the collaborator calls made, in order. -/
def MapWindow.PlaceParkEntranceToolUpdate (w : World) (gWindowSceneryRotation : Nat)
    (Execute : CoordsXYZD → GameActions.Status) (mapCoords : CoordsXY) (g : Globals) :
    Globals × List ToolCall :=
  let g := { g with gMapSelectFlags :=
    { ENABLE := false, ENABLE_CONSTRUCT := false, ENABLE_ARROW := false } }
  let parkEntrancePosition :=
    MapWindow.PlaceParkEntranceGetMapPosition w gWindowSceneryRotation mapCoords
  if parkEntrancePosition.IsNull then
    (ParkEntranceRemoveGhost g, [ToolCall.ParkEntranceRemoveGhost])
  else
    let sideDirection : Nat := (int32And ((parkEntrancePosition.direction : Int) + 1) 3).toNat
    let delta : CoordsXY := CoordsDirectionDelta.getD sideDirection { x := 0, y := 0 }
    let g := { g with
      gMapSelectionTiles :=
        [{ x := parkEntrancePosition.x, y := parkEntrancePosition.y },
         { x := parkEntrancePosition.x + delta.x, y := parkEntrancePosition.y + delta.y },
         { x := parkEntrancePosition.x - delta.x, y := parkEntrancePosition.y - delta.y }],
      gMapSelectArrowPosition :=
        { x := parkEntrancePosition.x, y := parkEntrancePosition.y,
          z := parkEntrancePosition.z },
      gMapSelectArrowDirection := parkEntrancePosition.direction,
      gMapSelectFlags :=
        { g.gMapSelectFlags with ENABLE_CONSTRUCT := true, ENABLE_ARROW := true } }
    if g.gParkEntranceGhostExists ∧ parkEntrancePosition = g.gParkEntranceGhostPosition then
      (g, [])
    else
      let g := ParkEntranceRemoveGhost g
      match Execute parkEntrancePosition with
      | GameActions.Status.Ok =>
        ({ g with
            gParkEntranceGhostPosition := parkEntrancePosition,
            gParkEntranceGhostExists := true },
          [ToolCall.ParkEntranceRemoveGhost, ToolCall.ExecuteGhostPlacement parkEntrancePosition])
      | GameActions.Status.NotOk =>
        (g, [ToolCall.ParkEntranceRemoveGhost,
          ToolCall.ExecuteGhostPlacement parkEntrancePosition])

/-! ## Reachable window states -/

/-- The window states reachable from `OnOpen` through calls of `OnUpdate`, `ResetMap`,
`InitMap` and `SetMapPixels`, each of them in an arbitrary world. -/
inductive MapWindow.Reachable (M : Nat) : MapWindow → Prop
  | onOpen (w : World) : MapWindow.Reachable M (MapWindow.OnOpen M w)
  | onUpdate (w : World) (s s1 : MapWindow) :
      MapWindow.Reachable M s → MapWindow.OnUpdate M w s = some s1 → MapWindow.Reachable M s1
  | resetMap (s : MapWindow) : MapWindow.Reachable M s → MapWindow.Reachable M s.ResetMap
  | initMap (s : MapWindow) : MapWindow.Reachable M s → MapWindow.Reachable M s.InitMap
  | setMapPixels (w : World) (s s1 : MapWindow) :
      MapWindow.Reachable M s → MapWindow.SetMapPixels M w s = some s1 →
      MapWindow.Reachable M s1

/-- Globals before any tool has run: nothing selected, no ghost. -/
def sampleGlobals : Globals :=
  { gMapSelectFlags := { ENABLE := false, ENABLE_CONSTRUCT := false, ENABLE_ARROW := false },
    gMapSelectType := 0,
    gMapSelectPositionA := { x := 0, y := 0 },
    gMapSelectPositionB := { x := 0, y := 0 },
    gMapSelectionTiles := [],
    gMapSelectArrowPosition := { x := 0, y := 0, z := 0 },
    gMapSelectArrowDirection := 0,
    gParkEntranceGhostExists := false,
    gParkEntranceGhostPosition := { x := 0, y := 0, z := 0, direction := 0 } }

/-- Globals in which a park-entrance ghost is shown at `(32, 32, 0)`, direction 0. -/
def sampleGlobalsWithGhost : Globals :=
  { sampleGlobals with
    gParkEntranceGhostExists := true,
    gParkEntranceGhostPosition := { x := 32, y := 32, z := 0, direction := 0 } }

/-- The sample world with a border: the tiles whose `x` or `y` is below one tile step are
map edges, every other tile shows the element memory `mem`. -/
def sampleBorderWorld (rot : Nat) (mem : List TileElement) : World :=
  { sampleWorld rot mem with MapIsEdge := fun c => decide (c.x < 32 ∨ c.y < 32) }

/-- A window on a 4 x 4 bitmap (`M = 2`) in the middle of a sweep: scan line 0 has been
rasterized in people mode over dry owned land (bytes `72`, `73`), the cursor is at line 1. -/
def sampleWindow : MapWindow :=
  { _rotation := 0,
    _currentLine := 1,
    _mapImageData := [10, 72, 73, 10, 10, 10, 72, 73, 10, 10, 10, 10, 10, 10, 10, 10],
    selected_tab := 0,
    list_information_type := 3 }

/-! ## The land-rights tool: ownership mask and brush size -/

/-- Widget indices of `enum WindowMapWidgetIdx` (lines 70-98) used by the land-rights tool. -/
def WIDX_SET_LAND_RIGHTS : Nat := 14

def WIDX_LAND_TOOL : Nat := 17

def WIDX_LAND_TOOL_SMALLER : Nat := 18

def WIDX_LAND_TOOL_LARGER : Nat := 19

def WIDX_LAND_OWNED_CHECKBOX : Nat := 20

def WIDX_CONSTRUCTION_RIGHTS_OWNED_CHECKBOX : Nat := 21

def WIDX_LAND_SALE_CHECKBOX : Nat := 22

def WIDX_CONSTRUCTION_RIGHTS_SALE_CHECKBOX : Nat := 23

/-- Conversion of an `int` to `uint16_t`: reduction modulo `2^16`. -/
def toUInt16 (v : Int) : Nat := (v % 65536).toNat

/-- Conversion of a `long` to `int32_t`: reduction modulo `2^32` into `[-2^31, 2^31)`. -/
def toInt32 (v : Int) : Int := (v + 2147483648) % 4294967296 - 2147483648

/-- The two tool fields of the window (lines 1390-1392): `uint8_t _activeTool` and
`uint16_t _landRightsToolSize`. -/
structure MapWindow.ToolFields where
  _activeTool : Nat
  _landRightsToolSize : Nat
deriving DecidableEq, Repr

/-- The part of `OnOpen` that concerns the tool fields (line 167): the brush size is reset
to 1; `_activeTool` is not assigned. -/
def MapWindow.ToolFields.OnOpen (s : MapWindow.ToolFields) : MapWindow.ToolFields :=
  { s with _landRightsToolSize := 1 }

/-- The body shared by the four checkbox cases of `OnMouseUp` (lines 208-239), on the
`uint8_t` field: `_activeTool ^= bit; if (_activeTool & bit) _activeTool &= mask;`. -/
def MapWindow.ToolFields.OnMouseUp.checkbox (bit mask _activeTool : Nat) : Nat :=
  let toggled := (_activeTool ^^^ bit) % 256
  if toggled &&& bit ≠ 0 then (toggled &&& mask) % 256 else toggled

/-- The effect of `OnMouseUp` (lines 190-279) on the tool fields.  `toolSet` is the result of
`ToolSet`, which is true when the tool could not be activated; `MINIMUM_TOOL_SIZE` is an
`int` constant of a header outside the sources.  The cases that are not listed leave both
fields as they are. -/
def MapWindow.ToolFields.OnMouseUp (MINIMUM_TOOL_SIZE : Int) (toolSet : Bool)
    (widgetIndex : Nat) (s : MapWindow.ToolFields) : MapWindow.ToolFields :=
  if widgetIndex = WIDX_SET_LAND_RIGHTS then
    if toolSet then s
    else
      { _activeTool := 2,
        _landRightsToolSize := max (toUInt16 MINIMUM_TOOL_SIZE) s._landRightsToolSize }
  else if widgetIndex = WIDX_LAND_OWNED_CHECKBOX then
    { s with _activeTool := MapWindow.ToolFields.OnMouseUp.checkbox 2 0xF2 s._activeTool }
  else if widgetIndex = WIDX_LAND_SALE_CHECKBOX then
    { s with _activeTool := MapWindow.ToolFields.OnMouseUp.checkbox 8 0xF8 s._activeTool }
  else if widgetIndex = WIDX_CONSTRUCTION_RIGHTS_OWNED_CHECKBOX then
    { s with _activeTool := MapWindow.ToolFields.OnMouseUp.checkbox 1 0xF1 s._activeTool }
  else if widgetIndex = WIDX_CONSTRUCTION_RIGHTS_SALE_CHECKBOX then
    { s with _activeTool := MapWindow.ToolFields.OnMouseUp.checkbox 4 0xF4 s._activeTool }
  else s

/-- The effect of `OnMouseDown` (lines 283-322) on the tool fields: the two brush-size
buttons compute `std::max(MINIMUM_TOOL_SIZE, size - 1)` and
`std::min(MAXIMUM_TOOL_SIZE, size + 1)` in `int` and store the result in the `uint16_t`
field. -/
def MapWindow.ToolFields.OnMouseDown (MINIMUM_TOOL_SIZE MAXIMUM_TOOL_SIZE : Int)
    (widgetIndex : Nat) (s : MapWindow.ToolFields) : MapWindow.ToolFields :=
  if widgetIndex = WIDX_LAND_TOOL_SMALLER then
    { s with _landRightsToolSize :=
        toUInt16 (max MINIMUM_TOOL_SIZE ((s._landRightsToolSize : Int) - 1)) }
  else if widgetIndex = WIDX_LAND_TOOL_LARGER then
    { s with _landRightsToolSize :=
        toUInt16 (min MAXIMUM_TOOL_SIZE ((s._landRightsToolSize : Int) + 1)) }
  else s

/-- What `OnTextInput` sees of the entered text: whether it is empty, the value `strtol`
returns for it, and whether `strtol` consumed all of it (`*end == 0`). -/
structure TextInput where
  empty : Bool
  strtol : Int
  atEnd : Bool
deriving DecidableEq, Repr

/-- `std::clamp(v, lo, hi)`: `lo` when `v < lo`, else `hi` when `hi < v`, else `v`. -/
def clamp (v lo hi : Int) : Int :=
  if v < lo then lo else if hi < v then hi else v

/-- The effect of `OnTextInput` (lines 596-614) on the tool fields for the brush-size
widget: a fully parsed number is converted to `int32_t`, clamped to
`[MINIMUM_TOOL_SIZE, MAXIMUM_TOOL_SIZE]` and stored in the `uint16_t` field.  The map-size
cases do not touch the tool fields. -/
def MapWindow.ToolFields.OnTextInput (MINIMUM_TOOL_SIZE MAXIMUM_TOOL_SIZE : Int)
    (widgetIndex : Nat) (text : TextInput) (s : MapWindow.ToolFields) : MapWindow.ToolFields :=
  if text.empty then s
  else if widgetIndex = WIDX_LAND_TOOL then
    if text.atEnd then
      { s with _landRightsToolSize :=
          toUInt16 (clamp (toInt32 text.strtol) MINIMUM_TOOL_SIZE MAXIMUM_TOOL_SIZE) }
    else s
  else s

/-- The ownership argument `_activeTool << 4` of the `LandSetRightsAction` that `OnToolDrag`
executes (lines 386-400), or `none` when no action is executed (another widget, or the map
selection is not enabled). -/
def MapWindow.ToolFields.OnToolDrag (widgetIndex : Nat) (enable : Bool)
    (s : MapWindow.ToolFields) : Option Nat :=
  if widgetIndex = WIDX_SET_LAND_RIGHTS then
    if enable then some (s._activeTool <<< 4) else none
  else none

/-- An event delivered to the window: a click released on a widget (with the result `ToolSet`
would give), a press on a widget, or a text entered for a widget. -/
inductive MapWindow.Event where
  | mouseUp (widgetIndex : Nat) (toolSet : Bool)
  | mouseDown (widgetIndex : Nat)
  | textInput (widgetIndex : Nat) (text : TextInput)
deriving DecidableEq, Repr

/-- Dispatch of one event to its handler. -/
def MapWindow.ToolFields.handle (MINIMUM_TOOL_SIZE MAXIMUM_TOOL_SIZE : Int)
    (s : MapWindow.ToolFields) : MapWindow.Event → MapWindow.ToolFields
  | .mouseUp widgetIndex toolSet =>
    MapWindow.ToolFields.OnMouseUp MINIMUM_TOOL_SIZE toolSet widgetIndex s
  | .mouseDown widgetIndex =>
    MapWindow.ToolFields.OnMouseDown MINIMUM_TOOL_SIZE MAXIMUM_TOOL_SIZE widgetIndex s
  | .textInput widgetIndex text =>
    MapWindow.ToolFields.OnTextInput MINIMUM_TOOL_SIZE MAXIMUM_TOOL_SIZE widgetIndex text s

/-- The tool fields after a sequence of events, handled in order. -/
def MapWindow.ToolFields.run (MINIMUM_TOOL_SIZE MAXIMUM_TOOL_SIZE : Int)
    (events : List MapWindow.Event) (s : MapWindow.ToolFields) : MapWindow.ToolFields :=
  events.foldl (MapWindow.ToolFields.handle MINIMUM_TOOL_SIZE MAXIMUM_TOOL_SIZE) s

/-- The tool fields after a sequence of clicks on widgets (none of which is answered by
`ToolSet` with a refusal). -/
def MapWindow.ToolFields.clicks (MINIMUM_TOOL_SIZE : Int) (widgets : List Nat)
    (s : MapWindow.ToolFields) : MapWindow.ToolFields :=
  widgets.foldl (fun t w => MapWindow.ToolFields.OnMouseUp MINIMUM_TOOL_SIZE false w t) s

/-- The four ownership checkboxes, each with the bit the specification assigns to it: land
owned is bit 1, land sale bit 3, construction rights owned bit 0, construction rights sale
bit 2. -/
def landRightsCheckboxes : List (Nat × Nat) :=
  [(WIDX_LAND_OWNED_CHECKBOX, 2), (WIDX_LAND_SALE_CHECKBOX, 8),
   (WIDX_CONSTRUCTION_RIGHTS_OWNED_CHECKBOX, 1), (WIDX_CONSTRUCTION_RIGHTS_SALE_CHECKBOX, 4)]

/-- Tool fields as the constructor leaves them before `OnOpen`: arbitrary sample values. -/
def sampleToolFields : MapWindow.ToolFields :=
  { _activeTool := 0, _landRightsToolSize := 7 }

/-! ## Calendar arithmetic (`Date.cpp`) -/

/-- Constants of `Date.cpp` (lines 19-22). -/
def MONTH_TICKS_INCREMENT : Nat := 4

def MASK_MONTH_TICKS : Nat := 0xFFFF

/-- Modelled from the spec: `MONTH_COUNT` is declared in the header `localisation/Date.h`,
outside the sources; the game year has the eight months March to October. -/
def MONTH_COUNT : Nat := 8

/-- Modelled from the spec: the table `days_in_month` of the header `localisation/Date.h`,
outside the sources, read by `GetDaysInMonth`: the lengths of March, April, ..., October. -/
def days_in_month : List Int := [31, 30, 31, 30, 31, 31, 30, 31]

/-- Conversion of an `int32_t` to `uint32_t`: reduction modulo `2^32`. -/
def toUInt32 (v : Int) : Nat := (v % 4294967296).toNat

/-- The two fields of `Date`: `uint16_t _monthTicks` and `uint32_t _monthsElapsed`. -/
structure Date where
  _monthTicks : Nat
  _monthsElapsed : Nat
deriving DecidableEq, Repr

/-- The constructor `Date(uint32_t monthsElapsed, uint16_t monthTicks)` (lines 24-28), applied
to `int32_t` arguments as `FromYMD` does. -/
def Date.ofInt32 (monthsElapsed monthTicks : Int) : Date :=
  { _monthTicks := toUInt16 monthTicks, _monthsElapsed := toUInt32 monthsElapsed }

/-- `Date::GetDaysInMonth` (lines 116-121): the table entry of a month inside
`[0, MONTH_COUNT - 1]`; `none` when `Guard::ArgumentInRange` fails. -/
def Date.GetDaysInMonth (month : Int) : Option Int :=
  if 0 ≤ month ∧ month ≤ (MONTH_COUNT : Int) - 1 then days_in_month[month.toNat]? else none

/-- `Date::FromYMD` (lines 30-46).  `day << 16` is `day * 65536` on the clamped, non-negative
day, and `/` is the truncating division of `int32_t`. -/
def Date.FromYMD (year month day : Int) : Option Date :=
  if 0 ≤ month ∧ month ≤ (MONTH_COUNT : Int) - 1 then
    let monthsElapsed : Int := (year * (MONTH_COUNT : Int)) + month
    if day ≠ 0 then
      (Date.GetDaysInMonth month).map fun daysInMonth =>
        Date.ofInt32 monthsElapsed
          (Int.tdiv (clamp day 0 (daysInMonth - 1) * 65536) daysInMonth)
    else some (Date.ofInt32 monthsElapsed 0)
  else none

/-- `Date::Update` (lines 48-60); `_monthsElapsed++` is an increment of a `uint32_t`. -/
def Date.Update (d : Date) : Date :=
  let monthTicks : Nat := d._monthTicks + MONTH_TICKS_INCREMENT
  if monthTicks > MASK_MONTH_TICKS then
    { _monthTicks := 0, _monthsElapsed := (d._monthsElapsed + 1) % 4294967296 }
  else { d with _monthTicks := monthTicks % 65536 }

/-- `Date::GetMonth` (lines 79-82). -/
def Date.GetMonth (d : Date) : Int := ((d._monthsElapsed % MONTH_COUNT : Nat) : Int)

/-- `Date::GetYear` (lines 84-87). -/
def Date.GetYear (d : Date) : Int := ((d._monthsElapsed / MONTH_COUNT : Nat) : Int)

/-- `Date::GetDay` (lines 72-77): `((_monthTicks * daysInMonth) >> 16) & 0xFF`. -/
def Date.GetDay (d : Date) : Option Int :=
  (Date.GetDaysInMonth d.GetMonth).map fun daysInMonth =>
    int32And (((d._monthTicks : Int) * daysInMonth) / 65536) 0xFF

/-- `Date::IsMonthStart` (lines 111-114). -/
def Date.IsMonthStart (d : Date) : Bool := d._monthTicks == 0

/-- The date after `k` successive calls of `Date::Update`. -/
def Date.Update.times : Nat → Date → Date
  | 0, d => d
  | k + 1, d => (Date.Update.times k d).Update

/-! ## Banners (`Banner.cpp`): the closest ride -/

/-- Modelled from the spec: `COORDS_Z_STEP` is declared in a header outside the sources; it is
the height of one unit of a tile element in world units. -/
def COORDS_Z_STEP : Int := 8

/-- A tile element as `BannerGetRideIndexAt` reads it: its type, the ride index of a track
element, its clearance height and the last-for-tile flag. -/
structure BannerWorld.TileElement where
  GetType : Nat
  GetRideIndex : Nat
  GetClearanceZ : Int
  IsLastForTile : Bool
deriving DecidableEq, Repr

/-- A ride as `Banner.cpp` reads it: its id, whether its type descriptor has
`RIDE_TYPE_FLAG_IS_SHOP_OR_FACILITY`, and its `overall_view` (`none` when `IsNull()`). -/
structure BannerWorld.Ride where
  id : Nat
  IsShopOrFacility : Bool
  overall_view : Option CoordsXY
deriving DecidableEq, Repr

/-- The world state `Banner.cpp` reads: `MapGetFirstElementAt` gives the element memory
starting at a tile's first element (`none` is `nullptr`), `rides` is the ride manager in
iteration order. -/
structure BannerWorld where
  MapGetFirstElementAt : CoordsXY → Option (List BannerWorld.TileElement)
  rides : List BannerWorld.Ride

/-- `GetRide(rideIndex)`: the ride with that id, `none` for `nullptr`. -/
def BannerWorld.GetRide (w : BannerWorld) (rideIndex : Nat) : Option BannerWorld.Ride :=
  w.rides.find? fun ride => ride.id == rideIndex

/-- One iteration of the `do` body of `BannerGetRideIndexAt` (lines 101-112): the new value
of `resultRideIndex` (`none` is the null ride id). -/
def BannerGetRideIndexAt.step (w : BannerWorld) (z : Int) (e : BannerWorld.TileElement)
    (resultRideIndex : Option Nat) : Option Nat :=
  if e.GetType ≠ TileElementType.Track then resultRideIndex
  else
    match w.GetRide e.GetRideIndex with
    | none => resultRideIndex
    | some ride =>
      if ride.IsShopOrFacility then resultRideIndex
      else if e.GetClearanceZ + (4 * COORDS_Z_STEP) ≤ z then resultRideIndex
      else some e.GetRideIndex

/-- The `do ... while (!(tileElement++)->IsLastForTile())` loop of `BannerGetRideIndexAt`
(lines 99-113); the outer `none` means the walk left the element memory. -/
def BannerGetRideIndexAt.walk (w : BannerWorld) (z : Int) :
    List BannerWorld.TileElement → Option Nat → Option (Option Nat)
  | [], _ => none
  | e :: rest, resultRideIndex =>
    if e.IsLastForTile then some (BannerGetRideIndexAt.step w z e resultRideIndex)
    else BannerGetRideIndexAt.walk w z rest (BannerGetRideIndexAt.step w z e resultRideIndex)

/-- `BannerGetRideIndexAt` (lines 93-116): the ride of the last track element of the tile
that belongs to a ride which is no shop or facility and whose clearance is not more than
`4 * COORDS_Z_STEP` below the banner; the null ride id when there is none. -/
def BannerGetRideIndexAt (w : BannerWorld) (bannerCoords : CoordsXYZ) :
    Option (Option Nat) :=
  match w.MapGetFirstElementAt { x := bannerCoords.x, y := bannerCoords.y } with
  | none => some none
  | some elements => BannerGetRideIndexAt.walk w bannerCoords.z elements none

/-- The table `NeighbourCheckOrder` of `BannerGetClosestRideIndex` (lines 201-211), entry by
entry. -/
def NeighbourCheckOrder : List CoordsXY :=
  [ { x := COORDS_XY_STEP, y := 0 },
    { x := -COORDS_XY_STEP, y := 0 },
    { x := 0, y := COORDS_XY_STEP },
    { x := 0, y := -COORDS_XY_STEP },
    { x := -COORDS_XY_STEP, y := COORDS_XY_STEP },
    { x := COORDS_XY_STEP, y := -COORDS_XY_STEP },
    { x := COORDS_XY_STEP, y := COORDS_XY_STEP },
    { x := -COORDS_XY_STEP, y := COORDS_XY_STEP },
    { x := 0, y := 0 } ]

/-- The first loop of `BannerGetClosestRideIndex` (lines 213-220) over the offsets that are
still to be examined: the first non-null result of `BannerGetRideIndexAt`, `some none` when
every offset gave the null ride id. -/
def BannerGetClosestRideIndex.neighbours (w : BannerWorld) (mapPos : CoordsXYZ) :
    List CoordsXY → Option (Option Nat)
  | [] => some none
  | neighbourCoords :: rest =>
    (BannerGetRideIndexAt w
      { x := mapPos.x + neighbourCoords.x, y := mapPos.y + neighbourCoords.y, z := mapPos.z }).bind
      fun rideIndex =>
        if rideIndex.isSome then some rideIndex
        else BannerGetClosestRideIndex.neighbours w mapPos rest

/-- The second loop of `BannerGetClosestRideIndex` (lines 222-239): the ride with the
smallest Manhattan distance of its overall view to the banner, the first one on a tie, among
the rides that are no shop or facility and have an overall view.  The state is the pair
`(rideIndex, resultDistance)`. -/
def BannerGetClosestRideIndex.nearest (mapPos : CoordsXYZ) :
    List BannerWorld.Ride → Option Nat × Int → Option Nat
  | [], state => state.1
  | ride :: rest, state =>
    if ride.IsShopOrFacility then BannerGetClosestRideIndex.nearest mapPos rest state
    else
      match ride.overall_view with
      | none => BannerGetClosestRideIndex.nearest mapPos rest state
      | some rideCoords =>
        let distance : Int :=
          ((mapPos.x - rideCoords.x).natAbs : Int) + ((mapPos.y - rideCoords.y).natAbs : Int)
        if distance < state.2 then
          BannerGetClosestRideIndex.nearest mapPos rest (some ride.id, distance)
        else BannerGetClosestRideIndex.nearest mapPos rest state

/-- `BannerGetClosestRideIndex` (lines 199-241); `2147483647` is
`std::numeric_limits<int32_t>::max()`. -/
def BannerGetClosestRideIndex (w : BannerWorld) (mapPos : CoordsXYZ) : Option (Option Nat) :=
  (BannerGetClosestRideIndex.neighbours w mapPos NeighbourCheckOrder).map fun rideIndex =>
    if rideIndex.isSome then rideIndex
    else BannerGetClosestRideIndex.nearest mapPos w.rides (none, 2147483647)

/-- A park with two rides, neither a shop: ride 1 with its overall view at `(640, 640)` and
ride 2 with its overall view at `(128, 64)`.  The tile `trackTile` holds a surface element
and a track element of ride 1 (clearance 32); every other tile holds a surface element
only. -/
def sampleBannerWorld (trackTile : CoordsXY) : BannerWorld :=
  { MapGetFirstElementAt := fun c =>
      if c = trackTile then
        some [{ GetType := TileElementType.Surface, GetRideIndex := 0, GetClearanceZ := 16,
                IsLastForTile := false },
              { GetType := TileElementType.Track, GetRideIndex := 1, GetClearanceZ := 32,
                IsLastForTile := true }]
      else
        some [{ GetType := TileElementType.Surface, GetRideIndex := 0, GetClearanceZ := 16,
                IsLastForTile := true }],
    rides := [{ id := 1, IsShopOrFacility := false, overall_view := some { x := 640, y := 640 } },
              { id := 2, IsShopOrFacility := false, overall_view := some { x := 128, y := 64 } }] }

/-! ## Banners (`Banner.cpp`): the banner list -/

/-- A `Banner` record as the list functions read it: whether it is the null banner
(`IsNull()`, declared in the header `Banner.h` outside the sources) and its index field
`id`, which stands for the record's content. -/
structure Banner where
  IsNull : Bool
  id : Nat
deriving DecidableEq, Repr

/-- Modelled from the spec: the value-initialised banner `Banner{}` (the struct is declared in
the header `Banner.h`, outside the sources) that `resize` appends; `DeleteBanner` deletes a
banner by assigning it, so it is a null banner. -/
def Banner.empty : Banner := { IsNull := true, id := 0 }

/-- `std::numeric_limits<size_t>::max()` for a 64-bit `size_t`. -/
def SIZE_MAX : Nat := 18446744073709551615

/-- `std::vector::resize(n)`: the first `n` entries, filled up with value-initialised banners
when the list is shorter. -/
def resize (banners : List Banner) (n : Nat) : List Banner :=
  banners.take n ++ List.replicate (n - banners.length) Banner.empty

/-- The `while` loop of `TrimBanners` (lines 504-507) entered with the given `lastBannerId`:
its value on exit.  Decrementing 0 wraps to `SIZE_MAX`, which ends the loop.  `none` means
`_banners[lastBannerId]` was read outside the list. -/
def TrimBanners.loop (banners : List Banner) : Nat → Option Nat
  | 0 =>
    match banners[0]? with
    | none => none
    | some banner => if banner.IsNull then some SIZE_MAX else some 0
  | lastBannerId + 1 =>
    if lastBannerId + 1 = SIZE_MAX then some (lastBannerId + 1)
    else
      match banners[lastBannerId + 1]? with
      | none => none
      | some banner =>
        if banner.IsNull then TrimBanners.loop banners lastBannerId
        else some (lastBannerId + 1)

/-- `TrimBanners` (lines 499-511) on the list `_banners`; `lastBannerId + 1` is computed in
`size_t`.  `shrink_to_fit` does not change the content. -/
def TrimBanners (banners : List Banner) : Option (List Banner) :=
  if banners.length > 0 then
    (TrimBanners.loop banners (banners.length - 1)).map fun lastBannerId =>
      resize banners ((lastBannerId + 1) % 18446744073709551616)
  else some banners

/-- `GetNumBanners` (lines 513-524): the number of entries that are not null. -/
def GetNumBanners (banners : List Banner) : Nat :=
  banners.foldl (fun count banner => if !banner.IsNull then count + 1 else count) 0

/-- `GetBanner` (lines 443-455): the entry at index `id` when it exists and is not null,
`none` for `nullptr`. -/
def GetBanner (banners : List Banner) (id : Nat) : Option Banner :=
  if id < banners.length then
    match banners[id]? with
    | some banner => if !banner.IsNull then some banner else none
    | none => none
  else none

/-- A banner list with a null entry in the middle and two trailing null entries. -/
def sampleBanners : List Banner :=
  [{ IsNull := false, id := 0 }, { IsNull := true, id := 0 }, { IsNull := false, id := 2 },
   { IsNull := true, id := 0 }, { IsNull := true, id := 0 }]

/-! # Properties -/

/-! ## Helper lemmas on truncating division -/

theorem tdiv_two_cases (a : Int) :
    a.tdiv 2 = if 0 ≤ a then a / 2 else -((-a) / 2) := by
  split
  · next h => exact Int.tdiv_eq_ediv h (by decide)
  · next h =>
    have h1 : (-a).tdiv 2 = (-a) / 2 := Int.tdiv_eq_ediv (by omega) (by decide)
    have h2 : (-a).tdiv 2 = -(a.tdiv 2) := Int.neg_tdiv a 2
    omega

theorem tdiv_32_cases (a : Int) :
    a.tdiv 32 = if 0 ≤ a then a / 32 else -((-a) / 32) := by
  split
  · next h => exact Int.tdiv_eq_ediv h (by decide)
  · next h =>
    have h1 : (-a).tdiv 32 = (-a) / 32 := Int.tdiv_eq_ediv (by omega) (by decide)
    have h2 : (-a).tdiv 32 = -(a.tdiv 32) := Int.neg_tdiv a 32
    omega

/-! ## Coordinate transforms -/

/-- C1 (counterexample): under rotation 0 the on-grid world coordinate `(32, 0)` is projected
to the pixel `(M - 9, -7)` and mapped back to `(0, 0)`, which is not in the tile of `(32, 0)`. -/
theorem roundTrip_leaves_tile :
    (32 : Int) % 32 = 0 ∧ (0 : Int) % 32 = 0 ∧ (32 : Int) < MAXIMUM_MAP_SIZE_BIG 1001 ∧
    TransformToMapCoords 1001 0 { x := 32, y := 0 } = { x := 992, y := -7 } ∧
    roundTrip 1001 0 { x := 32, y := 0 } = { x := 0, y := 0 } ∧
    ¬ SameTile (roundTrip 1001 0 { x := 32, y := 0 }) { x := 32, y := 0 } := by
  decide

/-- C1 (amended): for every rotation and every on-grid world coordinate inside the map, the
round trip through `TransformToMapCoords` and `ScreenToMap` ends in the same 32-unit tile
whenever the two tile coordinates after the rotation have an even sum; in every case the
recovered tile is the same or differs by one tile step along exactly one axis. -/
theorem roundTrip_same_tile_of_even (M : Int) (rot : Nat) (x y : Int) (hrot : rot < 4)
    (hxg : x % 32 = 0) (hyg : y % 32 = 0)
    (hx0 : 0 ≤ x) (hx1 : x < MAXIMUM_MAP_SIZE_BIG M)
    (hy0 : 0 ≤ y) (hy1 : y < MAXIMUM_MAP_SIZE_BIG M) :
    (rotatedTileSum M rot { x := x, y := y } % 2 = 0 →
      SameTile (roundTrip M rot { x := x, y := y }) { x := x, y := y }) ∧
    (((roundTrip M rot { x := x, y := y }).x / 32 = x / 32 ∧
        -1 ≤ (roundTrip M rot { x := x, y := y }).y / 32 - y / 32 ∧
        (roundTrip M rot { x := x, y := y }).y / 32 - y / 32 ≤ 1) ∨
      ((roundTrip M rot { x := x, y := y }).y / 32 = y / 32 ∧
        -1 ≤ (roundTrip M rot { x := x, y := y }).x / 32 - x / 32 ∧
        (roundTrip M rot { x := x, y := y }).x / 32 - x / 32 ≤ 1)) := by
  have h4 : rot = 0 ∨ rot = 1 ∨ rot = 2 ∨ rot = 3 := by omega
  simp only [MAXIMUM_MAP_SIZE_BIG, COORDS_XY_STEP] at hx1 hy1
  rcases h4 with h | h | h | h <;> subst h <;>
    simp only [roundTrip, ScreenToMap, TransformToMapCoords, TransformToMapCoords.rotated,
      rotatedTileSum, SameTile, TileCoordsXY.ToCoordsXY, MAXIMUM_MAP_SIZE_BIG, COORDS_XY_STEP,
      tdiv_two_cases, tdiv_32_cases] <;>
    (refine ⟨?_, ?_⟩ <;> (try intro hpar) <;> split_ifs at * <;> omega)

/-- C8 (counterexample): at rotation 0 the world origin is projected to `(M - 8, -8)`; the
second component is not `tx + ty - K` with `K = M - 8`, which would be `-993`. -/
theorem transform_second_component_offset :
    TransformToMapCoords 1001 0 { x := 0, y := 0 } = { x := 993, y := -8 } ∧
    (TransformToMapCoords 1001 0 { x := 0, y := 0 }).y ≠ (0 : Int) / 32 + 0 / 32 - (1001 - 8) := by
  decide

/-- C8 (amended): for rotation 0 and every non-negative world coordinate (so every one inside
the map),
`TransformToMapCoords` returns `(-tx + ty + K, tx + ty - 8)` with `tx = x / 32`, `ty = y / 32`
and `K = M - 8`; rotations 1 to 3 apply the same projection to the world coordinate swapped
and mirrored against `MAXIMUM_MAP_SIZE_BIG - 1`. -/
theorem transform_projection (M x y : Int) (hx0 : 0 ≤ x) (hy0 : 0 ≤ y) :
    TransformToMapCoords M 0 { x := x, y := y }
      = { x := -(x / 32) + y / 32 + (M - 8), y := x / 32 + y / 32 - 8 } ∧
    TransformToMapCoords M 1 { x := x, y := y }
      = TransformToMapCoords M 0 { x := y, y := MAXIMUM_MAP_SIZE_BIG M - 1 - x } ∧
    TransformToMapCoords M 2 { x := x, y := y }
      = TransformToMapCoords M 0
          { x := MAXIMUM_MAP_SIZE_BIG M - 1 - x, y := MAXIMUM_MAP_SIZE_BIG M - 1 - y } ∧
    TransformToMapCoords M 3 { x := x, y := y }
      = TransformToMapCoords M 0 { x := MAXIMUM_MAP_SIZE_BIG M - 1 - y, y := x } := by
  refine ⟨?_, rfl, rfl, rfl⟩
  simp only [TransformToMapCoords, TransformToMapCoords.rotated, tdiv_32_cases, if_pos hx0,
    if_pos hy0, TileCoordsXY.mk.injEq]
  exact ⟨by omega, trivial⟩

/-- C8 (witness): the projection formula at `M = 1001` and the world coordinate `(64, 320)`. -/
theorem transform_projection_witness :
    TransformToMapCoords 1001 0 { x := 64, y := 320 }
      = { x := -((64 : Int) / 32) + 320 / 32 + (1001 - 8), y := (64 : Int) / 32 + 320 / 32 - 8 } :=
  (transform_projection 1001 64 320 (by decide) (by decide)).1

/-- C9 (counterexample): the output is negative near two corners of the map: the world origin
has second component `-8`, and the last tile of the first row has first component `-7`. -/
theorem transform_negative_output :
    (0 : Int) < MAXIMUM_MAP_SIZE_BIG 1001 ∧ (32000 : Int) < MAXIMUM_MAP_SIZE_BIG 1001 ∧
    (TransformToMapCoords 1001 0 { x := 0, y := 0 }).y = -8 ∧
    (TransformToMapCoords 1001 0 { x := 32000, y := 0 }).x = -7 ∧
    ¬ (0 ≤ (TransformToMapCoords 1001 0 { x := 0, y := 0 }).y) ∧
    ¬ (0 ≤ (TransformToMapCoords 1001 0 { x := 32000, y := 0 }).x) := by
  decide

/-- C9 (amended): for every rotation and every world coordinate inside the map the first
component of `TransformToMapCoords` lies in `[-7, 2M - 9]` and the second in `[-8, 2M - 10]`;
the second component is non-negative exactly when the rotated tile coordinates sum to at
least 8. -/
theorem transform_output_bounds (M : Int) (rot : Nat) (x y : Int) (hrot : rot < 4)
    (hx0 : 0 ≤ x) (hx1 : x < MAXIMUM_MAP_SIZE_BIG M)
    (hy0 : 0 ≤ y) (hy1 : y < MAXIMUM_MAP_SIZE_BIG M) :
    -7 ≤ (TransformToMapCoords M rot { x := x, y := y }).x ∧
    (TransformToMapCoords M rot { x := x, y := y }).x ≤ 2 * M - 9 ∧
    -8 ≤ (TransformToMapCoords M rot { x := x, y := y }).y ∧
    (TransformToMapCoords M rot { x := x, y := y }).y ≤ 2 * M - 10 ∧
    (0 ≤ (TransformToMapCoords M rot { x := x, y := y }).y ↔
      8 ≤ rotatedTileSum M rot { x := x, y := y }) := by
  have h4 : rot = 0 ∨ rot = 1 ∨ rot = 2 ∨ rot = 3 := by omega
  simp only [MAXIMUM_MAP_SIZE_BIG, COORDS_XY_STEP] at hx1 hy1
  rcases h4 with h | h | h | h <;> subst h <;>
    simp only [TransformToMapCoords, TransformToMapCoords.rotated, rotatedTileSum,
      MAXIMUM_MAP_SIZE_BIG, COORDS_XY_STEP, tdiv_32_cases] <;>
    split_ifs <;> omega

/-- C9 (witness): the bounds at `M = 1001`, rotation 1 and the world coordinate `(64, 320)`. -/
theorem transform_output_bounds_witness :
    -7 ≤ (TransformToMapCoords 1001 1 { x := 64, y := 320 }).x ∧
    -8 ≤ (TransformToMapCoords 1001 1 { x := 64, y := 320 }).y :=
  ⟨(transform_output_bounds 1001 1 64 320 (by decide) (by decide) (by decide) (by decide)
      (by decide)).1,
   (transform_output_bounds 1001 1 64 320 (by decide) (by decide) (by decide) (by decide)
      (by decide)).2.2.1⟩

/-- C1 (witness): the round trip at `M = 1001`, rotation 3 and the on-grid coordinate
`(64, 320)`. -/
theorem roundTrip_same_tile_of_even_witness :
    rotatedTileSum 1001 3 { x := 64, y := 320 } % 2 = 0 ∧
    SameTile (roundTrip 1001 3 { x := 64, y := 320 }) { x := 64, y := 320 } :=
  ⟨by decide,
   (roundTrip_same_tile_of_even 1001 3 64 320 (by decide) (by decide) (by decide) (by decide)
      (by decide) (by decide) (by decide)).1 (by decide)⟩

/-! ## Colour packing lemmas -/

theorem and_FF00 (x : Nat) : x &&& 0xFF00 = (x / 256 % 256) * 256 := by
  have h1 : (0xFF00 : Nat) = (2 ^ 8 - 1) <<< 8 := by decide
  have h2 : (x / 256 % 256) * 256 = ((x >>> 8) &&& (2 ^ 8 - 1)) <<< 8 := by
    rw [Nat.and_pow_two_sub_one_eq_mod, Nat.shiftRight_eq_div_pow, Nat.shiftLeft_eq]
  rw [h2, h1]
  apply Nat.eq_of_testBit_eq
  intro i
  simp only [Nat.testBit_and, Nat.testBit_shiftLeft, Nat.testBit_shiftRight,
    Nat.testBit_two_pow_sub_one]
  by_cases h : 8 ≤ i
  · have h8 : 8 + (i - 8) = i := by omega
    simp [h, h8]
  · simp [h]

theorem or_low_byte (h l : Nat) (hl : l < 256) : (h * 256) ||| l = h * 256 + l := by
  have hor := Nat.mul_add_lt_is_or (i := 8) (b := l) (by omega) h
  rw [Nat.mul_comm] at hor
  simpa using hor.symm

theorem MapColour2_eq (a b : Nat) : MapColour2 a b = (a % 256) * 256 + b % 256 := by
  unfold MapColour2
  rw [Nat.shiftLeft_eq, show (2 : Nat) ^ 8 = 256 by decide, or_low_byte _ _ (by omega)]
  omega

theorem MapColour2_lt (a b : Nat) : MapColour2 a b < 65536 := by
  rw [MapColour2_eq]; omega

theorem MapColourUnowned_eq (c : Nat) :
    MapColourUnowned c = (c / 256 % 256) * 256 + PALETTE_INDEX_10 := by
  unfold MapColourUnowned
  rw [MapColour2_eq, and_FF00, Nat.shiftRight_eq_div_pow]
  simp only [PALETTE_INDEX_10]
  omega

theorem MapColourUnowned_idem (c : Nat) :
    MapColourUnowned (MapColourUnowned c) = MapColourUnowned c := by
  simp only [MapColourUnowned_eq, PALETTE_INDEX_10]
  omega

/-! ## Tile classifier -/

theorem surfaceElement_type {mem : List TileElement} {s : TileElement}
    {rest : List TileElement} (h : MapGetSurfaceElementAt mem = some (s, rest)) :
    s.GetType = TileElementType.Surface := by
  induction mem with
  | nil => simp [MapGetSurfaceElementAt] at h
  | cons e tl ih =>
    unfold MapGetSurfaceElementAt at h
    split_ifs at h with h1 h2
    · simp only [Option.some.injEq, Prod.mk.injEq] at h
      rw [← h.1]; exact h1
    · exact ih h

theorem surfaceColour_eq_spec (s : TileElement) :
    GetPixelColourPeep.surfaceColour s = peepSurfaceColourSpec s := by
  have hw : WaterColour = 0xC3C3 := by decide
  have h0 : MapColour PALETTE_INDEX_0 = 0 := by decide
  unfold GetPixelColourPeep.surfaceColour peepSurfaceColourSpec
  cases ho : s.owned <;> simp only [Bool.not_false, Bool.not_true, if_true, ite_true,
    Bool.false_eq_true, if_false, ite_false, hw, h0, MapColourUnowned_eq]

theorem peepApply_eq_spec (colour : Nat) (e : TileElement) :
    GetPixelColourPeep.apply colour e = peepElementSpec colour e := by
  have h8 : ElementTypeAddColour.length = 8 := by decide
  unfold GetPixelColourPeep.apply peepElementSpec GetPixelColourPeep.clipType
  rw [h8]
  by_cases h : e.GetType < 8
  · have h' : ¬ e.GetType ≥ 8 := by omega
    simp only [h, h', if_true, if_false]
  · have h' : e.GetType ≥ 8 := by omega
    simp only [h, h', if_true, if_false, TileElementType.Surface]

theorem peepWalk_ghost (g : TileElement) (post : List TileElement) (hg : g.IsGhost = true) :
    ∀ (pre : List TileElement) (colour : Nat) (cur : TileElement),
      cur.IsLastForTile = false → (∀ e ∈ pre, e.IsLastForTile = false) →
      GetPixelColourPeep.walk colour cur (pre ++ g :: post) = some ghostColour := by
  intro pre
  induction pre with
  | nil =>
    intro colour cur hcur _
    simp [GetPixelColourPeep.walk, hcur, hg, ghostColour]
  | cons p pre ih =>
    intro colour cur hcur hpre
    have hp : p.IsLastForTile = false := hpre p (List.mem_cons_self _ _)
    have hrest : ∀ e ∈ pre, e.IsLastForTile = false :=
      fun e he => hpre e (List.mem_cons_of_mem _ he)
    by_cases hpg : p.IsGhost = true
    · simp [GetPixelColourPeep.walk, hcur, hpg, ghostColour]
    · simp only [List.cons_append, GetPixelColourPeep.walk, hcur, hpg, if_false,
        Bool.false_eq_true]
      exact ih _ p hp hrest

theorem peepWalk_fold (post : List TileElement) :
    ∀ (chain : List TileElement) (colour : Nat) (cur : TileElement),
      ChainAfter cur chain → (∀ e ∈ chain, e.IsGhost = false) →
      GetPixelColourPeep.walk colour cur (chain ++ post)
        = some (chain.foldl GetPixelColourPeep.apply colour) := by
  intro chain
  induction chain with
  | nil =>
    intro colour cur hc _
    simp only [ChainAfter] at hc
    cases post <;> simp [GetPixelColourPeep.walk, hc]
  | cons p chain ih =>
    intro colour cur hc hg
    simp only [ChainAfter] at hc
    have hp : p.IsGhost = false := hg p (List.mem_cons_self _ _)
    simp only [List.cons_append, GetPixelColourPeep.walk, hc.1, hp, if_false,
      Bool.false_eq_true, List.foldl_cons]
    exact ih _ p hc.2 (fun e he => hg e (List.mem_cons_of_mem _ he))

theorem peepElementSpec_keep (colour : Nat) (e : TileElement) (hc : colour < 65536)
    (ht : e.GetType = 0 ∨ e.GetType = 5 ∨ e.GetType = 7 ∨ 8 ≤ e.GetType) :
    peepElementSpec colour e = colour := by
  have hmask : (0xFFFF : Nat) = 2 ^ 16 - 1 := by decide
  have hand : colour &&& 0xFFFF = colour := by
    rw [hmask, Nat.and_pow_two_sub_one_eq_mod]; exact Nat.mod_eq_of_lt hc
  have h0 : ElementTypeMaskColour.getD 0 0 = 0xFFFF ∧ ElementTypeAddColour.getD 0 0 = 0 := by
    decide
  have h5 : ElementTypeMaskColour.getD 5 0 = 0xFFFF ∧ ElementTypeAddColour.getD 5 0 = 0 := by
    decide
  have h7 : ElementTypeMaskColour.getD 7 0 = 0xFFFF ∧ ElementTypeAddColour.getD 7 0 = 0 := by
    decide
  unfold peepElementSpec
  rcases ht with h | h | h | h
  · rw [h]; simp only [show (0 : Nat) < 8 by decide, if_true, h0.1, h0.2, hand, Nat.or_zero]
  · rw [h]; simp only [show (5 : Nat) < 8 by decide, if_true, h5.1, h5.2, hand, Nat.or_zero]
  · rw [h]; simp only [show (7 : Nat) < 8 by decide, if_true, h7.1, h7.2, hand, Nat.or_zero]
  · have h' : ¬ e.GetType < 8 := by omega
    simp only [h', if_false, h0.1, h0.2, hand, Nat.or_zero]

theorem peepElementSpec_replace (colour : Nat) (e : TileElement) :
    (e.GetType = 1 → peepElementSpec colour e = 0x1111) ∧
    (e.GetType = 4 → peepElementSpec colour e = 0xBABA) ∧
    (e.GetType = 6 → peepElementSpec colour e = 0x6363) := by
  have h1 : ElementTypeMaskColour.getD 1 0 = 0 ∧ ElementTypeAddColour.getD 1 0 = 0x1111 := by
    decide
  have h4 : ElementTypeMaskColour.getD 4 0 = 0 ∧ ElementTypeAddColour.getD 4 0 = 0xBABA := by
    decide
  have h6 : ElementTypeMaskColour.getD 6 0 = 0 ∧ ElementTypeAddColour.getD 6 0 = 0x6363 := by
    decide
  unfold peepElementSpec
  refine ⟨?_, ?_, ?_⟩ <;> intro h <;> rw [h]
  · simp only [show (1 : Nat) < 8 by decide, if_true, h1.1, h1.2, Nat.and_zero, Nat.zero_or]
  · simp only [show (4 : Nat) < 8 by decide, if_true, h4.1, h4.2, Nat.and_zero, Nat.zero_or]
  · simp only [show (6 : Nat) < 8 by decide, if_true, h6.1, h6.2, Nat.and_zero, Nat.zero_or]

theorem peepElementSpec_bytes (colour : Nat) (e : TileElement) (hc : colour < 65536) :
    (e.GetType = 2 → peepElementSpec colour e = 183 * 256 + colour % 256) ∧
    (e.GetType = 3 → peepElementSpec colour e = (colour / 256) * 256 + 99) := by
  have h2 : ElementTypeMaskColour.getD 2 0 = 2 ^ 8 - 1
      ∧ ElementTypeAddColour.getD 2 0 = 183 * 256 := by decide
  have h3 : ElementTypeMaskColour.getD 3 0 = 0xFF00 ∧ ElementTypeAddColour.getD 3 0 = 99 := by
    decide
  unfold peepElementSpec
  refine ⟨?_, ?_⟩ <;> intro h <;> rw [h]
  · simp only [show (2 : Nat) < 8 by decide, if_true, h2.1, h2.2]
    rw [Nat.and_pow_two_sub_one_eq_mod, Nat.lor_comm, or_low_byte _ _ (by omega)]
  · simp only [show (3 : Nat) < 8 by decide, if_true, h3.1, h3.2]
    rw [and_FF00, or_low_byte _ _ (by omega)]
    have : colour / 256 % 256 = colour / 256 := by omega
    rw [this]

/-- C2 (counterexample): a ghost track element stored below the surface element, and a ghost
flag on the surface element itself, are both ignored by `GetPixelColourPeep`: the tile keeps
its surface colour `0x4849` instead of the ghost colour `0x1515`. -/
theorem peep_ghost_before_surface_ignored :
    MapGetSurfaceElementAt
        [sampleElement TileElementType.Track true false, sampleSurface false true true 0]
      = some (sampleSurface false true true 0, []) ∧
    GetPixelColourPeep
        (sampleWorld 0
          [sampleElement TileElementType.Track true false, sampleSurface false true true 0])
        { x := 64, y := 64 } = some 0x4849 ∧
    GetPixelColourPeep (sampleWorld 0 [sampleSurface true true true 0])
        { x := 64, y := 64 } = some 0x4849 ∧
    MapColour PALETTE_INDEX_21 = 0x1515 := by
  decide

/-- C2 (amended): for every tile that has a surface element and whose chain contains a
ghost-flagged element after the surface element (reached before the last-for-tile element),
`GetPixelColourPeep` returns exactly the ghost colour `MapColour(PALETTE_INDEX_21) = 0x1515`,
whatever the other elements and the surface, water and ownership state are. -/
theorem peep_ghost_after_surface (w : World) (c : CoordsXY) (s g : TileElement)
    (pre post : List TileElement)
    (hs : MapGetSurfaceElementAt (w.tileElements c) = some (s, pre ++ g :: post))
    (hopen : ∀ e ∈ s :: pre, e.IsLastForTile = false)
    (hg : g.IsGhost = true) :
    GetPixelColourPeep w c = some (MapColour PALETTE_INDEX_21) ∧
    MapColour PALETTE_INDEX_21 = 0x1515 := by
  refine ⟨?_, by decide⟩
  unfold GetPixelColourPeep
  rw [hs]
  exact peepWalk_ghost g post hg pre _ s (hopen s (List.mem_cons_self _ _))
    (fun e he => hopen e (List.mem_cons_of_mem _ he))

/-- C2 (witness): a watered, unowned surface, a path, a ghost wall and a track element. -/
theorem peep_ghost_after_surface_witness :
    GetPixelColourPeep
      (sampleWorld 0 [sampleSurface false false false 16,
        sampleElement TileElementType.Path false false,
        sampleElement TileElementType.Wall true false,
        sampleElement TileElementType.Track false true])
      { x := 64, y := 64 } = some 0x1515 :=
  (peep_ghost_after_surface
    (sampleWorld 0 [sampleSurface false false false 16,
      sampleElement TileElementType.Path false false,
      sampleElement TileElementType.Wall true false,
      sampleElement TileElementType.Track false true])
    { x := 64, y := 64 }
    (sampleSurface false false false 16)
    (sampleElement TileElementType.Wall true false)
    [sampleElement TileElementType.Path false false]
    [sampleElement TileElementType.Track false true]
    (by decide) (by decide) (by decide)).1

/-- C4: for every tile with a surface element and no ghost-flagged element after it,
`GetPixelColourPeep` is the left fold of `c ↦ (c & ElementTypeMaskColour[t]) |
ElementTypeAddColour[t]` (with `t` the type index below 8, else 0) over the elements that
follow the surface element up to and including the last-for-tile element, started from the
surface colour.  On a 16-bit colour Surface, Wall, Banner and out-of-range types change
nothing, Path / Entrance / LargeScenery give `0x1111` / `0xBABA` / `0x6363`, Track replaces
only the high byte (183) and SmallScenery only the low byte (99). -/
theorem peep_composition (w : World) (c : CoordsXY) (s : TileElement)
    (chain post : List TileElement)
    (hs : MapGetSurfaceElementAt (w.tileElements c) = some (s, chain ++ post))
    (hchain : ChainAfter s chain)
    (hghost : ∀ e ∈ chain, e.IsGhost = false) :
    GetPixelColourPeep w c = some (chain.foldl peepElementSpec (peepSurfaceColourSpec s)) ∧
    (∀ (colour : Nat) (e : TileElement), colour < 65536 →
      ((e.GetType = 0 ∨ e.GetType = 5 ∨ e.GetType = 7 ∨ 8 ≤ e.GetType) →
        peepElementSpec colour e = colour) ∧
      (e.GetType = 1 → peepElementSpec colour e = 0x1111) ∧
      (e.GetType = 4 → peepElementSpec colour e = 0xBABA) ∧
      (e.GetType = 6 → peepElementSpec colour e = 0x6363) ∧
      (e.GetType = 2 → peepElementSpec colour e = 183 * 256 + colour % 256) ∧
      (e.GetType = 3 → peepElementSpec colour e = (colour / 256) * 256 + 99)) := by
  constructor
  · unfold GetPixelColourPeep
    rw [hs]
    have hfun : GetPixelColourPeep.apply = peepElementSpec := by
      funext colour e; exact peepApply_eq_spec colour e
    simp only [peepWalk_fold post chain _ s hchain hghost, surfaceColour_eq_spec, hfun]
  · intro colour e hc
    exact ⟨peepElementSpec_keep colour e hc, (peepElementSpec_replace colour e).1,
      (peepElementSpec_replace colour e).2.1, (peepElementSpec_replace colour e).2.2,
      (peepElementSpec_bytes colour e hc).1, (peepElementSpec_bytes colour e hc).2⟩

/-- C4 (witness): an owned dry surface (`0x4849`) followed by a track element and a small
scenery element that ends the tile gives `0xB763`; the memory behind the tile is not read. -/
theorem peep_composition_witness :
    GetPixelColourPeep
      (sampleWorld 0 [sampleSurface false false true 0,
        sampleElement TileElementType.Track false false,
        sampleElement TileElementType.SmallScenery false true,
        sampleElement TileElementType.Path true false])
      { x := 64, y := 64 } = some 0xB763 :=
  (peep_composition
    (sampleWorld 0 [sampleSurface false false true 0,
      sampleElement TileElementType.Track false false,
      sampleElement TileElementType.SmallScenery false true,
      sampleElement TileElementType.Path true false])
    { x := 64, y := 64 }
    (sampleSurface false false true 0)
    [sampleElement TileElementType.Track false false,
      sampleElement TileElementType.SmallScenery false true]
    [sampleElement TileElementType.Path true false]
    (by decide) (by decide) (by decide)).1

/-- C5: for every tile whose surface element is the last element of the tile,
`GetPixelColourPeep` returns the surface colour: the style object's two map colours (or
`0x0000` without style object), replaced by `0xC3C3` if the water height is positive, and
then, only for a surface that is not owned, with the low byte replaced by `PALETTE_INDEX_10`
and the high byte kept.  For an owned surface no unowned transform is applied, and
`MapColourUnowned` is idempotent. -/
theorem peep_surface_only (w : World) (c : CoordsXY) (s : TileElement)
    (rest : List TileElement)
    (hs : MapGetSurfaceElementAt (w.tileElements c) = some (s, rest))
    (hlast : s.IsLastForTile = true) :
    GetPixelColourPeep w c = some (peepSurfaceColourSpec s) ∧
    (s.owned = true → GetPixelColourPeep w c =
      some (if s.GetWaterHeight > 0 then 0xC3C3
            else match s.GetSurfaceStyleObject with
              | some mapColours => MapColour2 mapColours.1 mapColours.2
              | none => 0x0000)) ∧
    (s.owned = false → GetPixelColourPeep w c = some (MapColourUnowned
      (if s.GetWaterHeight > 0 then 0xC3C3
       else match s.GetSurfaceStyleObject with
         | some mapColours => MapColour2 mapColours.1 mapColours.2
         | none => 0x0000))) ∧
    (∀ colour : Nat, MapColourUnowned (MapColourUnowned colour) = MapColourUnowned colour) ∧
    (∀ colour : Nat, colour < 65536 →
      MapColourUnowned colour / 256 = colour / 256 ∧
      MapColourUnowned colour % 256 = PALETTE_INDEX_10) := by
  have hres : GetPixelColourPeep w c = some (peepSurfaceColourSpec s) := by
    unfold GetPixelColourPeep
    rw [hs]
    cases rest <;> simp [GetPixelColourPeep.walk, hlast, surfaceColour_eq_spec]
  refine ⟨hres, ?_, ?_, MapColourUnowned_idem, ?_⟩
  · intro ho
    rw [hres]
    simp only [peepSurfaceColourSpec, ho, if_true]
  · intro ho
    rw [hres]
    simp only [peepSurfaceColourSpec, ho, Bool.false_eq_true, if_false, MapColourUnowned_eq]
  · intro colour hc
    rw [MapColourUnowned_eq]
    simp only [PALETTE_INDEX_10]
    omega

/-- C5 (witness): an unowned, watered surface that ends its tile gives `0xC30A`. -/
theorem peep_surface_only_witness :
    GetPixelColourPeep (sampleWorld 0 [sampleSurface false true false 16])
      { x := 64, y := 64 } = some 0xC30A :=
  (peep_surface_only (sampleWorld 0 [sampleSurface false true false 16])
    { x := 64, y := 64 } (sampleSurface false true false 16) [] (by decide) (by decide)).1

theorem rideWalk_ghost (w : World) (g : TileElement) (post : List TileElement)
    (hg : g.IsGhost = true) :
    ∀ (pre : List TileElement) (colourA colourB : Nat),
      (∀ e ∈ pre, e.IsLastForTile = false) →
      ∃ b, GetPixelColourRide.walk w colourA colourB (pre ++ g :: post)
        = some (MapColour PALETTE_INDEX_21, b) := by
  intro pre
  induction pre with
  | nil =>
    intro colourA colourB _
    exact ⟨colourB, by simp [GetPixelColourRide.walk, hg]⟩
  | cons p pre ih =>
    intro colourA colourB hpre
    have hp : p.IsLastForTile = false := hpre p (List.mem_cons_self _ _)
    by_cases hpg : p.IsGhost = true
    · exact ⟨colourB, by simp [GetPixelColourRide.walk, hpg]⟩
    · simp only [List.cons_append, GetPixelColourRide.walk, hpg, hp, if_false,
        Bool.false_eq_true]
      exact ih _ _ (fun e he => hpre e (List.mem_cons_of_mem _ he))

theorem rideWalk_fold (w : World) (post : List TileElement) :
    ∀ (chain : List TileElement) (cur : TileElement) (colourA colourB : Nat),
      ChainAfter cur chain → (∀ e ∈ cur :: chain, e.IsGhost = false) →
      GetPixelColourRide.walk w colourA colourB (cur :: chain ++ post)
        = some ((cur :: chain).foldl
            (fun colours e => GetPixelColourRide.step w e colours.1 colours.2)
            (colourA, colourB)) := by
  intro chain
  induction chain with
  | nil =>
    intro cur colourA colourB hc hg
    simp only [ChainAfter] at hc
    have hcg : cur.IsGhost = false := hg cur (List.mem_cons_self _ _)
    simp [GetPixelColourRide.walk, hc, hcg]
  | cons p chain ih =>
    intro cur colourA colourB hc hg
    simp only [ChainAfter] at hc
    have hcg : cur.IsGhost = false := hg cur (List.mem_cons_self _ _)
    have hrest : ∀ e ∈ p :: chain, e.IsGhost = false :=
      fun e he => hg e (List.mem_cons_of_mem _ he)
    have hih := ih p (GetPixelColourRide.step w cur colourA colourB).1
      (GetPixelColourRide.step w cur colourA colourB).2 hc.2 hrest
    simp only [List.cons_append] at hih ⊢
    rw [GetPixelColourRide.walk]
    simp only [hcg, hc.1, if_false, Bool.false_eq_true]
    rw [hih]
    simp only [List.foldl_cons]

theorem rideHighlightSpec_ne_zero (w : World) (e : TileElement) (h : Nat)
    (he : rideHighlightSpec w e = some h) : h ≠ 0 := by
  have hkey : ∀ k : RideColourKey, RideKeyColours k ≠ 0 := by
    intro k; cases k <;> decide
  unfold rideHighlightSpec at he
  split_ifs at he
  · simp only [Option.some.injEq] at he; omega
  · cases hr : w.GetRide e.GetRideIndex with
    | none => simp [hr] at he
    | some k => simp only [hr, Option.map_some', Option.some.injEq] at he; rw [← he]; exact hkey k
  · cases hr : w.GetRide e.GetRideIndex with
    | none => simp [hr] at he
    | some k => simp only [hr, Option.map_some', Option.some.injEq] at he; rw [← he]; exact hkey k

theorem rideStep_of_not_surface (w : World) (e : TileElement) (colourA colourB : Nat)
    (ht : e.GetType ≠ TileElementType.Surface) :
    GetPixelColourRide.step w e colourA colourB
      = ((rideHighlightSpec w e).getD colourA, colourB) := by
  have h14 : MapColour PALETTE_INDEX_14 = 0x0E0E := by decide
  unfold GetPixelColourRide.step rideHighlightSpec GetPixelColourRide.rideColour
  simp only [ht, if_false, h14]
  split_ifs <;> first
    | rfl
    | (cases w.GetRide e.GetRideIndex <;> rfl)

theorem rideStep_surface (w : World) (s : TileElement)
    (ht : s.GetType = TileElementType.Surface) :
    GetPixelColourRide.step w s 0 (MapColour PALETTE_INDEX_13) = (0, rideBackgroundSpec s) := by
  have h13 : MapColour PALETTE_INDEX_13 = 0x0D0D := by decide
  have h194 : MapColour PALETTE_INDEX_194 = 0xC2C2 := by decide
  unfold GetPixelColourRide.step rideBackgroundSpec
  cases ho : s.owned <;> simp only [ht, if_true, h13, h194, MapColourUnowned_eq,
    Bool.not_false, Bool.not_true, Bool.false_eq_true, if_false]

theorem rideFold_no_surface (w : World) :
    ∀ (chain : List TileElement) (colourA colourB : Nat),
      (∀ e ∈ chain, e.GetType ≠ TileElementType.Surface) →
      chain.foldl (fun colours e => GetPixelColourRide.step w e colours.1 colours.2)
          (colourA, colourB)
        = ((lastHighlightSpec w chain).getD colourA, colourB) := by
  intro chain
  induction chain with
  | nil => intro colourA colourB _; simp [lastHighlightSpec]
  | cons p chain ih =>
    intro colourA colourB hsurf
    have hp := hsurf p (List.mem_cons_self _ _)
    rw [List.foldl_cons, rideStep_of_not_surface w p colourA colourB hp,
      ih _ _ (fun e he => hsurf e (List.mem_cons_of_mem _ he))]
    unfold lastHighlightSpec
    rw [List.filterMap_cons]
    cases hh : rideHighlightSpec w p with
    | none => simp
    | some h => simp [List.getLast?_cons]

/-- C6: for every tile with a surface element (the tile's only element of surface type) and
no ghost-flagged element from the surface element to the last-for-tile element,
`GetPixelColourRide` returns the highlight set by the last element, in chain order, among
paths (`0x0E0E`), entrances that are not park entrances and whose ride exists, and track
elements whose ride exists (the ride's key colour); without such an element it returns the
background `0x0D0D`, replaced by `0xC2C2` if the surface has positive water height and then
with the low byte replaced by `PALETTE_INDEX_10` if the surface is not owned. -/
theorem ride_result (w : World) (c : CoordsXY) (s : TileElement)
    (chain post : List TileElement)
    (hs : MapGetSurfaceElementAt (w.tileElements c) = some (s, chain ++ post))
    (hchain : ChainAfter s chain)
    (hghost : ∀ e ∈ s :: chain, e.IsGhost = false)
    (hsurf : ∀ e ∈ chain, e.GetType ≠ TileElementType.Surface) :
    GetPixelColourRide w c
      = some ((lastHighlightSpec w (s :: chain)).getD (rideBackgroundSpec s)) := by
  have hst : s.GetType = TileElementType.Surface := surfaceElement_type hs
  have hnone : rideHighlightSpec w s = none := by
    unfold rideHighlightSpec
    simp [hst, TileElementType.Surface, TileElementType.Path, TileElementType.Entrance,
      TileElementType.Track]
  have hlast : lastHighlightSpec w (s :: chain) = lastHighlightSpec w chain := by
    unfold lastHighlightSpec
    rw [List.filterMap_cons, hnone]
  unfold GetPixelColourRide
  rw [hs]
  have hwalk := rideWalk_fold w post chain s 0 (MapColour PALETTE_INDEX_13) hchain hghost
  simp only [List.cons_append] at hwalk
  show Option.map GetPixelColourRide.result
    (GetPixelColourRide.walk w 0 (MapColour PALETTE_INDEX_13) (s :: (chain ++ post))) = _
  rw [hwalk, List.foldl_cons, rideStep_surface w s hst]
  simp only [rideFold_no_surface w chain 0 (rideBackgroundSpec s) hsurf, Option.map_some',
    hlast, GetPixelColourRide.result]
  cases hl : lastHighlightSpec w chain with
  | none => simp
  | some h =>
    have hmem : h ∈ chain.filterMap (rideHighlightSpec w) := by
      unfold lastHighlightSpec at hl
      exact List.mem_of_getLast?_eq_some hl
    obtain ⟨e, _, he⟩ := List.mem_filterMap.mp hmem
    have hne : h ≠ 0 := rideHighlightSpec_ne_zero w e h he
    simp [hne]

/-- C6 (witness): an unowned watered surface, a path, a track element of ride 0 (key colour
`0x2A2A`) and a wall give the track's key colour; the memory behind the tile is not read. -/
theorem ride_result_witness :
    GetPixelColourRide
      (sampleWorld 0 [sampleSurface false false false 16,
        sampleElement TileElementType.Path false false,
        sampleElement TileElementType.Track false false,
        sampleElement TileElementType.Wall false true,
        sampleElement TileElementType.Path true false])
      { x := 64, y := 64 } = some 0x2A2A :=
  ride_result
    (sampleWorld 0 [sampleSurface false false false 16,
      sampleElement TileElementType.Path false false,
      sampleElement TileElementType.Track false false,
      sampleElement TileElementType.Wall false true,
      sampleElement TileElementType.Path true false])
    { x := 64, y := 64 }
    (sampleSurface false false false 16)
    [sampleElement TileElementType.Path false false,
      sampleElement TileElementType.Track false false,
      sampleElement TileElementType.Wall false true]
    [sampleElement TileElementType.Path true false]
    (by decide) (by decide) (by decide) (by decide)

/-- C7: for every tile whose chain, from the surface element up to the last-for-tile element,
contains a ghost-flagged element (the surface element itself included),
`GetPixelColourRide` returns the ghost colour `MapColour(PALETTE_INDEX_21) = 0x1515`; the
elements behind the ghost (`post`) are arbitrary and do not influence the result. -/
theorem ride_ghost (w : World) (c : CoordsXY) (s g : TileElement)
    (rest pre post : List TileElement)
    (hs : MapGetSurfaceElementAt (w.tileElements c) = some (s, rest))
    (hsplit : s :: rest = pre ++ g :: post)
    (hopen : ∀ e ∈ pre, e.IsLastForTile = false)
    (hg : g.IsGhost = true) :
    GetPixelColourRide w c = some (MapColour PALETTE_INDEX_21) ∧
    MapColour PALETTE_INDEX_21 = 0x1515 := by
  refine ⟨?_, by decide⟩
  unfold GetPixelColourRide
  rw [hs]
  show Option.map GetPixelColourRide.result
    (GetPixelColourRide.walk w 0 (MapColour PALETTE_INDEX_13) (s :: rest)) = _
  rw [hsplit]
  obtain ⟨b, hb⟩ := rideWalk_ghost w g post hg pre 0 (MapColour PALETTE_INDEX_13) hopen
  rw [hb]
  simp only [Option.map_some', GetPixelColourRide.result]
  have h21 : MapColour PALETTE_INDEX_21 ≠ 0 := by decide
  simp [h21]

/-- C7 (witness): a ghost surface element followed by a path gives the ghost colour. -/
theorem ride_ghost_witness :
    GetPixelColourRide
      (sampleWorld 0 [sampleSurface true false true 0,
        sampleElement TileElementType.Path false true])
      { x := 64, y := 64 } = some 0x1515 :=
  (ride_ghost
    (sampleWorld 0 [sampleSurface true false true 0,
      sampleElement TileElementType.Path false true])
    { x := 64, y := 64 }
    (sampleSurface true false true 0) (sampleSurface true false true 0)
    [sampleElement TileElementType.Path false true] []
    [sampleElement TileElementType.Path false true]
    (by decide) (by decide) (by decide) (by decide)).1

/-! ## Rasterizer -/

theorem storeByte_some (data : List Nat) (index : Int) (value : Nat)
    (h0 : 0 ≤ index) (h1 : index < (data.length : Int)) :
    ∃ d, MapWindow.storeByte data index value = some d ∧ d.length = data.length := by
  refine ⟨data.set index.toNat (value % 256), ?_, List.length_set _ _ _⟩
  unfold MapWindow.storeByte
  rw [if_pos ⟨h0, h1⟩]

theorem bitmap_offset_lt (M : Nat) (px py : Int) (hpx0 : 0 ≤ px) (hpx1 : px + 1 < (M : Int) * 2)
    (hpy0 : 0 ≤ py) (hpy1 : py < (M : Int) * 2) :
    0 ≤ py * MAP_WINDOW_MAP_SIZE M + px ∧
    py * MAP_WINDOW_MAP_SIZE M + px + 1 < (((M * 2) * (M * 2) : Nat) : Int) := by
  unfold MAP_WINDOW_MAP_SIZE
  have hM : (0 : Int) ≤ (M : Int) * 2 := by omega
  have h1 : 0 ≤ py * ((M : Int) * 2) := Int.mul_nonneg hpy0 hM
  have h2 : (py + 1) * ((M : Int) * 2) ≤ ((M : Int) * 2) * ((M : Int) * 2) :=
    Int.mul_le_mul_of_nonneg_right (by omega) hM
  have h3 : (py + 1) * ((M : Int) * 2) = py * ((M : Int) * 2) + (M : Int) * 2 := by ring
  push_cast
  constructor <;> omega

theorem pixel_some (M : Nat) (w : World) (tab : Nat) (x y px py : Int) (data : List Nat)
    (hw : w.Classifiable) (hlen : data.length = (M * 2) * (M * 2))
    (hpx0 : 0 ≤ px) (hpx1 : px + 1 < (M : Int) * 2)
    (hpy0 : 0 ≤ py) (hpy1 : py < (M : Int) * 2) :
    ∃ d, MapWindow.SetMapPixels.pixel M w tab x y px py data = some d
      ∧ d.length = data.length := by
  unfold MapWindow.SetMapPixels.pixel
  cases hedge : w.MapIsEdge { x := x, y := y }
  · have hcol : ∃ colour, MapWindow.SetMapPixels.colour w tab { x := x, y := y }
        = some colour := by
      unfold MapWindow.SetMapPixels.colour
      split_ifs
      · exact Option.isSome_iff_exists.mp (hw _ hedge).1
      · exact Option.isSome_iff_exists.mp (hw _ hedge).2
      · exact ⟨0, rfl⟩
    obtain ⟨colour, hcolour⟩ := hcol
    have hoff := bitmap_offset_lt M px py hpx0 hpx1 hpy0 hpy1
    obtain ⟨d1, hd1, hl1⟩ := storeByte_some data (py * MAP_WINDOW_MAP_SIZE M + px)
      ((colour >>> 8) &&& 0xFF) hoff.1 (by rw [hlen]; omega)
    obtain ⟨d2, hd2, hl2⟩ := storeByte_some d1 (py * MAP_WINDOW_MAP_SIZE M + px + 1)
      colour (by omega) (by rw [hl1, hlen]; omega)
    refine ⟨d2, ?_, by rw [hl2, hl1]⟩
    simp only [Bool.false_eq_true, if_false, hcolour, Option.some_bind, hd1, hd2]
  · exact ⟨data, by simp, rfl⟩

theorem loop_some (M : Nat) (w : World) (tab : Nat) (dx dy : Int) (hw : w.Classifiable) :
    ∀ (n : Nat) (x y px py : Int) (data : List Nat),
      data.length = (M * 2) * (M * 2) →
      0 ≤ px → px + (n : Int) < (M : Int) * 2 → 0 ≤ py → py + (n : Int) ≤ (M : Int) * 2 →
      ∃ d, MapWindow.SetMapPixels.loop M w tab dx dy n x y px py data = some d
        ∧ d.length = data.length := by
  intro n
  induction n with
  | zero =>
    intro x y px py data _ _ _ _ _
    exact ⟨data, rfl, rfl⟩
  | succ n ih =>
    intro x y px py data hlen hpx0 hpx1 hpy0 hpy1
    push_cast at hpx1 hpy1
    obtain ⟨d1, hd1, hl1⟩ := pixel_some M w tab x y px py data hw hlen hpx0 (by omega) hpy0
      (by omega)
    obtain ⟨d2, hd2, hl2⟩ := ih (x + dx) (y + dy) (px + 1) (py + 1) d1 (by rw [hl1, hlen])
      (by omega) (by omega) (by omega) (by omega)
    refine ⟨d2, ?_, by rw [hl2, hl1]⟩
    simp only [MapWindow.SetMapPixels.loop, hd1, Option.some_bind, hd2]

theorem scanline_origin (M L : Int) (hL0 : 0 ≤ L) (hL : L < M) :
    (L * (MAP_WINDOW_MAP_SIZE M - 1) + M - 1).tmod (MAP_WINDOW_MAP_SIZE M) = M - 1 - L ∧
    (L * (MAP_WINDOW_MAP_SIZE M - 1) + M - 1).tdiv (MAP_WINDOW_MAP_SIZE M) = L := by
  unfold MAP_WINDOW_MAP_SIZE
  have hpos : L * (M * 2 - 1) + M - 1 = (M - 1 - L) + L * (M * 2) := by ring
  have h0 : 0 ≤ (M - 1 - L) + L * (M * 2) := by
    have : 0 ≤ L * (M * 2) := Int.mul_nonneg hL0 (by omega)
    omega
  rw [hpos, Int.tmod_eq_emod h0 (by omega), Int.tdiv_eq_ediv h0 (by omega),
    Int.add_mul_emod_self, Int.add_mul_ediv_right _ _ (by omega),
    Int.emod_eq_of_lt (by omega) (by omega), Int.ediv_eq_zero_of_lt (by omega) (by omega)]
  omega

theorem SetMapPixels_some (M : Nat) (w : World) (s : MapWindow) (hw : w.Classifiable)
    (hs : s.WellSized M) :
    ∃ s1, MapWindow.SetMapPixels M w s = some s1
      ∧ s1._currentLine = (s._currentLine + 1) % M
      ∧ s1.WellSized M
      ∧ s1._rotation = s._rotation
      ∧ s1.selected_tab = s.selected_tab
      ∧ s1.list_information_type = s.list_information_type := by
  obtain ⟨hcur, hlen⟩ := hs
  have horigin := scanline_origin (M : Int) (s._currentLine : Int) (by omega) (by omega)
  obtain ⟨d, hd, hl⟩ := loop_some M w s.selected_tab
    (MapWindow.SetMapPixels.start M w.GetCurrentRotation s._currentLine).2.1
    (MapWindow.SetMapPixels.start M w.GetCurrentRotation s._currentLine).2.2 hw M
    (MapWindow.SetMapPixels.start M w.GetCurrentRotation s._currentLine).1.1
    (MapWindow.SetMapPixels.start M w.GetCurrentRotation s._currentLine).1.2
    ((M : Int) - 1 - s._currentLine) s._currentLine s._mapImageData hlen
    (by omega) (by omega) (by omega) (by omega)
  have hnext : (if s._currentLine + 1 ≥ M then 0 else s._currentLine + 1)
      = (s._currentLine + 1) % M := by
    split_ifs with h
    · have : s._currentLine + 1 = M := by omega
      rw [this, Nat.mod_self]
    · rw [Nat.mod_eq_of_lt (by omega)]
  refine ⟨{ s with _mapImageData := d, _currentLine := (s._currentLine + 1) % M }, ?_, rfl,
    ⟨Nat.mod_lt _ (by omega), by rw [← hlen]; exact hl⟩, rfl, rfl, rfl⟩
  unfold MapWindow.SetMapPixels
  simp only [horigin.1, horigin.2, hd, Option.map_some', hnext]

theorem SetMapPixels_times_some (M : Nat) (w : World) (hw : w.Classifiable) :
    ∀ (n : Nat) (s : MapWindow), s.WellSized M →
      ∃ s1, MapWindow.SetMapPixels.times M w n s = some s1
        ∧ s1._currentLine = (s._currentLine + n) % M
        ∧ s1.WellSized M
        ∧ s1._rotation = s._rotation
        ∧ s1.selected_tab = s.selected_tab
        ∧ s1.list_information_type = s.list_information_type := by
  intro n
  induction n with
  | zero =>
    intro s hs
    exact ⟨s, rfl, by rw [Nat.add_zero, Nat.mod_eq_of_lt hs.1], hs, rfl, rfl, rfl⟩
  | succ n ih =>
    intro s hs
    obtain ⟨s1, h1, hc1, hs1, hr1, ht1, hi1⟩ := SetMapPixels_some M w s hw hs
    obtain ⟨s2, h2, hc2, hs2, hr2, ht2, hi2⟩ := ih s1 hs1
    refine ⟨s2, ?_, ?_, hs2, by rw [hr2, hr1], by rw [ht2, ht1], by rw [hi2, hi1]⟩
    · simp only [MapWindow.SetMapPixels.times, h1, Option.some_bind, h2]
    · rw [hc2, hc1, Nat.mod_add_mod]
      congr 1
      omega

theorem SetMapPixels_lines_eq (M : Nat) (w : World) (hw : w.Classifiable) :
    ∀ (n : Nat) (s : MapWindow), s.WellSized M →
      MapWindow.SetMapPixels.lines M w n s
        = (List.range n).map (fun i => (s._currentLine + i) % M) := by
  intro n
  induction n with
  | zero => intro s _; rfl
  | succ n ih =>
    intro s hs
    obtain ⟨s1, h1, hc1, hs1, _⟩ := SetMapPixels_some M w s hw hs
    simp only [MapWindow.SetMapPixels.lines, h1, ih s1 hs1, hc1, List.range_succ_eq_map,
      List.map_cons, List.map_map, Nat.add_zero, Nat.mod_eq_of_lt hs.1]
    congr 1
    apply List.map_congr_left
    intro i _
    simp only [Function.comp_apply, Nat.mod_add_mod]
    congr 1
    omega

theorem checkRotation_wellSized (M : Nat) (w : World) (s : MapWindow) (hs : s.WellSized M) :
    (MapWindow.OnUpdate.checkRotation w s).WellSized M := by
  unfold MapWindow.OnUpdate.checkRotation
  split_ifs
  · exact ⟨by have := hs.1; simp only [MapWindow.InitMap]; omega,
      by simp only [MapWindow.InitMap, List.length_replicate]; exact hs.2⟩
  · exact hs

theorem checkRotation_rotation (w : World) (s : MapWindow) :
    (MapWindow.OnUpdate.checkRotation w s)._rotation = w.GetCurrentRotation := by
  unfold MapWindow.OnUpdate.checkRotation
  split_ifs with h
  · rfl
  · exact (not_not.mp h).symm

theorem OnUpdate_some (M : Nat) (w : World) (s : MapWindow) (hw : w.Classifiable)
    (hs : s.WellSized M) :
    ∃ s1, MapWindow.OnUpdate M w s = some s1
      ∧ s1._currentLine = ((MapWindow.OnUpdate.checkRotation w s)._currentLine + 16) % M
      ∧ s1.WellSized M
      ∧ s1._rotation = w.GetCurrentRotation := by
  obtain ⟨s1, h1, hc1, hs1, hr1, _, _⟩ := SetMapPixels_times_some M w hw 16
    (MapWindow.OnUpdate.checkRotation w s) (checkRotation_wellSized M w s hs)
  refine ⟨MapWindow.OnUpdate.animate s1, ?_, hc1, hs1, ?_⟩
  · unfold MapWindow.OnUpdate
    rw [h1]; rfl
  · show s1._rotation = _
    rw [hr1, checkRotation_rotation]

theorem checkRotation_same (w : World) (s : MapWindow)
    (hrot : w.GetCurrentRotation = s._rotation) :
    MapWindow.OnUpdate.checkRotation w s = s := by
  unfold MapWindow.OnUpdate.checkRotation
  rw [if_neg (not_not.mpr hrot)]

theorem OnUpdate_times_some (M : Nat) (w : World) (hw : w.Classifiable) :
    ∀ (k : Nat) (s : MapWindow), s.WellSized M → w.GetCurrentRotation = s._rotation →
      (∃ s1, MapWindow.OnUpdate.times M w k s = some s1
        ∧ s1._currentLine = (s._currentLine + 16 * k) % M
        ∧ s1.WellSized M
        ∧ s1._rotation = s._rotation)
      ∧ MapWindow.OnUpdate.lines M w k s
        = (List.range (16 * k)).map (fun i => (s._currentLine + i) % M) := by
  intro k
  induction k with
  | zero =>
    intro s hs _
    exact ⟨⟨s, rfl, by rw [Nat.mul_zero, Nat.add_zero, Nat.mod_eq_of_lt hs.1], hs, rfl⟩, rfl⟩
  | succ k ih =>
    intro s hs hrot
    obtain ⟨s1, h1, hc1, hs1, hr1⟩ := OnUpdate_some M w s hw hs
    rw [checkRotation_same w s hrot] at hc1
    obtain ⟨⟨s2, h2, hc2, hs2, hr2⟩, hl2⟩ := ih s1 hs1 hr1.symm
    refine ⟨⟨s2, ?_, ?_, hs2, by rw [hr2, hr1, hrot]⟩, ?_⟩
    · simp only [MapWindow.OnUpdate.times, h1, Option.some_bind, h2]
    · rw [hc2, hc1, Nat.mod_add_mod]
      congr 1
      omega
    · have hsplit : 16 * (k + 1) = 16 + 16 * k := by omega
      simp only [MapWindow.OnUpdate.lines, h1, hl2, hc1, checkRotation_same w s hrot,
        SetMapPixels_lines_eq M w hw 16 s hs, hsplit, List.range_add, List.map_append,
        List.map_map]
      congr 1
      apply List.map_congr_left
      intro i _
      simp only [Function.comp_apply, Nat.mod_add_mod]
      congr 1
      omega

theorem peepWalk_isSome :
    ∀ (rest : List TileElement) (colour : Nat) (cur : TileElement),
      Terminated (cur :: rest) → (GetPixelColourPeep.walk colour cur rest).isSome = true := by
  intro rest
  induction rest with
  | nil =>
    intro colour cur ht
    obtain ⟨e, he, hl⟩ := ht
    have hcur : cur.IsLastForTile = true := by
      rw [List.mem_singleton] at he; rw [← he]; exact hl
    simp [GetPixelColourPeep.walk, hcur]
  | cons next rest ih =>
    intro colour cur ht
    by_cases hcur : cur.IsLastForTile = true
    · simp [GetPixelColourPeep.walk, hcur]
    · by_cases hg : next.IsGhost = true
      · simp [GetPixelColourPeep.walk, hcur, hg]
      · simp only [GetPixelColourPeep.walk, hcur, hg, if_false, Bool.false_eq_true]
        apply ih
        obtain ⟨e, he, hl⟩ := ht
        rcases List.mem_cons.mp he with h | h
        · rw [h] at hl; exact absurd hl hcur
        · exact ⟨e, h, hl⟩

theorem rideWalk_isSome (w : World) :
    ∀ (mem : List TileElement) (colourA colourB : Nat),
      Terminated mem → (GetPixelColourRide.walk w colourA colourB mem).isSome = true := by
  intro mem
  induction mem with
  | nil =>
    intro _ _ ht
    obtain ⟨e, he, _⟩ := ht
    exact absurd he (List.not_mem_nil e)
  | cons cur rest ih =>
    intro colourA colourB ht
    by_cases hg : cur.IsGhost = true
    · simp [GetPixelColourRide.walk, hg]
    · by_cases hcur : cur.IsLastForTile = true
      · simp [GetPixelColourRide.walk, hg, hcur]
      · simp only [GetPixelColourRide.walk, hg, hcur, if_false, Bool.false_eq_true]
        apply ih
        obtain ⟨e, he, hl⟩ := ht
        rcases List.mem_cons.mp he with h | h
        · rw [h] at hl; exact absurd hl hcur
        · exact ⟨e, h, hl⟩

theorem surfaceElement_terminated :
    ∀ (mem : List TileElement) (s : TileElement) (rest : List TileElement),
      Terminated mem → MapGetSurfaceElementAt mem = some (s, rest) →
      Terminated (s :: rest) := by
  intro mem
  induction mem with
  | nil => intro s rest _ h; simp [MapGetSurfaceElementAt] at h
  | cons e tl ih =>
    intro s rest ht h
    unfold MapGetSurfaceElementAt at h
    split_ifs at h with h1 h2
    · simp only [Option.some.injEq, Prod.mk.injEq] at h
      rw [← h.1, ← h.2]; exact ht
    · apply ih s rest _ h
      obtain ⟨x, hx, hl⟩ := ht
      rcases List.mem_cons.mp hx with hxe | hxe
      · rw [hxe] at hl; exact absurd hl h2
      · exact ⟨x, hxe, hl⟩

theorem classifiable_of_terminated (w : World)
    (h : ∀ c : CoordsXY, w.MapIsEdge c = false → Terminated (w.tileElements c)) :
    w.Classifiable := by
  intro c hc
  have ht := h c hc
  unfold GetPixelColourPeep GetPixelColourRide
  cases hm : MapGetSurfaceElementAt (w.tileElements c) with
  | none => exact ⟨rfl, rfl⟩
  | some p =>
    obtain ⟨s, rest⟩ := p
    have hterm := surfaceElement_terminated _ s rest ht hm
    refine ⟨peepWalk_isSome rest _ s hterm, ?_⟩
    simp only [Option.isSome_map']
    exact rideWalk_isSome w (s :: rest) _ _ hterm

theorem sampleWorld_classifiable (rot : Nat) : (sampleWorld rot []).Classifiable := by
  intro c _
  exact ⟨rfl, rfl⟩

theorem OnOpen_wellSized (M : Nat) (w : World) (hM : 0 < M) :
    (MapWindow.OnOpen M w).WellSized M :=
  ⟨hM, by simp [MapWindow.OnOpen, MapWindow.InitMap]⟩

/-- C3 (counterexample): with `M = 1001` a sweep needs `ceil(1001 / 16) = 63` updates, that is
1008 `SetMapPixels` calls: started at cursor 0 with no rotation change they leave
`_currentLine = 7`, not 0, and scan line 0 is rasterized by the first call and again by call
number 1002. -/
theorem sweep_overshoots :
    (1001 + 15) / 16 = 63 ∧
    (MapWindow.OnOpen 1001 (sampleWorld 0 []))._currentLine = 0 ∧
    (sampleWorld 0 []).GetCurrentRotation = (MapWindow.OnOpen 1001 (sampleWorld 0 []))._rotation ∧
    (∃ s1, MapWindow.OnUpdate.times 1001 (sampleWorld 0 []) 63
        (MapWindow.OnOpen 1001 (sampleWorld 0 [])) = some s1 ∧ s1._currentLine = 7) ∧
    (MapWindow.OnUpdate.lines 1001 (sampleWorld 0 []) 63
        (MapWindow.OnOpen 1001 (sampleWorld 0 [])))[0]? = some 0 ∧
    (MapWindow.OnUpdate.lines 1001 (sampleWorld 0 []) 63
        (MapWindow.OnOpen 1001 (sampleWorld 0 [])))[1001]? = some 0 := by
  obtain ⟨⟨s1, h1, hc1, _, _⟩, hl⟩ := OnUpdate_times_some 1001 (sampleWorld 0 [])
    (sampleWorld_classifiable 0) 63 (MapWindow.OnOpen 1001 (sampleWorld 0 []))
    (OnOpen_wellSized 1001 _ (by decide)) rfl
  have hcur : (MapWindow.OnOpen 1001 (sampleWorld 0 []))._currentLine = 0 := rfl
  rw [hcur] at hc1 hl
  refine ⟨by decide, rfl, rfl, ⟨s1, h1, by rw [hc1]⟩, ?_, ?_⟩
  · rw [hl, List.getElem?_map, List.getElem?_range (by decide)]; rfl
  · rw [hl, List.getElem?_map, List.getElem?_range (by decide)]; rfl

/-- C3 (amended): starting from cursor 0 and with no rotation change, the `ceil(M / 16)` calls
of `OnUpdate` succeed and rasterize the scan lines `0, 1, 2, ...` modulo `M` in call order,
`16 * ceil(M / 16)` of them: every scan line in `[0, M)` is rasterized at least once and
`_currentLine` ends at `16 * ceil(M / 16) mod M`.  If 16 divides `M` every line is rasterized
exactly once and `_currentLine` is 0 again; otherwise line 0 is rasterized a second time. -/
theorem sweep_after_ceil_updates (M : Nat) (w : World) (s : MapWindow)
    (hw : w.Classifiable) (hs : s.WellSized M) (hcur : s._currentLine = 0)
    (hrot : w.GetCurrentRotation = s._rotation) :
    (∃ s1, MapWindow.OnUpdate.times M w ((M + 15) / 16) s = some s1
      ∧ s1._currentLine = (16 * ((M + 15) / 16)) % M) ∧
    MapWindow.OnUpdate.lines M w ((M + 15) / 16) s
      = (List.range (16 * ((M + 15) / 16))).map (fun i => i % M) ∧
    (∀ L, L < M → L ∈ MapWindow.OnUpdate.lines M w ((M + 15) / 16) s) ∧
    (16 ∣ M →
      (∃ s1, MapWindow.OnUpdate.times M w ((M + 15) / 16) s = some s1 ∧ s1._currentLine = 0)
      ∧ MapWindow.OnUpdate.lines M w ((M + 15) / 16) s = List.range M) ∧
    (¬ 16 ∣ M →
      (MapWindow.OnUpdate.lines M w ((M + 15) / 16) s)[0]? = some 0
      ∧ (MapWindow.OnUpdate.lines M w ((M + 15) / 16) s)[M]? = some 0) := by
  obtain ⟨⟨s1, h1, hc1, _, _⟩, hl⟩ := OnUpdate_times_some M w hw ((M + 15) / 16) s hs hrot
  have hM : 0 < M := by have := hs.1; omega
  simp only [hcur, Nat.zero_add] at hc1 hl
  refine ⟨⟨s1, h1, hc1⟩, hl, ?_, ?_, ?_⟩
  · intro L hL
    rw [hl, List.mem_map]
    exact ⟨L, List.mem_range.mpr (by omega), Nat.mod_eq_of_lt hL⟩
  · intro hdvd
    have hk : 16 * ((M + 15) / 16) = M := by omega
    rw [hk] at hc1 hl
    refine ⟨⟨s1, h1, by rw [hc1, Nat.mod_self]⟩, ?_⟩
    rw [hl]
    conv_rhs => rw [← List.map_id (List.range M)]
    apply List.map_congr_left
    intro i hi
    exact Nat.mod_eq_of_lt (List.mem_range.mp hi)
  · intro hdvd
    rw [hl, List.getElem?_map, List.getElem?_map, List.getElem?_range (by omega),
      List.getElem?_range (by omega)]
    simp

/-- C3 (witness): with `M = 16`, in a world whose tiles are unowned water, one update is a
full sweep and the cursor is back at 0. -/
theorem sweep_after_ceil_updates_witness :
    ∃ s1, MapWindow.OnUpdate.times 16 (sampleWorld 0 [sampleSurface false true false 16])
        ((16 + 15) / 16) (MapWindow.OnOpen 16 (sampleWorld 0 [])) = some s1
      ∧ s1._currentLine = 0 :=
  ((sweep_after_ceil_updates 16 (sampleWorld 0 [sampleSurface false true false 16])
    (MapWindow.OnOpen 16 (sampleWorld 0 []))
    (fun _ _ => ⟨rfl, rfl⟩) (OnOpen_wellSized 16 (sampleWorld 0 []) (by decide))
    rfl rfl).2.2.2.1 (by decide)).1

theorem OnUpdate_lines_one (M : Nat) (w : World) (s : MapWindow) (hw : w.Classifiable)
    (hs : s.WellSized M) :
    MapWindow.OnUpdate.lines M w 1 s
      = (List.range 16).map
          (fun i => ((MapWindow.OnUpdate.checkRotation w s)._currentLine + i) % M) := by
  obtain ⟨s1, h1, _⟩ := OnUpdate_some M w s hw hs
  simp only [MapWindow.OnUpdate.lines, h1, List.append_nil]
  exact SetMapPixels_lines_eq M w hw 16 _ (checkRotation_wellSized M w s hs)

theorem checkRotation_changed (w : World) (s : MapWindow)
    (hrot : w.GetCurrentRotation ≠ s._rotation) :
    MapWindow.OnUpdate.checkRotation w s
      = MapWindow.InitMap { s with _rotation := w.GetCurrentRotation } := by
  unfold MapWindow.OnUpdate.checkRotation
  rw [if_pos hrot]

/-- C10 (counterexample): an `OnUpdate` call that sees a changed rotation (stored 0, world 1)
stores the new rotation, resets, and still runs its sixteen `SetMapPixels` calls: after the
call `_currentLine` is 16, not 0, the scan lines 0 to 15 having been rasterized. -/
theorem onUpdate_rotation_change_still_ticks :
    (sampleWorld 1 []).GetCurrentRotation ≠ (MapWindow.OnOpen 1001 (sampleWorld 0 []))._rotation ∧
    (∃ s1, MapWindow.OnUpdate 1001 (sampleWorld 1 []) (MapWindow.OnOpen 1001 (sampleWorld 0 []))
        = some s1 ∧ s1._rotation = 1 ∧ s1._currentLine = 16 ∧ s1._currentLine ≠ 0) ∧
    MapWindow.OnUpdate.lines 1001 (sampleWorld 1 []) 1 (MapWindow.OnOpen 1001 (sampleWorld 0 []))
      = List.range 16 := by
  have hwell := OnOpen_wellSized 1001 (sampleWorld 0 []) (by decide)
  obtain ⟨s1, h1, hc1, _, hr1⟩ := OnUpdate_some 1001 (sampleWorld 1 [])
    (MapWindow.OnOpen 1001 (sampleWorld 0 [])) (sampleWorld_classifiable 1) hwell
  have hlines := OnUpdate_lines_one 1001 (sampleWorld 1 [])
    (MapWindow.OnOpen 1001 (sampleWorld 0 [])) (sampleWorld_classifiable 1) hwell
  have hcur : (MapWindow.OnUpdate.checkRotation (sampleWorld 1 [])
      (MapWindow.OnOpen 1001 (sampleWorld 0 [])))._currentLine = 0 := rfl
  rw [hcur] at hc1 hlines
  refine ⟨by decide, ⟨s1, h1, hr1, hc1, by rw [hc1]; decide⟩, ?_⟩
  rw [hlines]
  decide

/-- C10 (amended): every `OnUpdate` call succeeds and leaves `_rotation` equal to the world
rotation.  If the rotation has changed, the call first stores it and resets (cursor 0, every
bitmap byte `PALETTE_INDEX_10`, bitmap size unchanged) and then, in the same call, runs the
sixteen `SetMapPixels` calls from that reset state: the scan lines `0 .. 15` (modulo `M`) are
rasterized and the call ends with `_currentLine = 16 mod M`.  Without a rotation change the
sixteen calls run from the current cursor `c`, ending with `_currentLine = (c + 16) mod M`. -/
theorem onUpdate_tick (M : Nat) (w : World) (s : MapWindow) (hw : w.Classifiable)
    (hs : s.WellSized M) :
    ∃ s1, MapWindow.OnUpdate M w s = some s1 ∧ s1._rotation = w.GetCurrentRotation ∧
      (w.GetCurrentRotation ≠ s._rotation →
        (MapWindow.OnUpdate.checkRotation w s)._rotation = w.GetCurrentRotation ∧
        (MapWindow.OnUpdate.checkRotation w s)._currentLine = 0 ∧
        (∀ b ∈ (MapWindow.OnUpdate.checkRotation w s)._mapImageData, b = PALETTE_INDEX_10) ∧
        (MapWindow.OnUpdate.checkRotation w s)._mapImageData.length
          = s._mapImageData.length ∧
        MapWindow.OnUpdate.lines M w 1 s = (List.range 16).map (fun i => i % M) ∧
        s1._currentLine = 16 % M) ∧
      (w.GetCurrentRotation = s._rotation →
        MapWindow.OnUpdate.checkRotation w s = s ∧
        MapWindow.OnUpdate.lines M w 1 s
          = (List.range 16).map (fun i => (s._currentLine + i) % M) ∧
        s1._currentLine = (s._currentLine + 16) % M) := by
  obtain ⟨s1, h1, hc1, _, hr1⟩ := OnUpdate_some M w s hw hs
  have hlines := OnUpdate_lines_one M w s hw hs
  refine ⟨s1, h1, hr1, ?_, ?_⟩
  · intro hrot
    have hcheck := checkRotation_changed w s hrot
    have hcur : (MapWindow.OnUpdate.checkRotation w s)._currentLine = 0 := by
      rw [hcheck]; rfl
    refine ⟨checkRotation_rotation w s, hcur, ?_, ?_, ?_, ?_⟩
    · intro b hb
      rw [hcheck] at hb
      exact List.eq_of_mem_replicate hb
    · rw [hcheck]
      exact List.length_replicate _ _
    · rw [hlines, hcur]
      simp only [Nat.zero_add]
    · rw [hc1, hcur]
  · intro hrot
    have hcheck := checkRotation_same w s hrot
    rw [hcheck] at hc1 hlines
    exact ⟨hcheck, hlines, hc1⟩

/-- C10 (witness): on a 4 x 4 bitmap (`M = 2`) a window opened under rotation 0 is updated
in a world with rotation 1 whose tiles are unowned water; the call succeeds and stores
rotation 1. -/
theorem onUpdate_tick_witness :
    ∃ s1, MapWindow.OnUpdate 2 (sampleWorld 1 [sampleSurface false true false 16])
        (MapWindow.OnOpen 2 (sampleWorld 0 [])) = some s1 ∧ s1._rotation = 1 :=
  match onUpdate_tick 2 (sampleWorld 1 [sampleSurface false true false 16])
      (MapWindow.OnOpen 2 (sampleWorld 0 [])) (fun _ _ => ⟨rfl, rfl⟩)
      ⟨by decide, by decide⟩ with
  | ⟨s1, h1, h2, _⟩ => ⟨s1, h1, h2⟩

/-! ## Missing surface element -/

/-- C16 (counterexample): on a tile without surface element the two display modes do not
return the same colour: people mode returns `0x0000`, rides mode the dark grey `0x0D0D`. -/
theorem void_colour_differs_between_modes :
    MapGetSurfaceElementAt ((sampleWorld 0 []).tileElements { x := 64, y := 64 }) = none ∧
    GetPixelColourPeep (sampleWorld 0 []) { x := 64, y := 64 } = some 0x0000 ∧
    GetPixelColourRide (sampleWorld 0 []) { x := 64, y := 64 } = some 0x0D0D ∧
    GetPixelColourPeep (sampleWorld 0 []) { x := 64, y := 64 }
      ≠ GetPixelColourRide (sampleWorld 0 []) { x := 64, y := 64 } := by
  decide

/-- C16 (amended): for every tile coordinate at which there is no surface element, each
display mode returns its own fixed default colour, `0x0000` from `GetPixelColourPeep` and
`MapColour(PALETTE_INDEX_13) = 0x0D0D` from `GetPixelColourRide`, whatever the rest of the
world state is; neither walk is entered. -/
theorem void_colour_without_surface (w : World) (c : CoordsXY)
    (hnone : MapGetSurfaceElementAt (w.tileElements c) = none) :
    GetPixelColourPeep w c = some 0x0000 ∧
    GetPixelColourRide w c = some (MapColour PALETTE_INDEX_13) ∧
    MapColour PALETTE_INDEX_13 = 0x0D0D := by
  refine ⟨?_, ?_, by decide⟩
  · unfold GetPixelColourPeep
    rw [hnone]
  · unfold GetPixelColourRide
    rw [hnone]
    rfl

/-- C16 (witness): a tile whose chain holds only a path element has no surface element; with
ride 0 present and rotation 3 the two defaults are still `0x0000` and `0x0D0D`. -/
theorem void_colour_without_surface_witness :
    GetPixelColourPeep (sampleWorld 3 [sampleElement TileElementType.Path false true])
      { x := 96, y := 32 } = some 0x0000 ∧
    GetPixelColourRide (sampleWorld 3 [sampleElement TileElementType.Path false true])
      { x := 96, y := 32 } = some 0x0D0D :=
  ⟨(void_colour_without_surface
      (sampleWorld 3 [sampleElement TileElementType.Path false true])
      { x := 96, y := 32 } (by decide)).1,
   (void_colour_without_surface
      (sampleWorld 3 [sampleElement TileElementType.Path false true])
      { x := 96, y := 32 } (by decide)).2.1⟩

/-! ## Corners of the minimap diamond -/

/-- C18: for `M >= 2` and each rotation, `TransformToMapCoords` sends the four corner tiles
`(0,0)`, `(M-1,0)`, `(M-1,M-1)`, `(0,M-1)` onto the four extreme points `(M-8,-8)`,
`(-7,M-9)`, `(M-8,2M-10)`, `(2M-9,M-9)` of the minimap diamond.  Rotation 0 assigns them in
this order, rotation 1 shifts the assignment by one corner backwards, rotation 2 by two and
rotation 3 by one forwards; the four points are pairwise distinct. -/
theorem corners_onto_diamond (M : Int) (hM : 2 ≤ M) :
    (TransformToMapCoords M 0 { x := 0, y := 0 } = { x := M - 8, y := -8 } ∧
     TransformToMapCoords M 0 { x := 32 * (M - 1), y := 0 } = { x := -7, y := M - 9 } ∧
     TransformToMapCoords M 0 { x := 32 * (M - 1), y := 32 * (M - 1) }
       = { x := M - 8, y := 2 * M - 10 } ∧
     TransformToMapCoords M 0 { x := 0, y := 32 * (M - 1) } = { x := 2 * M - 9, y := M - 9 }) ∧
    (TransformToMapCoords M 1 { x := 0, y := 0 } = { x := 2 * M - 9, y := M - 9 } ∧
     TransformToMapCoords M 1 { x := 32 * (M - 1), y := 0 } = { x := M - 8, y := -8 } ∧
     TransformToMapCoords M 1 { x := 32 * (M - 1), y := 32 * (M - 1) }
       = { x := -7, y := M - 9 } ∧
     TransformToMapCoords M 1 { x := 0, y := 32 * (M - 1) }
       = { x := M - 8, y := 2 * M - 10 }) ∧
    (TransformToMapCoords M 2 { x := 0, y := 0 } = { x := M - 8, y := 2 * M - 10 } ∧
     TransformToMapCoords M 2 { x := 32 * (M - 1), y := 0 } = { x := 2 * M - 9, y := M - 9 } ∧
     TransformToMapCoords M 2 { x := 32 * (M - 1), y := 32 * (M - 1) }
       = { x := M - 8, y := -8 } ∧
     TransformToMapCoords M 2 { x := 0, y := 32 * (M - 1) } = { x := -7, y := M - 9 }) ∧
    (TransformToMapCoords M 3 { x := 0, y := 0 } = { x := -7, y := M - 9 } ∧
     TransformToMapCoords M 3 { x := 32 * (M - 1), y := 0 } = { x := M - 8, y := 2 * M - 10 } ∧
     TransformToMapCoords M 3 { x := 32 * (M - 1), y := 32 * (M - 1) }
       = { x := 2 * M - 9, y := M - 9 } ∧
     TransformToMapCoords M 3 { x := 0, y := 32 * (M - 1) } = { x := M - 8, y := -8 }) ∧
    List.Nodup [({ x := M - 8, y := -8 } : MapCoordsXY), { x := -7, y := M - 9 },
      { x := M - 8, y := 2 * M - 10 }, { x := 2 * M - 9, y := M - 9 }] := by
  refine ⟨⟨?_, ?_, ?_, ?_⟩, ⟨?_, ?_, ?_, ?_⟩, ⟨?_, ?_, ?_, ?_⟩, ⟨?_, ?_, ?_, ?_⟩, ?_⟩
  all_goals first
    | (simp only [TransformToMapCoords, TransformToMapCoords.rotated, MAXIMUM_MAP_SIZE_BIG,
        COORDS_XY_STEP, tdiv_32_cases, TileCoordsXY.mk.injEq]
       split_ifs <;> constructor <;> omega)
    | (simp only [List.nodup_cons, List.mem_cons, List.mem_singleton, List.not_mem_nil,
        TileCoordsXY.mk.injEq, List.nodup_nil, or_false, and_true, not_or, not_and]
       repeat' constructor
       all_goals first
         | (intro h; omega)
         | exact not_false)

/-- C18 (witness): the corners for `M = 1001` under rotation 1. -/
theorem corners_onto_diamond_witness :
    TransformToMapCoords 1001 1 { x := 0, y := 0 } = { x := 1993, y := 992 } ∧
    TransformToMapCoords 1001 1 { x := 32000, y := 0 } = { x := 993, y := -8 } ∧
    TransformToMapCoords 1001 1 { x := 32000, y := 32000 } = { x := -7, y := 992 } ∧
    TransformToMapCoords 1001 1 { x := 0, y := 32000 } = { x := 993, y := 1992 } :=
  (corners_onto_diamond 1001 (by decide)).2.1

/-! ## Scan cursor -/

theorem SetMapPixels_cursor (M : Nat) (w : World) (s s1 : MapWindow)
    (h : MapWindow.SetMapPixels M w s = some s1) :
    s1._currentLine = (if s._currentLine + 1 ≥ M then 0 else s._currentLine + 1)
      ∧ s1._rotation = s._rotation ∧ s1.selected_tab = s.selected_tab := by
  unfold MapWindow.SetMapPixels at h
  simp only [Option.map_eq_some'] at h
  obtain ⟨d, _, hd⟩ := h
  rw [← hd]
  exact ⟨rfl, rfl, rfl⟩

theorem SetMapPixels_cursor_lt (M : Nat) (hM : 0 < M) (w : World) (s s1 : MapWindow)
    (h : MapWindow.SetMapPixels M w s = some s1) : s1._currentLine < M := by
  rw [(SetMapPixels_cursor M w s s1 h).1]
  split_ifs <;> omega

theorem SetMapPixels_times_cursor_lt (M : Nat) (hM : 0 < M) (w : World) :
    ∀ (n : Nat) (s s1 : MapWindow), s._currentLine < M →
      MapWindow.SetMapPixels.times M w n s = some s1 → s1._currentLine < M := by
  intro n
  induction n with
  | zero =>
    intro s s1 hs h
    simp only [MapWindow.SetMapPixels.times, Option.some.injEq] at h
    rw [← h]; exact hs
  | succ n ih =>
    intro s s1 _ h
    simp only [MapWindow.SetMapPixels.times, Option.bind_eq_some] at h
    obtain ⟨s2, h2, h3⟩ := h
    exact ih s2 s1 (SetMapPixels_cursor_lt M hM w s s2 h2) h3

theorem InitMap_cursor (s : MapWindow) : s.InitMap._currentLine = 0 := rfl

/-- C11: in every state reachable from `OnOpen` through any sequence of `OnUpdate`,
`ResetMap`, `InitMap` and `SetMapPixels` calls (in arbitrary worlds), the scan cursor
satisfies `0 <= _currentLine < MAXIMUM_MAP_SIZE_TECHNICAL`, for a positive
`MAXIMUM_MAP_SIZE_TECHNICAL`. -/
theorem cursor_in_range (M : Nat) (hM : 0 < M) (s : MapWindow)
    (h : MapWindow.Reachable M s) :
    (0 : Int) ≤ (s._currentLine : Int) ∧ s._currentLine < M := by
  refine ⟨Int.natCast_nonneg _, ?_⟩
  induction h with
  | onOpen w => exact hM
  | onUpdate w s s1 _ hstep ih =>
    unfold MapWindow.OnUpdate at hstep
    simp only [Option.map_eq_some'] at hstep
    obtain ⟨s2, h2, h3⟩ := hstep
    have hcheck : (MapWindow.OnUpdate.checkRotation w s)._currentLine < M := by
      unfold MapWindow.OnUpdate.checkRotation
      split_ifs
      · exact hM
      · exact ih
    have hlt := SetMapPixels_times_cursor_lt M hM w 16 _ s2 hcheck h2
    rw [← h3]
    exact hlt
  | resetMap s _ _ => exact hM
  | initMap s _ _ => exact hM
  | setMapPixels w s s1 _ hstep _ => exact SetMapPixels_cursor_lt M hM w s s1 hstep

theorem reachable_wellSized (M : Nat) (hM : 0 < M) (s : MapWindow)
    (h : MapWindow.Reachable M s) : s.WellSized M := by
  have hinit : ∀ t : MapWindow, t.WellSized M → t.InitMap.WellSized M := by
    intro t ht
    exact ⟨hM, by simp only [MapWindow.InitMap, List.length_replicate]; exact ht.2⟩
  have hstore : ∀ (data d : List Nat) (index : Int) (value : Nat),
      MapWindow.storeByte data index value = some d → d.length = data.length := by
    intro data d index value hd
    unfold MapWindow.storeByte at hd
    split_ifs at hd
    simp only [Option.some.injEq] at hd
    rw [← hd, List.length_set]
  have hpixel : ∀ (w : World) (tab : Nat) (x y px py : Int) (data d : List Nat),
      MapWindow.SetMapPixels.pixel M w tab x y px py data = some d →
      d.length = data.length := by
    intro w tab x y px py data d hd
    unfold MapWindow.SetMapPixels.pixel at hd
    split_ifs at hd
    · simp only [Option.some.injEq] at hd; rw [hd]
    · simp only [Option.bind_eq_some] at hd
      obtain ⟨colour, _, d1, h1, h2⟩ := hd
      rw [hstore _ _ _ _ h2, hstore _ _ _ _ h1]
  have hloop : ∀ (w : World) (tab : Nat) (dx dy : Int) (n : Nat) (x y px py : Int)
      (data d : List Nat),
      MapWindow.SetMapPixels.loop M w tab dx dy n x y px py data = some d →
      d.length = data.length := by
    intro w tab dx dy n
    induction n with
    | zero =>
      intro x y px py data d hd
      simp only [MapWindow.SetMapPixels.loop, Option.some.injEq] at hd
      rw [hd]
    | succ n ih =>
      intro x y px py data d hd
      simp only [MapWindow.SetMapPixels.loop, Option.bind_eq_some] at hd
      obtain ⟨d1, h1, h2⟩ := hd
      rw [ih _ _ _ _ _ _ h2, hpixel _ _ _ _ _ _ _ _ h1]
  have hset : ∀ (w : World) (t t1 : MapWindow), t.WellSized M →
      MapWindow.SetMapPixels M w t = some t1 → t1.WellSized M := by
    intro w t t1 ht h1
    refine ⟨SetMapPixels_cursor_lt M hM w t t1 h1, ?_⟩
    unfold MapWindow.SetMapPixels at h1
    simp only [Option.map_eq_some'] at h1
    obtain ⟨d, hd, hd1⟩ := h1
    rw [← hd1]
    show d.length = _
    rw [hloop _ _ _ _ _ _ _ _ _ _ _ hd]
    exact ht.2
  have htimes : ∀ (w : World) (n : Nat) (t t1 : MapWindow), t.WellSized M →
      MapWindow.SetMapPixels.times M w n t = some t1 → t1.WellSized M := by
    intro w n
    induction n with
    | zero =>
      intro t t1 ht h1
      simp only [MapWindow.SetMapPixels.times, Option.some.injEq] at h1
      rw [← h1]; exact ht
    | succ n ih =>
      intro t t1 ht h1
      simp only [MapWindow.SetMapPixels.times, Option.bind_eq_some] at h1
      obtain ⟨t2, h2, h3⟩ := h1
      exact ih t2 t1 (hset w t t2 ht h2) h3
  induction h with
  | onOpen w => exact OnOpen_wellSized M w hM
  | onUpdate w s s1 _ hstep ih =>
    unfold MapWindow.OnUpdate at hstep
    simp only [Option.map_eq_some'] at hstep
    obtain ⟨s2, h2, h3⟩ := hstep
    have := htimes w 16 _ s2 (checkRotation_wellSized M w s ih) h2
    rw [← h3]
    exact this
  | resetMap s _ ih => exact hinit s ih
  | initMap s _ ih => exact hinit s ih
  | setMapPixels w s s1 _ hstep ih => exact hset w s s1 ih hstep

/-- C11 (witness): with `M = 2`, the state after `OnOpen` and one `SetMapPixels` call in a
world of unowned water tiles has its cursor at 1, below 2. -/
theorem cursor_in_range_witness :
    ∃ s1, MapWindow.SetMapPixels 2 (sampleWorld 0 [sampleSurface false true false 16])
        (MapWindow.OnOpen 2 (sampleWorld 0 [])) = some s1 ∧ s1._currentLine = 1
      ∧ s1._currentLine < 2 :=
  ⟨_, rfl, rfl,
    (cursor_in_range 2 (by decide) _
      (MapWindow.Reachable.setMapPixels (sampleWorld 0 [sampleSurface false true false 16])
        (MapWindow.OnOpen 2 (sampleWorld 0 [])) _
        (MapWindow.Reachable.onOpen (sampleWorld 0 [])) rfl)).2⟩

/-! ## Steps of a scan line -/

theorem loop_eq_steps (M : Nat) (w : World) (tab L : Nat) :
    ∀ (n i : Nat) (data : List Nat),
      MapWindow.SetMapPixels.loop M w tab
          (MapWindow.SetMapPixels.start M w.GetCurrentRotation L).2.1
          (MapWindow.SetMapPixels.start M w.GetCurrentRotation L).2.2 n
          (MapWindow.SetMapPixels.position M w.GetCurrentRotation L i).x
          (MapWindow.SetMapPixels.position M w.GetCurrentRotation L i).y
          (MapWindow.SetMapPixels.destinationPosition M L i).x
          (MapWindow.SetMapPixels.destinationPosition M L i).y data
        = MapWindow.SetMapPixels.steps M w tab L i n data := by
  intro n
  induction n with
  | zero => intro i data; rfl
  | succ n ih =>
    intro i data
    have hx : (MapWindow.SetMapPixels.position M w.GetCurrentRotation L i).x
        + (MapWindow.SetMapPixels.start M w.GetCurrentRotation L).2.1
        = (MapWindow.SetMapPixels.position M w.GetCurrentRotation L (i + 1)).x := by
      simp only [MapWindow.SetMapPixels.position]; push_cast; ring
    have hy : (MapWindow.SetMapPixels.position M w.GetCurrentRotation L i).y
        + (MapWindow.SetMapPixels.start M w.GetCurrentRotation L).2.2
        = (MapWindow.SetMapPixels.position M w.GetCurrentRotation L (i + 1)).y := by
      simp only [MapWindow.SetMapPixels.position]; push_cast; ring
    have hpx : (MapWindow.SetMapPixels.destinationPosition M L i).x + 1
        = (MapWindow.SetMapPixels.destinationPosition M L (i + 1)).x := by
      simp only [MapWindow.SetMapPixels.destinationPosition]; push_cast; ring
    have hpy : (MapWindow.SetMapPixels.destinationPosition M L i).y + 1
        = (MapWindow.SetMapPixels.destinationPosition M L (i + 1)).y := by
      simp only [MapWindow.SetMapPixels.destinationPosition]; push_cast; ring
    simp only [MapWindow.SetMapPixels.loop, MapWindow.SetMapPixels.steps, hx, hy, hpx, hpy, ih]

theorem SetMapPixels_eq_steps (M : Nat) (w : World) (s : MapWindow) :
    MapWindow.SetMapPixels M w s
      = (MapWindow.SetMapPixels.steps M w s.selected_tab s._currentLine 0 M
          s._mapImageData).map fun data =>
        { s with
          _mapImageData := data,
          _currentLine := if s._currentLine + 1 ≥ M then 0 else s._currentLine + 1 } := by
  rw [← loop_eq_steps M w s.selected_tab s._currentLine M 0 s._mapImageData]
  simp only [MapWindow.SetMapPixels, MapWindow.SetMapPixels.position,
    MapWindow.SetMapPixels.destinationPosition, Nat.cast_zero, zero_mul, add_zero]

theorem destinationPosition_eq (M L i : Nat) (hL : L < M) :
    MapWindow.SetMapPixels.destinationPosition M L i
      = { x := (M : Int) - 1 - L + i, y := (L : Int) + i } := by
  have h := scanline_origin (M : Int) (L : Int) (by omega) (by omega)
  simp only [MapWindow.SetMapPixels.destinationPosition, h.1, h.2]

theorem destination_eq (M L i : Nat) (hL : L < M) :
    MapWindow.SetMapPixels.destination M L i
      = ((L : Int) + i) * ((M : Int) * 2) + ((M : Int) - 1 - L + i) := by
  simp only [MapWindow.SetMapPixels.destination, destinationPosition_eq M L i hL,
    MAP_WINDOW_MAP_SIZE]

/-- C19: for every rotation `r < 4`, cursor `L < M` and step `i` (in particular `i < M`) of
one `SetMapPixels` call, the bitmap position used at step `i` is `(M - 1 - L + i, L + i)`, and the world
coordinate visited at that step is sent by `TransformToMapCoords`, under the same rotation,
to that position shifted by `(-7, -8)`.  The call itself is the sequence of its `M` loop
bodies at these coordinates and positions. -/
theorem rasterizer_matches_transform (M r L i : Nat) (hr : r < 4) (hL : L < M) :
    MapWindow.SetMapPixels.destinationPosition M L i
      = { x := (M : Int) - 1 - L + i, y := (L : Int) + i } ∧
    TransformToMapCoords M r (MapWindow.SetMapPixels.position M r L i)
      = { x := ((M : Int) - 1 - L + i) - 7, y := ((L : Int) + i) - 8 } ∧
    (∀ (w : World) (s : MapWindow),
      MapWindow.SetMapPixels M w s
        = (MapWindow.SetMapPixels.steps M w s.selected_tab s._currentLine 0 M
            s._mapImageData).map fun data =>
          { s with
            _mapImageData := data,
            _currentLine := if s._currentLine + 1 ≥ M then 0 else s._currentLine + 1 }) := by
  refine ⟨destinationPosition_eq M L i hL, ?_, SetMapPixels_eq_steps M⟩
  have h4 : r = 0 ∨ r = 1 ∨ r = 2 ∨ r = 3 := by omega
  rcases h4 with h | h | h | h <;> subst h <;>
    simp only [TransformToMapCoords, TransformToMapCoords.rotated,
      MapWindow.SetMapPixels.position, MapWindow.SetMapPixels.start, MAXIMUM_TILE_START_XY,
      MAXIMUM_MAP_SIZE_BIG, COORDS_XY_STEP, tdiv_32_cases, TileCoordsXY.mk.injEq] <;>
    split_ifs <;> constructor <;> omega

/-- C19 (witness): `M = 1001`, rotation 2, scan line 5, step 7: bitmap position `(1002, 12)`
and world coordinate `(31840, 31776)`, projected to `(995, 4)`. -/
theorem rasterizer_matches_transform_witness :
    MapWindow.SetMapPixels.destinationPosition 1001 5 7 = { x := 1002, y := 12 } ∧
    MapWindow.SetMapPixels.position 1001 2 5 7 = { x := 31840, y := 31776 } ∧
    TransformToMapCoords 1001 2 (MapWindow.SetMapPixels.position 1001 2 5 7)
      = { x := 995, y := 4 } :=
  ⟨(rasterizer_matches_transform 1001 2 5 7 (by decide) (by decide)).1,
   by decide,
   (rasterizer_matches_transform 1001 2 5 7 (by decide) (by decide)).2.1⟩

/-- C20: with the bitmap holding `(2M) * (2M)` bytes, for every cursor `L < M` and step
`i < M` (so `M >= 1`) the two byte offsets written at that step, `destination` and
`destination + 1`, lie in `[0, 4 * M * M)`, whatever the rotation; a store through them never
takes the out-of-range branch, and in a classifiable world the whole `SetMapPixels` call
returns a result. -/
theorem bitmap_writes_in_bounds (M L i : Nat) (hL : L < M) (hi : i < M) :
    0 ≤ MapWindow.SetMapPixels.destination M L i ∧
    MapWindow.SetMapPixels.destination M L i + 1 < 4 * (M : Int) * M ∧
    (∀ (data : List Nat) (value : Nat), data.length = (M * 2) * (M * 2) →
      (MapWindow.storeByte data (MapWindow.SetMapPixels.destination M L i) value).isSome = true ∧
      (MapWindow.storeByte data (MapWindow.SetMapPixels.destination M L i + 1) value).isSome
        = true) ∧
    (∀ (w : World) (s : MapWindow), w.Classifiable → s.WellSized M → s._currentLine = L →
      (MapWindow.SetMapPixels M w s).isSome = true) := by
  have hpos := destinationPosition_eq M L i hL
  have hoff := bitmap_offset_lt M ((M : Int) - 1 - L + i) ((L : Int) + i) (by omega) (by omega)
    (by omega) (by omega)
  have hdest : MapWindow.SetMapPixels.destination M L i
      = ((L : Int) + i) * MAP_WINDOW_MAP_SIZE M + ((M : Int) - 1 - L + i) := by
    simp only [MapWindow.SetMapPixels.destination, hpos]
  have hsize : (((M * 2) * (M * 2) : Nat) : Int) = 4 * (M : Int) * M := by push_cast; ring
  rw [hdest]
  refine ⟨hoff.1, by rw [← hsize]; exact hoff.2, ?_, ?_⟩
  · intro data value hlen
    obtain ⟨d1, h1, _⟩ := storeByte_some data
      (((L : Int) + i) * MAP_WINDOW_MAP_SIZE M + ((M : Int) - 1 - L + i)) value hoff.1
      (by rw [hlen]; omega)
    obtain ⟨d2, h2, _⟩ := storeByte_some data
      (((L : Int) + i) * MAP_WINDOW_MAP_SIZE M + ((M : Int) - 1 - L + i) + 1) value
      (by have := hoff.1; omega) (by rw [hlen]; exact hoff.2)
    rw [h1, h2]
    exact ⟨rfl, rfl⟩
  · intro w s hw hs _
    obtain ⟨s1, h1, _⟩ := SetMapPixels_some M w s hw hs
    rw [h1]
    rfl

/-- C20 (witness): `M = 1001`, the last step of the last scan line writes the offsets
`4005000` and `4005001`, below `4 * 1001 * 1001 = 4008004`. -/
theorem bitmap_writes_in_bounds_witness :
    MapWindow.SetMapPixels.destination 1001 1000 1000 = 4005000 ∧
    MapWindow.SetMapPixels.destination 1001 1000 1000 + 1 < 4 * (1001 : Int) * 1001 :=
  ⟨by decide, (bitmap_writes_in_bounds 1001 1000 1000 (by decide) (by decide)).2.1⟩

/-! ## Frame of the bitmap writes -/

theorem storeByte_frame (data d : List Nat) (index : Int) (value : Nat)
    (h : MapWindow.storeByte data index value = some d) (k : Nat) (hk : (k : Int) ≠ index) :
    d[k]? = data[k]? := by
  unfold MapWindow.storeByte at h
  split_ifs at h with hin
  simp only [Option.some.injEq] at h
  rw [← h, List.getElem?_set]
  have hne : ¬ index.toNat = k := by omega
  rw [if_neg hne]

theorem pixel_frame (M : Nat) (w : World) (tab : Nat) (x y px py : Int) (data d : List Nat)
    (h : MapWindow.SetMapPixels.pixel M w tab x y px py data = some d) (k : Nat)
    (hk0 : (k : Int) ≠ py * MAP_WINDOW_MAP_SIZE M + px)
    (hk1 : (k : Int) ≠ py * MAP_WINDOW_MAP_SIZE M + px + 1) :
    d[k]? = data[k]? := by
  unfold MapWindow.SetMapPixels.pixel at h
  split_ifs at h
  · simp only [Option.some.injEq] at h; rw [h]
  · simp only [Option.bind_eq_some] at h
    obtain ⟨colour, _, d1, h1, h2⟩ := h
    rw [storeByte_frame d1 d _ _ h2 k hk1, storeByte_frame data d1 _ _ h1 k hk0]

theorem steps_frame (M : Nat) (w : World) (tab L : Nat) (k : Nat) :
    ∀ (n i : Nat) (data d : List Nat),
      MapWindow.SetMapPixels.steps M w tab L i n data = some d →
      (∀ t, i ≤ t → t < i + n →
        (k : Int) ≠ MapWindow.SetMapPixels.destination M L t
        ∧ (k : Int) ≠ MapWindow.SetMapPixels.destination M L t + 1) →
      d[k]? = data[k]? := by
  intro n
  induction n with
  | zero =>
    intro i data d h _
    simp only [MapWindow.SetMapPixels.steps, Option.some.injEq] at h
    rw [h]
  | succ n ih =>
    intro i data d h hk
    simp only [MapWindow.SetMapPixels.steps, Option.bind_eq_some] at h
    obtain ⟨d1, h1, h2⟩ := h
    have hki := hk i (Nat.le_refl i) (by omega)
    rw [ih (i + 1) d1 d h2 (fun t ht0 ht1 => hk t (by omega) (by omega))]
    exact pixel_frame M w tab _ _ _ _ data d1 h1 k hki.1 hki.2

theorem SetMapPixels_frame (M : Nat) (w : World) (s s1 : MapWindow)
    (h : MapWindow.SetMapPixels M w s = some s1) (k : Nat)
    (hk : ∀ t, t < M →
      (k : Int) ≠ MapWindow.SetMapPixels.destination M s._currentLine t
      ∧ (k : Int) ≠ MapWindow.SetMapPixels.destination M s._currentLine t + 1) :
    s1._mapImageData[k]? = s._mapImageData[k]? := by
  rw [SetMapPixels_eq_steps] at h
  simp only [Option.map_eq_some'] at h
  obtain ⟨d, hd, hs1⟩ := h
  rw [← hs1]
  exact steps_frame M w s.selected_tab s._currentLine k M 0 s._mapImageData d hd
    (fun t _ ht => hk t (by omega))

theorem SetMapPixels_times_frame (M : Nat) (w : World) (k : Nat) :
    ∀ (n : Nat) (s s1 : MapWindow), s._currentLine + n ≤ M →
      MapWindow.SetMapPixels.times M w n s = some s1 →
      (∀ L1, s._currentLine ≤ L1 → L1 < s._currentLine + n → ∀ t, t < M →
        (k : Int) ≠ MapWindow.SetMapPixels.destination M L1 t
        ∧ (k : Int) ≠ MapWindow.SetMapPixels.destination M L1 t + 1) →
      s1._mapImageData[k]? = s._mapImageData[k]? := by
  intro n
  induction n with
  | zero =>
    intro s s1 _ h _
    simp only [MapWindow.SetMapPixels.times, Option.some.injEq] at h
    rw [h]
  | succ n ih =>
    intro s s1 hn h hk
    simp only [MapWindow.SetMapPixels.times, Option.bind_eq_some] at h
    obtain ⟨s2, h2, h3⟩ := h
    have hc2 := (SetMapPixels_cursor M w s s2 h2).1
    have hfirst := SetMapPixels_frame M w s s2 h2 k
      (fun t ht => hk s._currentLine (Nat.le_refl _) (by omega) t ht)
    rw [← hfirst]
    by_cases hwrap : s._currentLine + 1 ≥ M
    · have hn0 : n = 0 := by omega
      subst hn0
      simp only [MapWindow.SetMapPixels.times, Option.some.injEq] at h3
      rw [h3]
    · rw [if_neg hwrap] at hc2
      exact ih s2 s1 (by omega) h3
        (fun L1 h0 h1 t ht => hk L1 (by omega) (by omega) t ht)

theorem row_col_unique (W r1 r2 a b : Int) (ha0 : 0 ≤ a) (ha1 : a < W) (hb0 : 0 ≤ b)
    (hb1 : b < W) (h : r1 * W + a = r2 * W + b) : r1 = r2 ∧ a = b := by
  have hW : W ≠ 0 := by omega
  have h1 : (a + r1 * W) / W = (b + r2 * W) / W := by
    rw [Int.add_comm a, Int.add_comm b, h]
  rw [Int.add_mul_ediv_right _ _ hW, Int.add_mul_ediv_right _ _ hW,
    Int.ediv_eq_zero_of_lt ha0 ha1, Int.ediv_eq_zero_of_lt hb0 hb1] at h1
  have hr : r1 = r2 := by omega
  subst hr
  exact ⟨rfl, by omega⟩

theorem destination_disjoint (M L1 L2 i t : Nat) (hL : L1 < L2) (hL2 : L2 < M) (hi : i < M)
    (ht : t < M) (e1 e2 : Int) (he1 : e1 = 0 ∨ e1 = 1) (he2 : e2 = 0 ∨ e2 = 1) :
    MapWindow.SetMapPixels.destination M L1 i + e1
      ≠ MapWindow.SetMapPixels.destination M L2 t + e2 := by
  rw [destination_eq M L1 i (by omega), destination_eq M L2 t hL2]
  intro h
  have h' : ((L1 : Int) + i) * ((M : Int) * 2) + ((M : Int) - 1 - L1 + i + e1)
      = ((L2 : Int) + t) * ((M : Int) * 2) + ((M : Int) - 1 - L2 + t + e2) := by omega
  have := row_col_unique ((M : Int) * 2) _ _ _ _ (by omega) (by omega) (by omega) (by omega) h'
  omega

/-- C12: a click on a tab changes neither a byte of `_mapImageData` nor `_currentLine`; and
if it happens with the cursor at line `c`, then after any `j <= M - c` further `SetMapPixels`
calls in an unchanged world both bytes of every pixel pair (step `i < M`) of every line
`L < c` still have the value they had before the click. -/
theorem tab_switch_keeps_rasterized_lines (M : Nat) (w : World) (s : MapWindow)
    (widgetIndex j L i : Nat) (hw : w.Classifiable) (hs : s.WellSized M)
    (hj : s._currentLine + j ≤ M) (hL : L < s._currentLine) (hi : i < M) :
    (MapWindow.OnMouseUp.selectTab widgetIndex s)._mapImageData = s._mapImageData ∧
    (MapWindow.OnMouseUp.selectTab widgetIndex s)._currentLine = s._currentLine ∧
    ∃ s1, MapWindow.SetMapPixels.times M w j (MapWindow.OnMouseUp.selectTab widgetIndex s)
        = some s1 ∧
      s1._mapImageData[(MapWindow.SetMapPixels.destination M L i).toNat]?
        = s._mapImageData[(MapWindow.SetMapPixels.destination M L i).toNat]? ∧
      s1._mapImageData[(MapWindow.SetMapPixels.destination M L i + 1).toNat]?
        = s._mapImageData[(MapWindow.SetMapPixels.destination M L i + 1).toNat]? := by
  have hdata : (MapWindow.OnMouseUp.selectTab widgetIndex s)._mapImageData
      = s._mapImageData := by
    unfold MapWindow.OnMouseUp.selectTab; split_ifs <;> rfl
  have hcur : (MapWindow.OnMouseUp.selectTab widgetIndex s)._currentLine
      = s._currentLine := by
    unfold MapWindow.OnMouseUp.selectTab; split_ifs <;> rfl
  have hwell : (MapWindow.OnMouseUp.selectTab widgetIndex s).WellSized M := by
    unfold MapWindow.WellSized
    rw [hdata, hcur]
    exact hs
  obtain ⟨s1, h1, _⟩ := SetMapPixels_times_some M w hw j _ hwell
  have hLM : L < M := by have := hs.1; omega
  have hnonneg := (bitmap_offset_lt M ((M : Int) - 1 - L + i) ((L : Int) + i) (by omega)
    (by omega) (by omega) (by omega)).1
  have hdest : MapWindow.SetMapPixels.destination M L i
      = ((L : Int) + i) * MAP_WINDOW_MAP_SIZE M + ((M : Int) - 1 - L + i) := by
    rw [destination_eq M L i hLM]; rfl
  have hframe : ∀ e : Int, e = 0 ∨ e = 1 →
      s1._mapImageData[(MapWindow.SetMapPixels.destination M L i + e).toNat]?
        = s._mapImageData[(MapWindow.SetMapPixels.destination M L i + e).toNat]? := by
    intro e he
    rw [← hdata]
    apply SetMapPixels_times_frame M w _ j _ s1 (by rw [hcur]; exact hj) h1
    intro L1 h0 h1' t ht
    rw [hcur] at h0 h1'
    have hcast : (((MapWindow.SetMapPixels.destination M L i + e).toNat : Nat) : Int)
        = MapWindow.SetMapPixels.destination M L i + e := by
      rw [hdest]
      rcases he with he | he <;> subst he <;> omega
    rw [hcast]
    have hd0 := destination_disjoint M L L1 i t (by omega) (by omega) hi ht e 0 he (Or.inl rfl)
    have hd1 := destination_disjoint M L L1 i t (by omega) (by omega) hi ht e 1 he (Or.inr rfl)
    exact ⟨by simpa using hd0, hd1⟩
  refine ⟨hdata, hcur, s1, h1, ?_, hframe 1 (Or.inr rfl)⟩
  have := hframe 0 (Or.inl rfl)
  simpa using this

/-- C12 (witness): on the 4 x 4 sample window (line 0 rasterized in people mode, cursor at
line 1) the rides tab is clicked and line 1 is rasterized in rides mode over watered unowned
tiles; the second pixel pair of line 0 (bytes 6 and 7) still holds `72`, `73`. -/
theorem tab_switch_keeps_rasterized_lines_witness :
    (MapWindow.OnMouseUp.selectTab WIDX_RIDES_TAB sampleWindow).selected_tab = PAGE_RIDES ∧
    MapWindow.SetMapPixels.destination 2 0 1 = 6 ∧
    ∃ s1, MapWindow.SetMapPixels.times 2 (sampleWorld 0 [sampleSurface false true false 16]) 1
        (MapWindow.OnMouseUp.selectTab WIDX_RIDES_TAB sampleWindow) = some s1 ∧
      s1._mapImageData[(6 : Nat)]? = some 72 ∧ s1._mapImageData[(7 : Nat)]? = some 73 :=
  ⟨by decide, by decide,
    match tab_switch_keeps_rasterized_lines 2 (sampleWorld 0 [sampleSurface false true false 16])
        sampleWindow WIDX_RIDES_TAB 1 0 1 (fun _ _ => ⟨rfl, rfl⟩) ⟨by decide, by decide⟩
        (by decide) (by decide) (by decide) with
    | ⟨_, _, s1, h1, h6, h7⟩ => ⟨s1, h1, h6, h7⟩⟩

/-! ## Interactive tools -/

theorem and_FFE0 (x : Nat) : x &&& 0xFFE0 = (x / 32 % 2048) * 32 := by
  have h1 : (0xFFE0 : Nat) = (2 ^ 11 - 1) <<< 5 := by decide
  have h2 : (x / 32 % 2048) * 32 = ((x >>> 5) &&& (2 ^ 11 - 1)) <<< 5 := by
    rw [Nat.and_pow_two_sub_one_eq_mod, Nat.shiftRight_eq_div_pow, Nat.shiftLeft_eq]
  rw [h2, h1]
  apply Nat.eq_of_testBit_eq
  intro i
  simp only [Nat.testBit_and, Nat.testBit_shiftLeft, Nat.testBit_shiftRight,
    Nat.testBit_two_pow_sub_one]
  by_cases h : 5 ≤ i
  · have h5 : 5 + (i - 5) = i := by omega
    simp [h, h5]
  · simp [h]

theorem int32And_FFE0 (v : Int) (h0 : 0 ≤ v) (h1 : v ≤ 65535) :
    int32And v 0xFFE0 = v - v % 32 := by
  unfold int32And
  rw [and_FFE0]
  omega

theorem int32And_three (v : Int) : int32And v 3 = v % 4 := by
  unfold int32And
  have h3 : (3 : Nat) = 2 ^ 2 - 1 := by decide
  rw [h3, Nat.and_pow_two_sub_one_eq_mod]
  omega

/-- C13: for every brush size `n` (a `uint16_t`; 0 is treated as 1, `m` below) and every
resolved world coordinate `(cx, cy)` with `cx - (16m - 16)` and `cy - (16m - 16)` in
`[0, 65535]`, `SetLandRightsToolUpdate` publishes
`gMapSelectPositionA = ((cx - (16m - 16)) & 0xFFE0, (cy - (16m - 16)) & 0xFFE0)` and
`gMapSelectPositionB = A + (32m - 32, 32m - 32)`; `A` is tile-aligned (the tile start of the
shifted coordinate), and for odd `m` the tile containing `(cx, cy)` is the centre tile of the
footprint. -/
theorem landRights_footprint (n : Nat) (m cx cy : Int) (g : Globals) (hn : n < 65536)
    (hm : m = if n = 0 then 1 else (n : Int))
    (hx0 : 0 ≤ cx - (16 * m - 16)) (hx1 : cx - (16 * m - 16) ≤ 65535)
    (hy0 : 0 ≤ cy - (16 * m - 16)) (hy1 : cy - (16 * m - 16) ≤ 65535) :
    (MapWindow.SetLandRightsToolUpdate n (some { x := cx, y := cy }) g).gMapSelectPositionA
      = { x := int32And (cx - (16 * m - 16)) 0xFFE0,
          y := int32And (cy - (16 * m - 16)) 0xFFE0 } ∧
    (MapWindow.SetLandRightsToolUpdate n (some { x := cx, y := cy }) g).gMapSelectPositionB
      = { x := int32And (cx - (16 * m - 16)) 0xFFE0 + (32 * m - 32),
          y := int32And (cy - (16 * m - 16)) 0xFFE0 + (32 * m - 32) } ∧
    int32And (cx - (16 * m - 16)) 0xFFE0 = 32 * ((cx - (16 * m - 16)) / 32) ∧
    int32And (cy - (16 * m - 16)) 0xFFE0 = 32 * ((cy - (16 * m - 16)) / 32) ∧
    (m % 2 = 1 →
      int32And (cx - (16 * m - 16)) 0xFFE0 + (16 * m - 16) = 32 * (cx / 32) ∧
      int32And (cy - (16 * m - 16)) 0xFFE0 + (16 * m - 16) = 32 * (cy / 32)) := by
  have hsize : (if (n % 65536 : Nat) = 0 then (1 : Int) else ((n % 65536 : Nat) : Int)) = m := by
    rw [Nat.mod_eq_of_lt hn, hm]
  have hax := int32And_FFE0 _ hx0 hx1
  have hay := int32And_FFE0 _ hy0 hy1
  refine ⟨?_, ?_, by omega, by omega, fun hodd => ⟨by omega, by omega⟩⟩
  · simp only [MapWindow.SetLandRightsToolUpdate, hsize, Int.mul_comm m 16]
  · simp only [MapWindow.SetLandRightsToolUpdate, hsize, Int.mul_comm m 16, Int.mul_comm m 32]

/-- C13 (witness): brush size 3 at `(320, 320)` gives `A = (288, 288)` and `B = (352, 352)`,
a 64 x 64 rectangle whose centre tile starts at `(320, 320)`. -/
theorem landRights_footprint_witness :
    (MapWindow.SetLandRightsToolUpdate 3 (some { x := 320, y := 320 })
      sampleGlobals).gMapSelectPositionA = { x := 288, y := 288 } ∧
    (MapWindow.SetLandRightsToolUpdate 3 (some { x := 320, y := 320 })
      sampleGlobals).gMapSelectPositionB = { x := 352, y := 352 } ∧
    int32And (320 - (16 * 3 - 16)) 0xFFE0 + (16 * 3 - 16) = 32 * ((320 : Int) / 32) :=
  ⟨(landRights_footprint 3 3 320 320 sampleGlobals (by decide) (by decide) (by decide)
      (by decide) (by decide) (by decide)).1,
   (landRights_footprint 3 3 320 320 sampleGlobals (by decide) (by decide) (by decide)
      (by decide) (by decide) (by decide)).2.1,
   ((landRights_footprint 3 3 320 320 sampleGlobals (by decide) (by decide) (by decide)
      (by decide) (by decide) (by decide)).2.2.2.2 (by decide)).1⟩

theorem parkEntrance_position_of_surface (w : World) (s : Nat) (mapCoords : CoordsXY)
    (surfaceElement : TileElement) (rest : List TileElement)
    (hvalid : mapCoords.x ≠ LOCATION_NULL)
    (hsurf : MapGetSurfaceElementAt (w.tileElements mapCoords) = some (surfaceElement, rest)) :
    (MapWindow.PlaceParkEntranceGetMapPosition w s mapCoords).direction
        = (int32And ((s : Int) - (w.GetCurrentRotation : Int)) 3).toNat % 256 ∧
    (MapWindow.PlaceParkEntranceGetMapPosition w s mapCoords).x = mapCoords.x ∧
    (MapWindow.PlaceParkEntranceGetMapPosition w s mapCoords).y = mapCoords.y := by
  have hnull : CoordsXYZD.IsNull
      { x := mapCoords.x, y := mapCoords.y, z := 0, direction := INVALID_DIRECTION } = false := by
    simp [CoordsXYZD.IsNull, hvalid]
  simp [MapWindow.PlaceParkEntranceGetMapPosition, hnull, hsurf]

/-- C15: for every scenery rotation `s` and world rotation `r` (in particular `s` 8-bit
unsigned and `r` in `{0,1,2,3}`), when `PlaceParkEntranceGetMapPosition` resolves a tile with a surface element it
returns `direction = (s - r) & 3`, a value in `{0,1,2,3}` congruent to `s - r` modulo 4. -/
theorem parkEntrance_direction (w : World) (s : Nat) (mapCoords : CoordsXY)
    (surfaceElement : TileElement) (rest : List TileElement)
    (hvalid : mapCoords.x ≠ LOCATION_NULL)
    (hsurf : MapGetSurfaceElementAt (w.tileElements mapCoords) = some (surfaceElement, rest)) :
    ((MapWindow.PlaceParkEntranceGetMapPosition w s mapCoords).direction : Int)
        = int32And ((s : Int) - (w.GetCurrentRotation : Int)) 3 ∧
    (MapWindow.PlaceParkEntranceGetMapPosition w s mapCoords).direction < 4 ∧
    (((MapWindow.PlaceParkEntranceGetMapPosition w s mapCoords).direction : Int)
        - ((s : Int) - (w.GetCurrentRotation : Int))) % 4 = 0 := by
  have hdir := (parkEntrance_position_of_surface w s mapCoords surfaceElement rest hvalid
    hsurf).1
  have h3 := int32And_three ((s : Int) - (w.GetCurrentRotation : Int))
  rw [hdir, h3]
  refine ⟨by omega, by omega, by omega⟩

/-- C15 (witness): scenery rotation 2 and world rotation 1 give direction 1. -/
theorem parkEntrance_direction_witness :
    (MapWindow.PlaceParkEntranceGetMapPosition
      (sampleWorld 1 [sampleSurface false true true 0]) 2 { x := 64, y := 96 }).direction = 1 ∧
    (MapWindow.PlaceParkEntranceGetMapPosition
      (sampleWorld 1 [sampleSurface false true true 0]) 2 { x := 64, y := 96 }).direction < 4 :=
  ⟨by decide,
   (parkEntrance_direction (sampleWorld 1 [sampleSurface false true true 0]) 2
      { x := 64, y := 96 } (sampleSurface false true true 0) [] (by decide)
      (by decide)).2.1⟩

theorem toolUpdate_of_valid (w : World) (s : Nat) (Execute : CoordsXYZD → GameActions.Status)
    (mapCoords : CoordsXY) (g : Globals)
    (hvalid : (MapWindow.PlaceParkEntranceGetMapPosition w s mapCoords).IsNull = false) :
    ((g.gParkEntranceGhostExists = true
        ∧ MapWindow.PlaceParkEntranceGetMapPosition w s mapCoords
            = g.gParkEntranceGhostPosition) →
      (MapWindow.PlaceParkEntranceToolUpdate w s Execute mapCoords g).2 = []
      ∧ (MapWindow.PlaceParkEntranceToolUpdate w s Execute mapCoords g).1.gParkEntranceGhostExists
          = true
      ∧ (MapWindow.PlaceParkEntranceToolUpdate w s Execute mapCoords
          g).1.gParkEntranceGhostPosition
          = MapWindow.PlaceParkEntranceGetMapPosition w s mapCoords) ∧
    (¬ (g.gParkEntranceGhostExists = true
        ∧ MapWindow.PlaceParkEntranceGetMapPosition w s mapCoords
            = g.gParkEntranceGhostPosition) →
      (MapWindow.PlaceParkEntranceToolUpdate w s Execute mapCoords g).2
          = [ToolCall.ParkEntranceRemoveGhost,
              ToolCall.ExecuteGhostPlacement
                (MapWindow.PlaceParkEntranceGetMapPosition w s mapCoords)]
      ∧ (Execute (MapWindow.PlaceParkEntranceGetMapPosition w s mapCoords)
            = GameActions.Status.Ok →
          (MapWindow.PlaceParkEntranceToolUpdate w s Execute mapCoords
            g).1.gParkEntranceGhostExists = true
          ∧ (MapWindow.PlaceParkEntranceToolUpdate w s Execute mapCoords
            g).1.gParkEntranceGhostPosition
              = MapWindow.PlaceParkEntranceGetMapPosition w s mapCoords)
      ∧ (Execute (MapWindow.PlaceParkEntranceGetMapPosition w s mapCoords)
            = GameActions.Status.NotOk →
          (MapWindow.PlaceParkEntranceToolUpdate w s Execute mapCoords
            g).1.gParkEntranceGhostExists = false
          ∧ (MapWindow.PlaceParkEntranceToolUpdate w s Execute mapCoords
            g).1.gParkEntranceGhostPosition = g.gParkEntranceGhostPosition)) := by
  unfold MapWindow.PlaceParkEntranceToolUpdate
  simp only [hvalid, Bool.false_eq_true, if_false]
  constructor
  · intro hghost
    split_ifs
    exact ⟨rfl, hghost.1, hghost.2.symm⟩
  · intro hghost
    split_ifs
    cases hex : Execute (MapWindow.PlaceParkEntranceGetMapPosition w s mapCoords) <;>
      simp [ParkEntranceRemoveGhost]

/-- C14 (counterexample): two consecutive tool updates resolve to the same valid position
`(64, 64, 0)` and the executor refuses the ghost placement of the first one.  No ghost
exists after the first event, so the second event calls `ParkEntranceRemoveGhost` once and
submits the placement again. -/
theorem parkEntrance_same_tile_retries_after_failure :
    (MapWindow.PlaceParkEntranceGetMapPosition (sampleWorld 0 [sampleSurface false true true 0])
      0 { x := 64, y := 64 }) = { x := 64, y := 64, z := 0, direction := 0 } ∧
    (MapWindow.PlaceParkEntranceToolUpdate (sampleWorld 0 [sampleSurface false true true 0]) 0
      (fun _ => GameActions.Status.NotOk) { x := 64, y := 64 }
      (MapWindow.PlaceParkEntranceToolUpdate (sampleWorld 0 [sampleSurface false true true 0]) 0
        (fun _ => GameActions.Status.NotOk) { x := 64, y := 64 } sampleGlobals).1).2
      = [ToolCall.ParkEntranceRemoveGhost,
          ToolCall.ExecuteGhostPlacement { x := 64, y := 64, z := 0, direction := 0 }] := by
  decide

/-- C14 (amended): for two consecutive `PlaceParkEntranceToolUpdate` events that resolve to
valid positions `A` and then `B`: if `A != B` the second event calls
`ParkEntranceRemoveGhost` exactly once, before submitting the new ghost placement; if
`A == B` and a ghost exists after the first event (its placement was answered Ok, or the
ghost was already shown at `A`), the second event calls nothing; if `A == B` and no ghost
exists after the first event (its placement was refused), the second event again calls
`ParkEntranceRemoveGhost` once and then submits the placement. -/
theorem parkEntrance_ghost_replacement (w1 w2 : World) (s1 s2 : Nat)
    (Execute1 Execute2 : CoordsXYZD → GameActions.Status) (mapCoords1 mapCoords2 : CoordsXY)
    (g : Globals)
    (hA : (MapWindow.PlaceParkEntranceGetMapPosition w1 s1 mapCoords1).IsNull = false)
    (hB : (MapWindow.PlaceParkEntranceGetMapPosition w2 s2 mapCoords2).IsNull = false) :
    (MapWindow.PlaceParkEntranceGetMapPosition w1 s1 mapCoords1
        ≠ MapWindow.PlaceParkEntranceGetMapPosition w2 s2 mapCoords2 →
      (MapWindow.PlaceParkEntranceToolUpdate w2 s2 Execute2 mapCoords2
        (MapWindow.PlaceParkEntranceToolUpdate w1 s1 Execute1 mapCoords1 g).1).2
        = [ToolCall.ParkEntranceRemoveGhost,
            ToolCall.ExecuteGhostPlacement
              (MapWindow.PlaceParkEntranceGetMapPosition w2 s2 mapCoords2)]) ∧
    (MapWindow.PlaceParkEntranceGetMapPosition w1 s1 mapCoords1
        = MapWindow.PlaceParkEntranceGetMapPosition w2 s2 mapCoords2 →
      ((MapWindow.PlaceParkEntranceToolUpdate w1 s1 Execute1 mapCoords1
          g).1.gParkEntranceGhostExists = true →
        (MapWindow.PlaceParkEntranceToolUpdate w2 s2 Execute2 mapCoords2
          (MapWindow.PlaceParkEntranceToolUpdate w1 s1 Execute1 mapCoords1 g).1).2 = []) ∧
      ((MapWindow.PlaceParkEntranceToolUpdate w1 s1 Execute1 mapCoords1
          g).1.gParkEntranceGhostExists = false →
        (MapWindow.PlaceParkEntranceToolUpdate w2 s2 Execute2 mapCoords2
          (MapWindow.PlaceParkEntranceToolUpdate w1 s1 Execute1 mapCoords1 g).1).2
          = [ToolCall.ParkEntranceRemoveGhost,
              ToolCall.ExecuteGhostPlacement
                (MapWindow.PlaceParkEntranceGetMapPosition w2 s2 mapCoords2)])) ∧
    ((MapWindow.PlaceParkEntranceToolUpdate w1 s1 Execute1 mapCoords1
        g).1.gParkEntranceGhostExists = true ↔
      (Execute1 (MapWindow.PlaceParkEntranceGetMapPosition w1 s1 mapCoords1)
          = GameActions.Status.Ok
        ∨ (g.gParkEntranceGhostExists = true
          ∧ MapWindow.PlaceParkEntranceGetMapPosition w1 s1 mapCoords1
              = g.gParkEntranceGhostPosition))) := by
  have hfirst := toolUpdate_of_valid w1 s1 Execute1 mapCoords1 g hA
  have hsecond := toolUpdate_of_valid w2 s2 Execute2 mapCoords2
    (MapWindow.PlaceParkEntranceToolUpdate w1 s1 Execute1 mapCoords1 g).1 hB
  have hpos : (MapWindow.PlaceParkEntranceToolUpdate w1 s1 Execute1 mapCoords1
        g).1.gParkEntranceGhostExists = true →
      (MapWindow.PlaceParkEntranceToolUpdate w1 s1 Execute1 mapCoords1
        g).1.gParkEntranceGhostPosition
        = MapWindow.PlaceParkEntranceGetMapPosition w1 s1 mapCoords1 := by
    intro hex
    by_cases hg : g.gParkEntranceGhostExists = true
        ∧ MapWindow.PlaceParkEntranceGetMapPosition w1 s1 mapCoords1
            = g.gParkEntranceGhostPosition
    · exact (hfirst.1 hg).2.2
    · cases hres : Execute1 (MapWindow.PlaceParkEntranceGetMapPosition w1 s1 mapCoords1)
      · exact ((hfirst.2 hg).2.1 hres).2
      · rw [((hfirst.2 hg).2.2 hres).1] at hex
        exact absurd hex (by decide)
  refine ⟨?_, ?_, ?_⟩
  · intro hne
    apply (hsecond.2 _).1
    rintro ⟨hex, heq⟩
    rw [hpos hex] at heq
    exact hne heq.symm
  · intro heq
    constructor
    · intro hex
      exact (hsecond.1 ⟨hex, by rw [hpos hex, heq]⟩).1
    · intro hex
      apply (hsecond.2 _).1
      rintro ⟨hex', _⟩
      rw [hex] at hex'
      exact absurd hex' (by decide)
  · by_cases hg : g.gParkEntranceGhostExists = true
        ∧ MapWindow.PlaceParkEntranceGetMapPosition w1 s1 mapCoords1
            = g.gParkEntranceGhostPosition
    · exact ⟨fun _ => Or.inr hg, fun _ => (hfirst.1 hg).2.1⟩
    · cases hres : Execute1 (MapWindow.PlaceParkEntranceGetMapPosition w1 s1 mapCoords1)
      · exact ⟨fun _ => Or.inl rfl, fun _ => ((hfirst.2 hg).2.1 hres).1⟩
      · constructor
        · intro hex
          rw [((hfirst.2 hg).2.2 hres).1] at hex
          exact absurd hex (by decide)
        · rintro (h | h)
          · exact absurd h (by decide)
          · exact absurd h hg

/-- C14 (witness): the pointer moves from tile `(64, 64)` to tile `(96, 64)`, both placements
are accepted: the second event removes the ghost once and then submits the new placement. -/
theorem parkEntrance_ghost_replacement_witness :
    (MapWindow.PlaceParkEntranceToolUpdate (sampleWorld 0 [sampleSurface false true true 0]) 0
      (fun _ => GameActions.Status.Ok) { x := 96, y := 64 }
      (MapWindow.PlaceParkEntranceToolUpdate (sampleWorld 0 [sampleSurface false true true 0]) 0
        (fun _ => GameActions.Status.Ok) { x := 64, y := 64 } sampleGlobals).1).2
      = [ToolCall.ParkEntranceRemoveGhost,
          ToolCall.ExecuteGhostPlacement { x := 96, y := 64, z := 0, direction := 0 }] :=
  (parkEntrance_ghost_replacement (sampleWorld 0 [sampleSurface false true true 0])
    (sampleWorld 0 [sampleSurface false true true 0]) 0 0 (fun _ => GameActions.Status.Ok)
    (fun _ => GameActions.Status.Ok) { x := 64, y := 64 } { x := 96, y := 64 } sampleGlobals
    (by decide) (by decide)).1 (by decide)

/-- C17 (counterexample): a ghost is shown at `(32, 32, 0)`; the tool update resolves the
valid position `(64, 64, 0)` and the executor refuses the placement.  After the call
`gParkEntranceGhostExists` is false, while it was true before. -/
theorem parkEntrance_failure_clears_ghost :
    sampleGlobalsWithGhost.gParkEntranceGhostExists = true ∧
    (MapWindow.PlaceParkEntranceToolUpdate (sampleWorld 0 [sampleSurface false true true 0]) 0
      (fun _ => GameActions.Status.NotOk) { x := 64, y := 64 } sampleGlobalsWithGhost).2
      = [ToolCall.ParkEntranceRemoveGhost,
          ToolCall.ExecuteGhostPlacement { x := 64, y := 64, z := 0, direction := 0 }] ∧
    (MapWindow.PlaceParkEntranceToolUpdate (sampleWorld 0 [sampleSurface false true true 0]) 0
      (fun _ => GameActions.Status.NotOk) { x := 64, y := 64 }
      sampleGlobalsWithGhost).1.gParkEntranceGhostExists = false := by
  decide

/-- C17 (amended): for every `PlaceParkEntranceToolUpdate` call that resolves a valid
position and whose ghost placement is submitted and answered with a status other than Ok,
`gParkEntranceGhostPosition` has the same value after the call as before it and
`gParkEntranceGhostExists` is false after the call: `ParkEntranceRemoveGhost` has run before
the placement was submitted.  Both values are the same as before exactly when no ghost
existed before the call. -/
theorem parkEntrance_failed_placement (w : World) (s : Nat)
    (Execute : CoordsXYZD → GameActions.Status) (mapCoords : CoordsXY) (g : Globals)
    (hvalid : (MapWindow.PlaceParkEntranceGetMapPosition w s mapCoords).IsNull = false)
    (hsubmitted : ¬ (g.gParkEntranceGhostExists = true
      ∧ MapWindow.PlaceParkEntranceGetMapPosition w s mapCoords = g.gParkEntranceGhostPosition))
    (hfail : Execute (MapWindow.PlaceParkEntranceGetMapPosition w s mapCoords)
      = GameActions.Status.NotOk) :
    (MapWindow.PlaceParkEntranceToolUpdate w s Execute mapCoords g).2
      = [ToolCall.ParkEntranceRemoveGhost,
          ToolCall.ExecuteGhostPlacement
            (MapWindow.PlaceParkEntranceGetMapPosition w s mapCoords)] ∧
    (MapWindow.PlaceParkEntranceToolUpdate w s Execute mapCoords g).1.gParkEntranceGhostPosition
      = g.gParkEntranceGhostPosition ∧
    (MapWindow.PlaceParkEntranceToolUpdate w s Execute mapCoords g).1.gParkEntranceGhostExists
      = false ∧
    ((MapWindow.PlaceParkEntranceToolUpdate w s Execute mapCoords g).1.gParkEntranceGhostExists
      = g.gParkEntranceGhostExists ↔ g.gParkEntranceGhostExists = false) := by
  have h := (toolUpdate_of_valid w s Execute mapCoords g hvalid).2 hsubmitted
  have hstate := h.2.2 hfail
  refine ⟨h.1, hstate.2, hstate.1, ?_⟩
  rw [hstate.1]
  exact ⟨fun heq => heq.symm, fun heq => heq.symm⟩

/-- C17 (witness): no ghost exists, the placement at `(64, 64, 0)` is refused: the ghost
position is unchanged and no ghost exists after the call. -/
theorem parkEntrance_failed_placement_witness :
    (MapWindow.PlaceParkEntranceToolUpdate (sampleWorld 0 [sampleSurface false true true 0]) 0
      (fun _ => GameActions.Status.NotOk) { x := 64, y := 64 }
      sampleGlobals).1.gParkEntranceGhostPosition = sampleGlobals.gParkEntranceGhostPosition ∧
    (MapWindow.PlaceParkEntranceToolUpdate (sampleWorld 0 [sampleSurface false true true 0]) 0
      (fun _ => GameActions.Status.NotOk) { x := 64, y := 64 }
      sampleGlobals).1.gParkEntranceGhostExists = false :=
  ⟨(parkEntrance_failed_placement (sampleWorld 0 [sampleSurface false true true 0]) 0
      (fun _ => GameActions.Status.NotOk) { x := 64, y := 64 } sampleGlobals (by decide)
      (by decide) rfl).2.1,
   (parkEntrance_failed_placement (sampleWorld 0 [sampleSurface false true true 0]) 0
      (fun _ => GameActions.Status.NotOk) { x := 64, y := 64 } sampleGlobals (by decide)
      (by decide) rfl).2.2.1⟩

/-! ## Shape of the round trip and layout of the pixel pairs -/

/-- C24: under rotation 0, for all tile coordinates `tx, ty >= 0` (so all in `[0, M)`), the
round trip of
`(32 tx, 32 ty)` through `TransformToMapCoords` and `ScreenToMap` is `(32 tx, 32 ty)` if
`tx + ty` is even; if `tx + ty` is odd it is `(32 tx, 32 (ty - 1))` when `ty > tx` and
`(32 (tx - 1), 32 ty)` when `ty < tx`.  So the recovered tile differs from the original by at
most one tile on one axis. -/
theorem roundTrip_rotation0_shape (M tx ty : Int) (hx0 : 0 ≤ tx) (hy0 : 0 ≤ ty) :
    ((tx + ty) % 2 = 0 →
      roundTrip M 0 { x := 32 * tx, y := 32 * ty } = { x := 32 * tx, y := 32 * ty }) ∧
    ((tx + ty) % 2 = 1 → ty > tx →
      roundTrip M 0 { x := 32 * tx, y := 32 * ty } = { x := 32 * tx, y := 32 * (ty - 1) }) ∧
    ((tx + ty) % 2 = 1 → ty < tx →
      roundTrip M 0 { x := 32 * tx, y := 32 * ty } = { x := 32 * (tx - 1), y := 32 * ty }) ∧
    ((tx + ty) % 2 = 1 → ty ≠ tx) := by
  refine ⟨?_, ?_, ?_, fun h heq => by omega⟩
  all_goals
    intros
    simp only [roundTrip, ScreenToMap, TransformToMapCoords, TransformToMapCoords.rotated,
      TileCoordsXY.ToCoordsXY, COORDS_XY_STEP, tdiv_two_cases, tdiv_32_cases,
      CoordsXY.mk.injEq]
    split_ifs <;> constructor <;> omega

/-- C24 (witness): `M = 1001`; tile `(5, 2)` has an odd sum with `ty < tx` and comes back as
tile `(4, 2)`. -/
theorem roundTrip_rotation0_shape_witness :
    roundTrip 1001 0 { x := 32 * 5, y := 32 * 2 } = { x := 32 * (5 - 1), y := 32 * 2 } :=
  (roundTrip_rotation0_shape 1001 5 2 (by decide) (by decide)).2.2.1 (by decide) (by decide)

theorem destination_pairs_disjoint (M L1 L2 i t : Nat) (hL1 : L1 < M) (hL2 : L2 < M)
    (hi : i < M) (ht : t < M) (hne : L1 ≠ L2 ∨ i ≠ t) (e1 e2 : Int)
    (he1 : e1 = 0 ∨ e1 = 1) (he2 : e2 = 0 ∨ e2 = 1) :
    MapWindow.SetMapPixels.destination M L1 i + e1
      ≠ MapWindow.SetMapPixels.destination M L2 t + e2 := by
  rw [destination_eq M L1 i hL1, destination_eq M L2 t hL2]
  intro h
  have h' : ((L1 : Int) + i) * ((M : Int) * 2) + ((M : Int) - 1 - L1 + i + e1)
      = ((L2 : Int) + t) * ((M : Int) * 2) + ((M : Int) - 1 - L2 + t + e2) := by omega
  have := row_col_unique ((M : Int) * 2) _ _ _ _ (by omega) (by omega) (by omega) (by omega) h'
  omega

/-- C23: for any two different pairs `(L, i) != (L', i')` with `L, L', i, i' < M`, the two
bitmap bytes written for step `i` of line `L` (offsets `destination` and `destination + 1`)
are disjoint from the two bytes written for step `i'` of line `L'`. -/
theorem pixel_pairs_disjoint (M L1 L2 i1 i2 : Nat) (hL1 : L1 < M) (hL2 : L2 < M)
    (hi1 : i1 < M) (hi2 : i2 < M) (hne : (L1, i1) ≠ (L2, i2)) :
    MapWindow.SetMapPixels.destination M L1 i1 ≠ MapWindow.SetMapPixels.destination M L2 i2 ∧
    MapWindow.SetMapPixels.destination M L1 i1
      ≠ MapWindow.SetMapPixels.destination M L2 i2 + 1 ∧
    MapWindow.SetMapPixels.destination M L1 i1 + 1
      ≠ MapWindow.SetMapPixels.destination M L2 i2 ∧
    MapWindow.SetMapPixels.destination M L1 i1 + 1
      ≠ MapWindow.SetMapPixels.destination M L2 i2 + 1 := by
  have hne' : L1 ≠ L2 ∨ i1 ≠ i2 := by
    by_contra hcon
    simp only [not_or, not_not] at hcon
    exact hne (by rw [hcon.1, hcon.2])
  have h := destination_pairs_disjoint M L1 L2 i1 i2 hL1 hL2 hi1 hi2 hne'
  have h00 := h 0 0 (Or.inl rfl) (Or.inl rfl)
  have h01 := h 0 1 (Or.inl rfl) (Or.inr rfl)
  have h10 := h 1 0 (Or.inr rfl) (Or.inl rfl)
  have h11 := h 1 1 (Or.inr rfl) (Or.inr rfl)
  simp only [Int.add_zero] at h00 h01 h10
  exact ⟨h00, h01, h10, h11⟩

/-- C23 (witness): `M = 1001`; step 4 of line 3 writes offsets `15015`, `15016`, step 3 of
line 4 in the same bitmap row writes `15013`, `15014`. -/
theorem pixel_pairs_disjoint_witness :
    MapWindow.SetMapPixels.destination 1001 3 4 = 15015 ∧
    MapWindow.SetMapPixels.destination 1001 4 3 = 15013 ∧
    MapWindow.SetMapPixels.destination 1001 3 4
      ≠ MapWindow.SetMapPixels.destination 1001 4 3 + 1 :=
  ⟨by decide, by decide,
    (pixel_pairs_disjoint 1001 3 4 4 3 (by decide) (by decide) (by decide) (by decide)
      (by decide)).2.1⟩

/-! ## Full sweeps -/

theorem selectTab_data (widgetIndex : Nat) (s : MapWindow) :
    (MapWindow.OnMouseUp.selectTab widgetIndex s)._mapImageData = s._mapImageData := by
  unfold MapWindow.OnMouseUp.selectTab; split_ifs <;> rfl

theorem selectTab_cursor (widgetIndex : Nat) (s : MapWindow) :
    (MapWindow.OnMouseUp.selectTab widgetIndex s)._currentLine = s._currentLine := by
  unfold MapWindow.OnMouseUp.selectTab; split_ifs <;> rfl

theorem selectTab_wellSized (M widgetIndex : Nat) (s : MapWindow) (hs : s.WellSized M) :
    (MapWindow.OnMouseUp.selectTab widgetIndex s).WellSized M := by
  unfold MapWindow.WellSized
  rw [selectTab_data, selectTab_cursor]
  exact hs

theorem run_some (M : Nat) :
    ∀ (calls : List (World × Nat)) (s : MapWindow),
      (∀ c ∈ calls, c.1.Classifiable) → s.WellSized M →
      (∃ s1, MapWindow.SetMapPixels.run M calls s = some s1
        ∧ s1._currentLine = (s._currentLine + calls.length) % M
        ∧ s1.WellSized M)
      ∧ MapWindow.SetMapPixels.runLines M calls s
        = (List.range calls.length).map (fun i => (s._currentLine + i) % M) := by
  intro calls
  induction calls with
  | nil =>
    intro s _ hs
    exact ⟨⟨s, rfl, by simp [Nat.mod_eq_of_lt hs.1], hs⟩, rfl⟩
  | cons c calls ih =>
    intro s hw hs
    obtain ⟨w, widgetIndex⟩ := c
    have hwc : w.Classifiable := hw (w, widgetIndex) (List.mem_cons_self _ _)
    obtain ⟨s1, h1, hc1, hs1, _⟩ := SetMapPixels_some M w
      (MapWindow.OnMouseUp.selectTab widgetIndex s) hwc (selectTab_wellSized M widgetIndex s hs)
    rw [selectTab_cursor] at hc1
    obtain ⟨⟨s2, h2, hc2, hs2⟩, hl2⟩ := ih s1
      (fun c hc => hw c (List.mem_cons_of_mem _ hc)) hs1
    refine ⟨⟨s2, ?_, ?_, hs2⟩, ?_⟩
    · simp only [MapWindow.SetMapPixels.run, h1, Option.some_bind, h2]
    · rw [hc2, hc1, Nat.mod_add_mod, List.length_cons]
      congr 1
      omega
    · simp only [MapWindow.SetMapPixels.runLines, h1, hl2, hc1, List.length_cons,
        List.range_succ_eq_map, List.map_cons, List.map_map, Nat.add_zero,
        Nat.mod_eq_of_lt hs.1]
      congr 1
      apply List.map_congr_left
      intro i _
      simp only [Function.comp_apply, Nat.mod_add_mod]
      congr 1
      omega

theorem sweep_order (M c : Nat) (hc : c < M) :
    (List.range M).map (fun i => (c + i) % M) = List.range' c (M - c) ++ List.range c := by
  have hr : List.range M
      = List.range (M - c) ++ List.map (fun x => M - c + x) (List.range c) := by
    rw [← List.range_add]
    congr 1
    omega
  rw [hr, List.map_append, List.map_map]
  congr 1
  · rw [List.range'_eq_map_range]
    apply List.map_congr_left
    intro i hi
    have := List.mem_range.mp hi
    exact Nat.mod_eq_of_lt (by omega)
  · conv_rhs => rw [← List.map_id (List.range c)]
    apply List.map_congr_left
    intro j hj
    have hj' := List.mem_range.mp hj
    simp only [Function.comp_apply, id]
    have h1 : c + (M - c + j) = j + M := by omega
    rw [h1, Nat.add_mod_right, Nat.mod_eq_of_lt (by omega)]

theorem sweep_order_count (M c L : Nat) (hc : c < M) (hL : L < M) :
    (List.range' c (M - c) ++ List.range c).count L = 1 := by
  apply List.count_eq_one_of_mem
  · rw [List.nodup_append]
    refine ⟨List.nodup_range' _ _, List.nodup_range _, ?_⟩
    intro a ha hb
    rw [List.mem_range'_1] at ha
    rw [List.mem_range] at hb
    omega
  · rw [List.mem_append, List.mem_range'_1, List.mem_range]
    omega

/-- C21: for every starting cursor `c < M`, `M` consecutive `SetMapPixels` calls rasterize the
lines `c, c + 1, ..., M - 1, 0, ..., c - 1` in exactly that order, each line exactly once,
and leave `_currentLine = c`; the world and the display mode may change before every call
(any widget may be clicked in between). -/
theorem full_sweep_period (M : Nat) (calls : List (World × Nat)) (s : MapWindow)
    (hw : ∀ c ∈ calls, c.1.Classifiable) (hs : s.WellSized M) (hlen : calls.length = M) :
    (∃ s1, MapWindow.SetMapPixels.run M calls s = some s1
      ∧ s1._currentLine = s._currentLine) ∧
    MapWindow.SetMapPixels.runLines M calls s
      = List.range' s._currentLine (M - s._currentLine) ++ List.range s._currentLine ∧
    (∀ L, L < M → (MapWindow.SetMapPixels.runLines M calls s).count L = 1) := by
  obtain ⟨⟨s1, h1, hc1, _⟩, hl⟩ := run_some M calls s hw hs
  rw [hlen] at hc1 hl
  have hlines := sweep_order M s._currentLine hs.1
  refine ⟨⟨s1, h1, ?_⟩, by rw [hl, hlines], ?_⟩
  · rw [hc1, Nat.add_mod_right, Nat.mod_eq_of_lt hs.1]
  · intro L hL
    rw [hl, hlines]
    exact sweep_order_count M s._currentLine L hs.1 hL

/-- C21 (witness): on the 4 x 4 sample window (`M = 2`, cursor at line 1) two calls, the
first after a click on the rides tab and the second after a click on the people tab,
rasterize line 1 and then line 0 and leave the cursor at 1. -/
theorem full_sweep_period_witness :
    MapWindow.SetMapPixels.runLines 2
      [(sampleWorld 0 [sampleSurface false true false 16], WIDX_RIDES_TAB),
       (sampleWorld 0 [sampleSurface false true true 0], WIDX_PEOPLE_TAB)] sampleWindow
      = [1, 0] ∧
    ∃ s1, MapWindow.SetMapPixels.run 2
      [(sampleWorld 0 [sampleSurface false true false 16], WIDX_RIDES_TAB),
       (sampleWorld 0 [sampleSurface false true true 0], WIDX_PEOPLE_TAB)] sampleWindow
      = some s1 ∧ s1._currentLine = sampleWindow._currentLine :=
  ⟨(full_sweep_period 2
      [(sampleWorld 0 [sampleSurface false true false 16], WIDX_RIDES_TAB),
       (sampleWorld 0 [sampleSurface false true true 0], WIDX_PEOPLE_TAB)] sampleWindow
      (fun c hc => by
        rcases List.mem_cons.mp hc with h | h
        · rw [h]; exact fun _ _ => ⟨rfl, rfl⟩
        · rw [List.mem_singleton.mp h]; exact fun _ _ => ⟨rfl, rfl⟩)
      ⟨by decide, by decide⟩ (by decide)).2.1,
   (full_sweep_period 2
      [(sampleWorld 0 [sampleSurface false true false 16], WIDX_RIDES_TAB),
       (sampleWorld 0 [sampleSurface false true true 0], WIDX_PEOPLE_TAB)] sampleWindow
      (fun c hc => by
        rcases List.mem_cons.mp hc with h | h
        · rw [h]; exact fun _ _ => ⟨rfl, rfl⟩
        · rw [List.mem_singleton.mp h]; exact fun _ _ => ⟨rfl, rfl⟩)
      ⟨by decide, by decide⟩ (by decide)).1⟩

/-! ## Edge tiles -/

theorem pixel_edge (M : Nat) (w : World) (tab : Nat) (x y px py : Int) (data : List Nat)
    (hedge : w.MapIsEdge { x := x, y := y } = true) :
    MapWindow.SetMapPixels.pixel M w tab x y px py data = some data := by
  unfold MapWindow.SetMapPixels.pixel
  rw [if_pos hedge]

theorem steps_frame_edge (M : Nat) (w : World) (tab L : Nat) (k : Nat) :
    ∀ (n i : Nat) (data d : List Nat),
      MapWindow.SetMapPixels.steps M w tab L i n data = some d →
      (∀ t, i ≤ t → t < i + n →
        ((k : Int) ≠ MapWindow.SetMapPixels.destination M L t
          ∧ (k : Int) ≠ MapWindow.SetMapPixels.destination M L t + 1)
        ∨ w.MapIsEdge (MapWindow.SetMapPixels.position M w.GetCurrentRotation L t) = true) →
      d[k]? = data[k]? := by
  intro n
  induction n with
  | zero =>
    intro i data d h _
    simp only [MapWindow.SetMapPixels.steps, Option.some.injEq] at h
    rw [h]
  | succ n ih =>
    intro i data d h hk
    simp only [MapWindow.SetMapPixels.steps, Option.bind_eq_some] at h
    obtain ⟨d1, h1, h2⟩ := h
    rw [ih (i + 1) d1 d h2 (fun t ht0 ht1 => hk t (by omega) (by omega))]
    rcases hk i (Nat.le_refl i) (by omega) with hki | hedge
    · exact pixel_frame M w tab _ _ _ _ data d1 h1 k hki.1 hki.2
    · have hp := pixel_edge M w tab
        (MapWindow.SetMapPixels.position M w.GetCurrentRotation L i).x
        (MapWindow.SetMapPixels.position M w.GetCurrentRotation L i).y
        (MapWindow.SetMapPixels.destinationPosition M L i).x
        (MapWindow.SetMapPixels.destinationPosition M L i).y data hedge
      rw [hp] at h1
      simp only [Option.some.injEq] at h1
      rw [h1]

theorem run_frame_edge (M rot : Nat) (isEdge : CoordsXY → Bool) (L i : Nat) (e : Int)
    (hL : L < M) (hi : i < M) (he : e = 0 ∨ e = 1)
    (hedge : isEdge (MapWindow.SetMapPixels.position M rot L i) = true) :
    ∀ (calls : List (World × Nat)) (s s1 : MapWindow),
      (∀ c ∈ calls, c.1.GetCurrentRotation = rot ∧ c.1.MapIsEdge = isEdge) →
      s._currentLine < M →
      MapWindow.SetMapPixels.run M calls s = some s1 →
      s1._mapImageData[(MapWindow.SetMapPixels.destination M L i + e).toNat]?
        = s._mapImageData[(MapWindow.SetMapPixels.destination M L i + e).toNat]? := by
  have hnonneg := (bitmap_offset_lt M ((M : Int) - 1 - L + i) ((L : Int) + i) (by omega)
    (by omega) (by omega) (by omega)).1
  have hdest : MapWindow.SetMapPixels.destination M L i
      = ((L : Int) + i) * MAP_WINDOW_MAP_SIZE M + ((M : Int) - 1 - L + i) := by
    rw [destination_eq M L i hL]; rfl
  have hcast : (((MapWindow.SetMapPixels.destination M L i + e).toNat : Nat) : Int)
      = MapWindow.SetMapPixels.destination M L i + e := by
    rw [hdest]
    rcases he with he | he <;> subst he <;> omega
  intro calls
  induction calls with
  | nil =>
    intro s s1 _ _ h
    simp only [MapWindow.SetMapPixels.run, Option.some.injEq] at h
    rw [h]
  | cons c calls ih =>
    intro s s1 hw hcur h
    obtain ⟨w, widgetIndex⟩ := c
    have hwc := hw (w, widgetIndex) (List.mem_cons_self _ _)
    simp only [MapWindow.SetMapPixels.run, Option.bind_eq_some] at h
    obtain ⟨s2, h2, h3⟩ := h
    have hM : 0 < M := by omega
    rw [ih s2 s1 (fun c hc => hw c (List.mem_cons_of_mem _ hc))
      (SetMapPixels_cursor_lt M hM w _ s2 h2) h3]
    rw [← selectTab_data widgetIndex s]
    rw [SetMapPixels_eq_steps] at h2
    simp only [Option.map_eq_some'] at h2
    obtain ⟨d, hd, hs2⟩ := h2
    rw [← hs2]
    apply steps_frame_edge M w _ _ _ M 0 _ d hd
    intro t _ ht
    rw [selectTab_cursor]
    by_cases hsame : s._currentLine = L ∧ t = i
    · right
      rw [hsame.1, hsame.2, hwc.1, hwc.2]
      exact hedge
    · left
      rw [hcast]
      have hne : L ≠ s._currentLine ∨ i ≠ t := by
        by_contra hcon
        simp only [not_or, not_not] at hcon
        exact hsame ⟨hcon.1.symm, hcon.2.symm⟩
      have hd0 := destination_pairs_disjoint M L s._currentLine i t hL hcur hi (by omega) hne
        e 0 he (Or.inl rfl)
      have hd1 := destination_pairs_disjoint M L s._currentLine i t hL hcur hi (by omega) hne
        e 1 he (Or.inr rfl)
      exact ⟨by simpa using hd0, hd1⟩

/-- C22: after `InitMap` followed by any number of `SetMapPixels` calls in worlds that share
the rotation and the `MapIsEdge` predicate (the display mode may change in between), for
every line `L < M` and step `i < M` whose world tile satisfies `MapIsEdge`, both bytes of that
tile's pixel pair still equal the void index `PALETTE_INDEX_10`. -/
theorem edge_tiles_stay_void (M rot : Nat) (isEdge : CoordsXY → Bool)
    (calls : List (World × Nat)) (s : MapWindow) (L i : Nat)
    (hsize : s._mapImageData.length = (M * 2) * (M * 2)) (hL : L < M) (hi : i < M)
    (hworld : ∀ c ∈ calls,
      c.1.Classifiable ∧ c.1.GetCurrentRotation = rot ∧ c.1.MapIsEdge = isEdge)
    (hedge : isEdge (MapWindow.SetMapPixels.position M rot L i) = true) :
    ∃ s1, MapWindow.SetMapPixels.run M calls s.InitMap = some s1 ∧
      s1._mapImageData[(MapWindow.SetMapPixels.destination M L i).toNat]?
        = some PALETTE_INDEX_10 ∧
      s1._mapImageData[(MapWindow.SetMapPixels.destination M L i + 1).toNat]?
        = some PALETTE_INDEX_10 := by
  have hM : 0 < M := by omega
  have hwell : s.InitMap.WellSized M :=
    ⟨hM, by simp only [MapWindow.InitMap, List.length_replicate]; exact hsize⟩
  obtain ⟨⟨s1, h1, _, _⟩, _⟩ := run_some M calls s.InitMap (fun c hc => (hworld c hc).1) hwell
  have hoff := bitmap_offset_lt M ((M : Int) - 1 - L + i) ((L : Int) + i) (by omega)
    (by omega) (by omega) (by omega)
  have hdest : MapWindow.SetMapPixels.destination M L i
      = ((L : Int) + i) * MAP_WINDOW_MAP_SIZE M + ((M : Int) - 1 - L + i) := by
    rw [destination_eq M L i hL]; rfl
  have hvoid : ∀ e : Int, e = 0 ∨ e = 1 →
      s1._mapImageData[(MapWindow.SetMapPixels.destination M L i + e).toNat]?
        = some PALETTE_INDEX_10 := by
    intro e he
    rw [run_frame_edge M rot isEdge L i e hL hi he hedge calls s.InitMap s1
      (fun c hc => (hworld c hc).2) hM h1]
    have hlt : (MapWindow.SetMapPixels.destination M L i + e).toNat
        < (List.replicate s._mapImageData.length PALETTE_INDEX_10).length := by
      rw [List.length_replicate, hsize, hdest]
      have := hoff.2
      rcases he with he | he <;> subst he <;> omega
    show (List.replicate s._mapImageData.length PALETTE_INDEX_10)[_]? = _
    rw [List.getElem?_eq_getElem hlt, List.getElem_replicate]
  refine ⟨s1, h1, ?_, hvoid 1 (Or.inr rfl)⟩
  have := hvoid 0 (Or.inl rfl)
  simpa using this

/-- C22 (witness): on the 4 x 4 sample window (`M = 2`), in a rotation-0 world whose tiles
with `x < 32` or `y < 32` are edges, the tile of line 0, step 1 is the edge tile `(0, 32)`;
after `InitMap` and two calls (rides mode, then people mode) its pixel pair at offsets 6 and 7
is still void. -/
theorem edge_tiles_stay_void_witness :
    (sampleBorderWorld 0 [sampleSurface false true true 0]).MapIsEdge
        (MapWindow.SetMapPixels.position 2 0 0 1) = true ∧
    MapWindow.SetMapPixels.destination 2 0 1 = 6 ∧
    ∃ s1, MapWindow.SetMapPixels.run 2
        [(sampleBorderWorld 0 [sampleSurface false true true 0], WIDX_RIDES_TAB),
         (sampleBorderWorld 0 [sampleSurface false true true 0], WIDX_PEOPLE_TAB)]
        sampleWindow.InitMap = some s1 ∧
      s1._mapImageData[(MapWindow.SetMapPixels.destination 2 0 1).toNat]?
        = some PALETTE_INDEX_10 ∧
      s1._mapImageData[(MapWindow.SetMapPixels.destination 2 0 1 + 1).toNat]?
        = some PALETTE_INDEX_10 :=
  ⟨by decide, by decide,
   edge_tiles_stay_void 2 0 (sampleBorderWorld 0 [sampleSurface false true true 0]).MapIsEdge
      [(sampleBorderWorld 0 [sampleSurface false true true 0], WIDX_RIDES_TAB),
       (sampleBorderWorld 0 [sampleSurface false true true 0], WIDX_PEOPLE_TAB)]
      sampleWindow 0 1 (by decide) (by decide) (by decide)
      (fun c hc => by
        rcases List.mem_cons.mp hc with h | h
        · rw [h]; exact ⟨fun _ _ => ⟨rfl, rfl⟩, rfl, rfl⟩
        · rw [List.mem_singleton.mp h]; exact ⟨fun _ _ => ⟨rfl, rfl⟩, rfl, rfl⟩)
      (by decide)⟩

/-! ## The land-rights tool -/

theorem checkbox_one_hot (a : Nat) (ha : a ∈ [0, 1, 2, 4, 8]) :
    ∀ c ∈ [(2, 0xF2), (8, 0xF8), (1, 0xF1), (4, 0xF4)],
      MapWindow.ToolFields.OnMouseUp.checkbox c.1 c.2 a ∈ [0, 1, 2, 4, 8] ∧
      (a &&& c.1 = 0 → MapWindow.ToolFields.OnMouseUp.checkbox c.1 c.2 a = c.1) ∧
      (a &&& c.1 ≠ 0 → MapWindow.ToolFields.OnMouseUp.checkbox c.1 c.2 a = 0) := by
  simp only [List.mem_cons, List.mem_singleton, List.not_mem_nil, or_false] at ha
  rcases ha with h | h | h | h | h <;> subst h <;> decide

theorem OnMouseUp_activeTool (MIN : Int) (toolSet : Bool) (w : Nat) (s : MapWindow.ToolFields)
    (hs : s._activeTool ∈ [0, 1, 2, 4, 8]) :
    (MapWindow.ToolFields.OnMouseUp MIN toolSet w s)._activeTool ∈ [0, 1, 2, 4, 8] := by
  have h := checkbox_one_hot s._activeTool hs
  unfold MapWindow.ToolFields.OnMouseUp
  split_ifs
  · exact hs
  · show (2 : Nat) ∈ [0, 1, 2, 4, 8]
    decide
  · exact (h (2, 0xF2) (by decide)).1
  · exact (h (8, 0xF8) (by decide)).1
  · exact (h (1, 0xF1) (by decide)).1
  · exact (h (4, 0xF4) (by decide)).1
  · exact hs

theorem clicks_activeTool (MIN : Int) (widgets : List Nat) :
    ∀ s : MapWindow.ToolFields, s._activeTool ∈ [0, 1, 2, 4, 8] →
      (MapWindow.ToolFields.clicks MIN widgets s)._activeTool ∈ [0, 1, 2, 4, 8] := by
  induction widgets with
  | nil => intro s hs; exact hs
  | cons w widgets ih =>
    intro s hs
    exact ih _ (OnMouseUp_activeTool MIN false w s hs)

/-- C25: selecting the land-rights tool sets `_activeTool = 2`; after any sequence of clicks
that follows (on the four checkboxes or on any other widget) `_activeTool` is one of
0, 1, 2, 4, 8; in such a state a click on a checkbox whose bit is clear leaves exactly that
bit set and a click on the checkbox whose bit is set leaves 0; and the ownership argument
`_activeTool << 4` that `OnToolDrag` sends is one of 0x00, 0x10, 0x20, 0x40, 0x80. -/
theorem land_rights_mask_one_hot (MIN : Int) (s0 : MapWindow.ToolFields)
    (widgets : List Nat) :
    (MapWindow.ToolFields.OnMouseUp MIN false WIDX_SET_LAND_RIGHTS s0)._activeTool = 2 ∧
    (MapWindow.ToolFields.clicks MIN widgets
      (MapWindow.ToolFields.OnMouseUp MIN false WIDX_SET_LAND_RIGHTS s0))._activeTool
      ∈ [0, 1, 2, 4, 8] ∧
    (∀ c ∈ landRightsCheckboxes, ∀ toolSet : Bool,
      ((MapWindow.ToolFields.clicks MIN widgets
          (MapWindow.ToolFields.OnMouseUp MIN false WIDX_SET_LAND_RIGHTS s0))._activeTool
          &&& c.2 = 0 →
        (MapWindow.ToolFields.OnMouseUp MIN toolSet c.1
          (MapWindow.ToolFields.clicks MIN widgets
            (MapWindow.ToolFields.OnMouseUp MIN false WIDX_SET_LAND_RIGHTS s0)))._activeTool
          = c.2) ∧
      ((MapWindow.ToolFields.clicks MIN widgets
          (MapWindow.ToolFields.OnMouseUp MIN false WIDX_SET_LAND_RIGHTS s0))._activeTool
          &&& c.2 ≠ 0 →
        (MapWindow.ToolFields.OnMouseUp MIN toolSet c.1
          (MapWindow.ToolFields.clicks MIN widgets
            (MapWindow.ToolFields.OnMouseUp MIN false WIDX_SET_LAND_RIGHTS s0)))._activeTool
          = 0)) ∧
    ∃ m, MapWindow.ToolFields.OnToolDrag WIDX_SET_LAND_RIGHTS true
        (MapWindow.ToolFields.clicks MIN widgets
          (MapWindow.ToolFields.OnMouseUp MIN false WIDX_SET_LAND_RIGHTS s0)) = some m ∧
      m ∈ [0x00, 0x10, 0x20, 0x40, 0x80] := by
  have hstart : (MapWindow.ToolFields.OnMouseUp MIN false WIDX_SET_LAND_RIGHTS s0)._activeTool
      = 2 := rfl
  have hinv := clicks_activeTool MIN widgets
    (MapWindow.ToolFields.OnMouseUp MIN false WIDX_SET_LAND_RIGHTS s0)
    (by rw [hstart]; decide)
  generalize MapWindow.ToolFields.clicks MIN widgets
    (MapWindow.ToolFields.OnMouseUp MIN false WIDX_SET_LAND_RIGHTS s0) = s at hinv ⊢
  have h := checkbox_one_hot s._activeTool hinv
  refine ⟨hstart, hinv, ?_, s._activeTool <<< 4, rfl, ?_⟩
  · intro c hc toolSet
    simp only [landRightsCheckboxes, List.mem_cons, List.mem_singleton, List.not_mem_nil,
      or_false] at hc
    rcases hc with hc | hc | hc | hc <;> subst hc
    · exact (h (2, 0xF2) (by decide)).2
    · exact (h (8, 0xF8) (by decide)).2
    · exact (h (1, 0xF1) (by decide)).2
    · exact (h (4, 0xF4) (by decide)).2
  · simp only [List.mem_cons, List.mem_singleton, List.not_mem_nil, or_false] at hinv
    rcases hinv with h1 | h1 | h1 | h1 | h1 <;> rw [h1] <;> decide

/-- C25 (witness): from the sample fields, selecting the tool and then clicking land sale,
construction rights owned and construction rights owned again leaves `_activeTool = 0`; a
further click on land owned gives 2, and the mask sent is 0. -/
theorem land_rights_mask_one_hot_witness :
    (MapWindow.ToolFields.clicks 1
      [WIDX_LAND_SALE_CHECKBOX, WIDX_CONSTRUCTION_RIGHTS_OWNED_CHECKBOX,
       WIDX_CONSTRUCTION_RIGHTS_OWNED_CHECKBOX]
      (MapWindow.ToolFields.OnMouseUp 1 false WIDX_SET_LAND_RIGHTS sampleToolFields))._activeTool
      = 0 ∧
    (MapWindow.ToolFields.clicks 1
      [WIDX_LAND_SALE_CHECKBOX, WIDX_CONSTRUCTION_RIGHTS_OWNED_CHECKBOX,
       WIDX_CONSTRUCTION_RIGHTS_OWNED_CHECKBOX]
      (MapWindow.ToolFields.OnMouseUp 1 false WIDX_SET_LAND_RIGHTS sampleToolFields))._activeTool
      ∈ [0, 1, 2, 4, 8] :=
  ⟨by decide,
   (land_rights_mask_one_hot 1 sampleToolFields
      [WIDX_LAND_SALE_CHECKBOX, WIDX_CONSTRUCTION_RIGHTS_OWNED_CHECKBOX,
       WIDX_CONSTRUCTION_RIGHTS_OWNED_CHECKBOX]).2.1⟩

theorem toUInt16_of_range (v : Int) (h0 : 0 ≤ v) (h1 : v ≤ 65535) : (toUInt16 v : Int) = v := by
  unfold toUInt16
  omega

theorem clamp_range (v lo hi : Int) (h : lo ≤ hi) :
    lo ≤ clamp v lo hi ∧ clamp v lo hi ≤ hi := by
  unfold clamp
  split_ifs <;> omega

theorem handle_size (MIN MAX : Int) (h0 : 0 ≤ MIN) (h1 : MIN ≤ MAX) (h2 : MAX ≤ 65535)
    (e : MapWindow.Event) (s : MapWindow.ToolFields)
    (hs : MIN ≤ (s._landRightsToolSize : Int) ∧ (s._landRightsToolSize : Int) ≤ MAX) :
    MIN ≤ ((MapWindow.ToolFields.handle MIN MAX s e)._landRightsToolSize : Int) ∧
    ((MapWindow.ToolFields.handle MIN MAX s e)._landRightsToolSize : Int) ≤ MAX := by
  cases e with
  | mouseUp widgetIndex toolSet =>
    simp only [MapWindow.ToolFields.handle, MapWindow.ToolFields.OnMouseUp]
    split_ifs
    · exact hs
    · show MIN ≤ ((max (toUInt16 MIN) s._landRightsToolSize : Nat) : Int) ∧
        ((max (toUInt16 MIN) s._landRightsToolSize : Nat) : Int) ≤ MAX
      have := toUInt16_of_range MIN h0 (by omega)
      omega
    all_goals exact hs
  | mouseDown widgetIndex =>
    simp only [MapWindow.ToolFields.handle, MapWindow.ToolFields.OnMouseDown]
    split_ifs
    · show MIN ≤ (toUInt16 (max MIN ((s._landRightsToolSize : Int) - 1)) : Int) ∧
        (toUInt16 (max MIN ((s._landRightsToolSize : Int) - 1)) : Int) ≤ MAX
      rw [toUInt16_of_range _ (by omega) (by omega)]
      omega
    · show MIN ≤ (toUInt16 (min MAX ((s._landRightsToolSize : Int) + 1)) : Int) ∧
        (toUInt16 (min MAX ((s._landRightsToolSize : Int) + 1)) : Int) ≤ MAX
      rw [toUInt16_of_range _ (by omega) (by omega)]
      omega
    · exact hs
  | textInput widgetIndex text =>
    simp only [MapWindow.ToolFields.handle, MapWindow.ToolFields.OnTextInput]
    split_ifs
    · exact hs
    · show MIN ≤ (toUInt16 (clamp (toInt32 text.strtol) MIN MAX) : Int) ∧
        (toUInt16 (clamp (toInt32 text.strtol) MIN MAX) : Int) ≤ MAX
      have hc := clamp_range (toInt32 text.strtol) MIN MAX h1
      rw [toUInt16_of_range _ (by omega) (by omega)]
      exact hc
    all_goals exact hs

theorem run_size (MIN MAX : Int) (h0 : 0 ≤ MIN) (h1 : MIN ≤ MAX) (h2 : MAX ≤ 65535)
    (events : List MapWindow.Event) :
    ∀ s : MapWindow.ToolFields,
      MIN ≤ (s._landRightsToolSize : Int) ∧ (s._landRightsToolSize : Int) ≤ MAX →
      MIN ≤ ((MapWindow.ToolFields.run MIN MAX events s)._landRightsToolSize : Int) ∧
      ((MapWindow.ToolFields.run MIN MAX events s)._landRightsToolSize : Int) ≤ MAX := by
  induction events with
  | nil => intro s hs; exact hs
  | cons e events ih =>
    intro s hs
    exact ih _ (handle_size MIN MAX h0 h1 h2 e s hs)

/-- C26: with `0 <= MINIMUM_TOOL_SIZE <= 1 <= MAXIMUM_TOOL_SIZE <= 65535`, in every state
reached from `OnOpen` by any sequence of events (tool selections, presses on the smaller and
larger buttons, text inputs, and clicks on any other widget) the brush size lies in
`[MINIMUM_TOOL_SIZE, MAXIMUM_TOOL_SIZE]`; in such a state "smaller" leaves the size unchanged
at the minimum and otherwise decrements it by one, and "larger" leaves it unchanged at the
maximum and otherwise increments it by one. -/
theorem brush_size_in_range (MIN MAX : Int) (h0 : 0 ≤ MIN) (h1 : MIN ≤ 1) (h2 : 1 ≤ MAX)
    (h3 : MAX ≤ 65535) (events : List MapWindow.Event) (s0 : MapWindow.ToolFields) :
    MIN ≤ ((MapWindow.ToolFields.run MIN MAX events s0.OnOpen)._landRightsToolSize : Int) ∧
    ((MapWindow.ToolFields.run MIN MAX events s0.OnOpen)._landRightsToolSize : Int) ≤ MAX ∧
    ((MapWindow.ToolFields.OnMouseDown MIN MAX WIDX_LAND_TOOL_SMALLER
        (MapWindow.ToolFields.run MIN MAX events s0.OnOpen))._landRightsToolSize : Int)
      = (if ((MapWindow.ToolFields.run MIN MAX events s0.OnOpen)._landRightsToolSize : Int)
            = MIN
         then ((MapWindow.ToolFields.run MIN MAX events s0.OnOpen)._landRightsToolSize : Int)
         else ((MapWindow.ToolFields.run MIN MAX events s0.OnOpen)._landRightsToolSize : Int)
            - 1) ∧
    ((MapWindow.ToolFields.OnMouseDown MIN MAX WIDX_LAND_TOOL_LARGER
        (MapWindow.ToolFields.run MIN MAX events s0.OnOpen))._landRightsToolSize : Int)
      = (if ((MapWindow.ToolFields.run MIN MAX events s0.OnOpen)._landRightsToolSize : Int)
            = MAX
         then ((MapWindow.ToolFields.run MIN MAX events s0.OnOpen)._landRightsToolSize : Int)
         else ((MapWindow.ToolFields.run MIN MAX events s0.OnOpen)._landRightsToolSize : Int)
            + 1) := by
  have hinv := run_size MIN MAX h0 (by omega) h3 events s0.OnOpen
    (by show MIN ≤ ((1 : Nat) : Int) ∧ ((1 : Nat) : Int) ≤ MAX; omega)
  generalize MapWindow.ToolFields.run MIN MAX events s0.OnOpen = s at hinv ⊢
  refine ⟨hinv.1, hinv.2, ?_, ?_⟩
  · show (toUInt16 (max MIN ((s._landRightsToolSize : Int) - 1)) : Int) = _
    rw [toUInt16_of_range _ (by omega) (by omega)]
    split_ifs <;> omega
  · show (toUInt16 (min MAX ((s._landRightsToolSize : Int) + 1)) : Int) = _
    rw [toUInt16_of_range _ (by omega) (by omega)]
    split_ifs <;> omega

/-- C26 (witness): with the sizes 1 and 64, opening the window, selecting the tool, pressing
"smaller" (already at the minimum), entering the text "500" and pressing "larger" leaves
the brush size at 64, inside `[1, 64]`. -/
theorem brush_size_in_range_witness :
    (MapWindow.ToolFields.run 1 64
      [MapWindow.Event.mouseUp WIDX_SET_LAND_RIGHTS false,
       MapWindow.Event.mouseDown WIDX_LAND_TOOL_SMALLER,
       MapWindow.Event.textInput WIDX_LAND_TOOL { empty := false, strtol := 500, atEnd := true },
       MapWindow.Event.mouseDown WIDX_LAND_TOOL_LARGER]
      sampleToolFields.OnOpen)._landRightsToolSize = 64 ∧
    (1 : Int) ≤ ((MapWindow.ToolFields.run 1 64
      [MapWindow.Event.mouseUp WIDX_SET_LAND_RIGHTS false,
       MapWindow.Event.mouseDown WIDX_LAND_TOOL_SMALLER,
       MapWindow.Event.textInput WIDX_LAND_TOOL { empty := false, strtol := 500, atEnd := true },
       MapWindow.Event.mouseDown WIDX_LAND_TOOL_LARGER]
      sampleToolFields.OnOpen)._landRightsToolSize : Int) :=
  ⟨by decide,
   (brush_size_in_range 1 64 (by decide) (by decide) (by decide) (by decide)
      [MapWindow.Event.mouseUp WIDX_SET_LAND_RIGHTS false,
       MapWindow.Event.mouseDown WIDX_LAND_TOOL_SMALLER,
       MapWindow.Event.textInput WIDX_LAND_TOOL { empty := false, strtol := 500, atEnd := true },
       MapWindow.Event.mouseDown WIDX_LAND_TOOL_LARGER]
      sampleToolFields).1⟩

/-! ## Calendar arithmetic -/

/-- C27 (code at the failing input): `Date::FromYMD(0, 0, 1)` stores
`monthTicks = 65536 / 31 = 2114`; its year and month read back as 0 and 0, but
`GetDay` is `(2114 * 31) >> 16 = 0`, not 1.  The same happens for day 1 of every month, and
in the 31-day first month every day from 1 to 30 reads back one lower. -/
theorem fromYMD_day_reads_back_lower :
    Date.FromYMD 0 0 1 = some { _monthTicks := 2114, _monthsElapsed := 0 } ∧
    (Date.FromYMD 0 0 1).map Date.GetYear = some 0 ∧
    (Date.FromYMD 0 0 1).map Date.GetMonth = some 0 ∧
    (Date.FromYMD 0 0 1).bind Date.GetDay = some 0 ∧
    (∀ m ∈ List.range 8, (Date.FromYMD 0 m 1).bind Date.GetDay = some 0) ∧
    (∀ d ∈ List.range 30,
      (Date.FromYMD 0 0 ((d : Int) + 1)).bind Date.GetDay = some (d : Int)) := by
  decide

theorem update_times_succ (k : Nat) (d : Date) :
    Date.Update.times (k + 1) d = (Date.Update.times k d).Update := rfl

theorem update_times_ticks (d : Date) (hstart : d._monthTicks = 0) :
    ∀ k, (Date.Update.times k d)._monthTicks = 4 * (k % 16384) := by
  intro k
  induction k with
  | zero => simpa [Date.Update.times] using hstart
  | succ k ih =>
    simp only [Date.Update.times, Date.Update, MONTH_TICKS_INCREMENT, MASK_MONTH_TICKS]
    rw [ih]
    split_ifs with h
    · show 0 = 4 * ((k + 1) % 16384)
      omega
    · show (4 * (k % 16384) + 4) % 65536 = 4 * ((k + 1) % 16384)
      omega

theorem update_times_months (d : Date) (hstart : d._monthTicks = 0) :
    ∀ k, k < 16384 → (Date.Update.times k d)._monthsElapsed = d._monthsElapsed := by
  intro k
  induction k with
  | zero => intro _; rfl
  | succ k ih =>
    intro hk
    have ht := update_times_ticks d hstart k
    simp only [Date.Update.times, Date.Update, MONTH_TICKS_INCREMENT, MASK_MONTH_TICKS]
    rw [ht]
    split_ifs with h
    · omega
    · exact ih (by omega)

theorem update_times_rollover (d : Date) (hstart : d._monthTicks = 0) :
    (Date.Update.times 16384 d)._monthsElapsed = (d._monthsElapsed + 1) % 4294967296 := by
  have ht := update_times_ticks d hstart 16383
  have hm := update_times_months d hstart 16383 (by omega)
  have hstep : Date.Update.times 16384 d = (Date.Update.times 16383 d).Update :=
    update_times_succ 16383 d
  rw [hstep]
  simp only [Date.Update, MONTH_TICKS_INCREMENT, MASK_MONTH_TICKS]
  rw [ht]
  split_ifs with h
  · show ((Date.Update.times 16383 d)._monthsElapsed + 1) % 4294967296 = _
    rw [hm]
  · omega

/-- C28 (counterexample): for the date with `monthTicks = 0` and
`monthsElapsed = n = 4294967295`, the largest value of the `uint32_t` field, 16384 calls of
`Date::Update` leave `monthsElapsed = 0`, not `n + 1`. -/
theorem month_counter_wraps :
    (Date.Update.times 16384 { _monthTicks := 0, _monthsElapsed := 4294967295 })._monthsElapsed
      = 0 ∧
    (Date.Update.times 16384 { _monthTicks := 0, _monthsElapsed := 4294967295 })._monthsElapsed
      ≠ 4294967295 + 1 := by
  have h := update_times_rollover { _monthTicks := 0, _monthsElapsed := 4294967295 } rfl
  rw [h]
  decide

/-- C28 (amended): for a date with `monthTicks = 0` and `monthsElapsed = n`, after `k` calls
of `Date::Update` with `k < 16384` the date has `monthsElapsed = n` and `monthTicks = 4 * k`;
after exactly 16384 calls it has `monthTicks = 0` and `monthsElapsed = (n + 1) mod 2^32`, which
is `n + 1` whenever `n < 2^32 - 1`; after any number of calls `monthTicks` is a multiple of 4,
and `IsMonthStart` holds after `k` calls exactly when `k` is a multiple of 16384. -/
theorem month_length_in_ticks (d : Date) (hstart : d._monthTicks = 0) :
    (∀ k, k < 16384 →
      (Date.Update.times k d)._monthsElapsed = d._monthsElapsed ∧
      (Date.Update.times k d)._monthTicks = 4 * k) ∧
    (Date.Update.times 16384 d)._monthTicks = 0 ∧
    (Date.Update.times 16384 d)._monthsElapsed = (d._monthsElapsed + 1) % 4294967296 ∧
    (d._monthsElapsed < 4294967295 →
      (Date.Update.times 16384 d)._monthsElapsed = d._monthsElapsed + 1) ∧
    (∀ k, 4 ∣ (Date.Update.times k d)._monthTicks) ∧
    (∀ k, (Date.Update.times k d).IsMonthStart = true ↔ 16384 ∣ k) := by
  have ht := update_times_ticks d hstart
  have hr := update_times_rollover d hstart
  refine ⟨?_, ?_, hr, ?_, ?_, ?_⟩
  · intro k hk
    refine ⟨update_times_months d hstart k hk, ?_⟩
    rw [ht k]
    omega
  · rw [ht 16384]
  · intro hn
    rw [hr]
    omega
  · intro k
    rw [ht k]
    exact Dvd.intro _ rfl
  · intro k
    simp only [Date.IsMonthStart, beq_iff_eq]
    rw [ht k]
    omega

/-- C28 (witness): from the first tick of month 5, three updates give month 5 and
`monthTicks = 12`, and 16384 updates give month 6 and `monthTicks = 0`. -/
theorem month_length_in_ticks_witness :
    (Date.Update.times 3 { _monthTicks := 0, _monthsElapsed := 5 })
      = { _monthTicks := 12, _monthsElapsed := 5 } ∧
    (Date.Update.times 16384 { _monthTicks := 0, _monthsElapsed := 5 })._monthsElapsed = 5 + 1 :=
  ⟨by decide,
   (month_length_in_ticks { _monthTicks := 0, _monthsElapsed := 5 } rfl).2.2.2.1 (by decide)⟩

/-! ## Banners -/

/-- C29 (code at the failing input): the table `NeighbourCheckOrder` has nine entries but only
eight distinct ones: `(-32, +32)` stands at positions 4 and 7 and `(-32, -32)` is absent.
With a banner at `(64, 64, 0)` and a track of ride 1 on the tile `(32, 32)`, the neighbour at
offset `(-32, -32)`, no offset finds the ride and the fall-back search returns ride 2, whose
overall view is nearer; with the same track on the tile `(32, 96)`, offset `(-32, +32)`, the
result is ride 1. -/
theorem neighbour_table_misses_a_diagonal :
    NeighbourCheckOrder.length = 9 ∧
    ¬ NeighbourCheckOrder.Nodup ∧
    NeighbourCheckOrder.count { x := -32, y := 32 } = 2 ∧
    ({ x := -32, y := -32 } : CoordsXY) ∉ NeighbourCheckOrder ∧
    BannerGetRideIndexAt (sampleBannerWorld { x := 32, y := 32 }) { x := 32, y := 32, z := 0 }
      = some (some 1) ∧
    BannerGetClosestRideIndex.neighbours (sampleBannerWorld { x := 32, y := 32 })
      { x := 64, y := 64, z := 0 } NeighbourCheckOrder = some none ∧
    BannerGetClosestRideIndex (sampleBannerWorld { x := 32, y := 32 })
      { x := 64, y := 64, z := 0 } = some (some 2) ∧
    BannerGetClosestRideIndex (sampleBannerWorld { x := 32, y := 96 })
      { x := 64, y := 64, z := 0 } = some (some 1) := by
  decide

theorem trim_loop_spec (banners : List Banner) :
    ∀ n, n < banners.length → n < SIZE_MAX →
      ∃ k, k ≤ n + 1 ∧
        (TrimBanners.loop banners n).map (fun r => (r + 1) % 18446744073709551616) = some k ∧
        (∀ j b, k ≤ j → j ≤ n → banners[j]? = some b → b.IsNull = true) ∧
        (k = 0 ∨ ∃ b, banners[k - 1]? = some b ∧ b.IsNull = false) := by
  intro n
  induction n with
  | zero =>
    intro hlen _
    obtain ⟨b, hb⟩ : ∃ b, banners[0]? = some b := ⟨_, List.getElem?_eq_getElem hlen⟩
    by_cases hnull : b.IsNull = true
    · refine ⟨0, by omega, ?_, ?_, Or.inl rfl⟩
      · simp only [TrimBanners.loop, hb, hnull, if_true, Option.map_some', SIZE_MAX]
      · intro j c _ hj hc
        have hj0 : j = 0 := by omega
        rw [hj0, hb] at hc
        simp only [Option.some.injEq] at hc
        rw [← hc]
        exact hnull
    · refine ⟨1, by omega, ?_, ?_, Or.inr ⟨b, hb, by simpa using hnull⟩⟩
      · simp only [TrimBanners.loop, hb, hnull, Option.map_some']
        rfl
      · intro j c hj1 hj _
        omega
  | succ n ih =>
    intro hlen hmax
    obtain ⟨b, hb⟩ : ∃ b, banners[n + 1]? = some b := ⟨_, List.getElem?_eq_getElem hlen⟩
    have hne : ¬ (n + 1 = SIZE_MAX) := by omega
    by_cases hnull : b.IsNull = true
    · obtain ⟨k, hk, hloop, hdrop, hlast⟩ := ih (by omega) (by omega)
      refine ⟨k, by omega, ?_, ?_, hlast⟩
      · simp only [TrimBanners.loop, hb, hnull, if_true, if_neg hne]
        exact hloop
      · intro j c hkj hj hc
        by_cases hjn : j = n + 1
        · rw [hjn, hb] at hc
          simp only [Option.some.injEq] at hc
          rw [← hc]
          exact hnull
        · exact hdrop j c hkj (by omega) hc
    · refine ⟨n + 2, by omega, ?_, ?_, Or.inr ⟨b, hb, by simpa using hnull⟩⟩
      · simp only [TrimBanners.loop, hb, hnull, if_neg hne, Option.map_some']
        have : (n + 1 + 1) % 18446744073709551616 = n + 2 := by
          unfold SIZE_MAX at hmax
          omega
        simpa using this
      · intro j c hj1 hj _
        omega

theorem getNumBanners_foldl_null (l : List Banner) (h : ∀ b ∈ l, b.IsNull = true) :
    ∀ count : Nat,
      l.foldl (fun count banner => if !banner.IsNull then count + 1 else count) count
        = count := by
  induction l with
  | nil => intro count; rfl
  | cons b l ih =>
    intro count
    have hb := h b (List.mem_cons_self _ _)
    simp only [List.foldl_cons, hb, Bool.not_true, Bool.false_eq_true, if_false]
    exact ih (fun c hc => h c (List.mem_cons_of_mem _ hc)) count

theorem trim_prefix_spec (banners : List Banner) (hsize : banners.length ≤ SIZE_MAX) :
    ∃ k, k ≤ banners.length ∧ TrimBanners banners = some (banners.take k) ∧
      (∀ j b, k ≤ j → banners[j]? = some b → b.IsNull = true) ∧
      (k = 0 ∨ ∃ b, banners[k - 1]? = some b ∧ b.IsNull = false) := by
  by_cases hpos : banners.length > 0
  · obtain ⟨k, hk, hloop, hdrop, hlast⟩ :=
      trim_loop_spec banners (banners.length - 1) (by omega) (by omega)
    refine ⟨k, by omega, ?_, ?_, hlast⟩
    · unfold TrimBanners
      rw [if_pos hpos]
      simp only [Option.map_eq_some'] at hloop ⊢
      obtain ⟨r, hr, hrk⟩ := hloop
      refine ⟨r, hr, ?_⟩
      simp only [hrk]
      unfold resize
      have hz : k - banners.length = 0 := by omega
      rw [hz, List.replicate_zero, List.append_nil]
    · intro j b hkj hb
      have hj : j < banners.length := (List.getElem?_eq_some.mp hb).1
      exact hdrop j b hkj (by omega) hb
  · have hnil : banners = [] := List.length_eq_zero.mp (by omega)
    subst hnil
    refine ⟨0, by simp, ?_, ?_, Or.inl rfl⟩
    · rfl
    · intro j b _ hb
      simp at hb

/-- C30: for every banner list (of a length a `size_t` can hold) `TrimBanners` returns a
list `trimmed` that is empty or ends in a non-null entry; it has length 0 when every entry
was null and length `i + 1` when `i` is the index of the last non-null entry; every entry at
a kept index is unchanged; and `GetNumBanners` and `GetBanner(id)` for every `id` give the
same results on `trimmed` as on the list before the call. -/
theorem trimBanners_drops_trailing_nulls (banners : List Banner)
    (hsize : banners.length ≤ SIZE_MAX) :
    ∃ trimmed, TrimBanners banners = some trimmed ∧
      (trimmed = [] ∨ ∃ b, trimmed.getLast? = some b ∧ b.IsNull = false) ∧
      ((∀ b ∈ banners, b.IsNull = true) → trimmed.length = 0) ∧
      (∀ i b, banners[i]? = some b → b.IsNull = false →
        (∀ j c, i < j → banners[j]? = some c → c.IsNull = true) → trimmed.length = i + 1) ∧
      (∀ i, i < trimmed.length → trimmed[i]? = banners[i]?) ∧
      GetNumBanners trimmed = GetNumBanners banners ∧
      (∀ id, GetBanner trimmed id = GetBanner banners id) := by
  obtain ⟨k, hk, htrim, hdrop, hlast⟩ := trim_prefix_spec banners hsize
  have hlen : (banners.take k).length = k := by
    rw [List.length_take]
    omega
  refine ⟨banners.take k, htrim, ?_, ?_, ?_, ?_, ?_, ?_⟩
  · rcases hlast with h0 | ⟨b, hb, hnull⟩
    · left
      rw [h0, List.take_zero]
    · by_cases h0 : k = 0
      · left
        rw [h0, List.take_zero]
      · right
        refine ⟨b, ?_, hnull⟩
        rw [List.getLast?_eq_getElem?, hlen, List.getElem?_take_of_lt (by omega)]
        exact hb
  · intro hall
    rw [hlen]
    rcases hlast with h0 | ⟨b, hb, hnull⟩
    · exact h0
    · have := hall b (List.mem_iff_getElem?.mpr ⟨_, hb⟩)
      rw [this] at hnull
      exact absurd hnull (by decide)
  · intro i b hb hnull htail
    rw [hlen]
    have hik : i < k := by
      by_contra hcon
      have := hdrop i b (by omega) hb
      rw [this] at hnull
      exact absurd hnull (by decide)
    rcases hlast with h0 | ⟨c, hc, hcnull⟩
    · omega
    · by_contra hne
      have := htail (k - 1) c (by omega) hc
      rw [this] at hcnull
      exact absurd hcnull (by decide)
  · intro i hi
    rw [hlen] at hi
    exact List.getElem?_take_of_lt hi
  · have hsplit : GetNumBanners banners
        = GetNumBanners (banners.take k ++ banners.drop k) := by
      rw [List.take_append_drop]
    rw [hsplit]
    unfold GetNumBanners
    rw [List.foldl_append]
    symm
    apply getNumBanners_foldl_null
    intro b hb
    obtain ⟨j, hj⟩ := List.mem_iff_getElem?.mp hb
    rw [List.getElem?_drop] at hj
    exact hdrop (k + j) b (by omega) hj
  · intro id
    unfold GetBanner
    rw [hlen]
    by_cases hid : id < k
    · rw [if_pos hid, if_pos (by omega), List.getElem?_take_of_lt hid]
    · rw [if_neg hid]
      by_cases hid2 : id < banners.length
      · rw [if_pos hid2]
        have hb := List.getElem?_eq_getElem hid2
        have hnull := hdrop id _ (by omega) hb
        rw [hb]
        simp only [hnull, Bool.not_true, Bool.false_eq_true, if_false]
      · rw [if_neg hid2]

/-- C30 (witness): the sample list of five entries, whose last non-null entry is at index 2,
is trimmed to its first three entries. -/
theorem trimBanners_drops_trailing_nulls_witness :
    TrimBanners sampleBanners = some (sampleBanners.take 3) ∧
    ∃ trimmed, TrimBanners sampleBanners = some trimmed ∧
      GetNumBanners trimmed = GetNumBanners sampleBanners :=
  ⟨by decide,
   (trimBanners_drops_trailing_nulls sampleBanners (by decide)).imp
     fun _ h => ⟨h.1, h.2.2.2.2.2.1⟩⟩

end OpenRCT2
